import Mathlib

/-!
RS485 master polling engine of brickd (`red_rs485_extension.c`).

A shallow embedding of the serial framing and CRC codec, the per-slave
request queues with the round-robin master scheduler, the receive parser with
its send-verify state machine and the timeout handler, followed by the
properties established about them.

Conventions of the embedding.
* Bytes and other machine integers are natural numbers; where the C code can
  wrap (`uint8_t` increments and decrements) the reduction modulo `2^8` is
  written out.
* `receive_buffer` and `current_request_as_byte_array` are functions from an
  index to the byte stored there.
* A result `none` means that the C program has no defined result: an access
  outside an array or through a null pointer, or a call chain deeper than the
  given bound.
-/

namespace RS485

/-! ## Constants -/

def RS485_EXTENSION_FUNCTION_CODE : Nat := 100
def RECEIVE_BUFFER_SIZE : Nat := 1048576
def RS485_PACKET_HEADER_LENGTH : Nat := 3
def RS485_PACKET_FOOTER_LENGTH : Nat := 2
def TF_PACKET_MAX_LENGTH : Nat := 80
def RS485_PACKET_LENGTH_INDEX : Nat := 7
def RS485_PACKET_TRIES_DATA : Nat := 10
def RS485_PACKET_TRIES_EMPTY : Nat := 1

/-! ## CRC16 -/

/-- Table of CRC values for high-order byte (`table_crc_hi`). -/
def table_crc_hi : List Nat := [
    0x00, 0xC1, 0x81, 0x40, 0x01, 0xC0, 0x80, 0x41, 0x01, 0xC0,
    0x80, 0x41, 0x00, 0xC1, 0x81, 0x40, 0x01, 0xC0, 0x80, 0x41,
    0x00, 0xC1, 0x81, 0x40, 0x00, 0xC1, 0x81, 0x40, 0x01, 0xC0,
    0x80, 0x41, 0x01, 0xC0, 0x80, 0x41, 0x00, 0xC1, 0x81, 0x40,
    0x00, 0xC1, 0x81, 0x40, 0x01, 0xC0, 0x80, 0x41, 0x00, 0xC1,
    0x81, 0x40, 0x01, 0xC0, 0x80, 0x41, 0x01, 0xC0, 0x80, 0x41,
    0x00, 0xC1, 0x81, 0x40, 0x01, 0xC0, 0x80, 0x41, 0x00, 0xC1,
    0x81, 0x40, 0x00, 0xC1, 0x81, 0x40, 0x01, 0xC0, 0x80, 0x41,
    0x00, 0xC1, 0x81, 0x40, 0x01, 0xC0, 0x80, 0x41, 0x01, 0xC0,
    0x80, 0x41, 0x00, 0xC1, 0x81, 0x40, 0x00, 0xC1, 0x81, 0x40,
    0x01, 0xC0, 0x80, 0x41, 0x01, 0xC0, 0x80, 0x41, 0x00, 0xC1,
    0x81, 0x40, 0x01, 0xC0, 0x80, 0x41, 0x00, 0xC1, 0x81, 0x40,
    0x00, 0xC1, 0x81, 0x40, 0x01, 0xC0, 0x80, 0x41, 0x01, 0xC0,
    0x80, 0x41, 0x00, 0xC1, 0x81, 0x40, 0x00, 0xC1, 0x81, 0x40,
    0x01, 0xC0, 0x80, 0x41, 0x00, 0xC1, 0x81, 0x40, 0x01, 0xC0,
    0x80, 0x41, 0x01, 0xC0, 0x80, 0x41, 0x00, 0xC1, 0x81, 0x40,
    0x00, 0xC1, 0x81, 0x40, 0x01, 0xC0, 0x80, 0x41, 0x01, 0xC0,
    0x80, 0x41, 0x00, 0xC1, 0x81, 0x40, 0x01, 0xC0, 0x80, 0x41,
    0x00, 0xC1, 0x81, 0x40, 0x00, 0xC1, 0x81, 0x40, 0x01, 0xC0,
    0x80, 0x41, 0x00, 0xC1, 0x81, 0x40, 0x01, 0xC0, 0x80, 0x41,
    0x01, 0xC0, 0x80, 0x41, 0x00, 0xC1, 0x81, 0x40, 0x01, 0xC0,
    0x80, 0x41, 0x00, 0xC1, 0x81, 0x40, 0x00, 0xC1, 0x81, 0x40,
    0x01, 0xC0, 0x80, 0x41, 0x01, 0xC0, 0x80, 0x41, 0x00, 0xC1,
    0x81, 0x40, 0x00, 0xC1, 0x81, 0x40, 0x01, 0xC0, 0x80, 0x41,
    0x00, 0xC1, 0x81, 0x40, 0x01, 0xC0, 0x80, 0x41, 0x01, 0xC0,
    0x80, 0x41, 0x00, 0xC1, 0x81, 0x40
]

/-- Table of CRC values for low-order byte (`table_crc_lo`). -/
def table_crc_lo : List Nat := [
    0x00, 0xC0, 0xC1, 0x01, 0xC3, 0x03, 0x02, 0xC2, 0xC6, 0x06,
    0x07, 0xC7, 0x05, 0xC5, 0xC4, 0x04, 0xCC, 0x0C, 0x0D, 0xCD,
    0x0F, 0xCF, 0xCE, 0x0E, 0x0A, 0xCA, 0xCB, 0x0B, 0xC9, 0x09,
    0x08, 0xC8, 0xD8, 0x18, 0x19, 0xD9, 0x1B, 0xDB, 0xDA, 0x1A,
    0x1E, 0xDE, 0xDF, 0x1F, 0xDD, 0x1D, 0x1C, 0xDC, 0x14, 0xD4,
    0xD5, 0x15, 0xD7, 0x17, 0x16, 0xD6, 0xD2, 0x12, 0x13, 0xD3,
    0x11, 0xD1, 0xD0, 0x10, 0xF0, 0x30, 0x31, 0xF1, 0x33, 0xF3,
    0xF2, 0x32, 0x36, 0xF6, 0xF7, 0x37, 0xF5, 0x35, 0x34, 0xF4,
    0x3C, 0xFC, 0xFD, 0x3D, 0xFF, 0x3F, 0x3E, 0xFE, 0xFA, 0x3A,
    0x3B, 0xFB, 0x39, 0xF9, 0xF8, 0x38, 0x28, 0xE8, 0xE9, 0x29,
    0xEB, 0x2B, 0x2A, 0xEA, 0xEE, 0x2E, 0x2F, 0xEF, 0x2D, 0xED,
    0xEC, 0x2C, 0xE4, 0x24, 0x25, 0xE5, 0x27, 0xE7, 0xE6, 0x26,
    0x22, 0xE2, 0xE3, 0x23, 0xE1, 0x21, 0x20, 0xE0, 0xA0, 0x60,
    0x61, 0xA1, 0x63, 0xA3, 0xA2, 0x62, 0x66, 0xA6, 0xA7, 0x67,
    0xA5, 0x65, 0x64, 0xA4, 0x6C, 0xAC, 0xAD, 0x6D, 0xAF, 0x6F,
    0x6E, 0xAE, 0xAA, 0x6A, 0x6B, 0xAB, 0x69, 0xA9, 0xA8, 0x68,
    0x78, 0xB8, 0xB9, 0x79, 0xBB, 0x7B, 0x7A, 0xBA, 0xBE, 0x7E,
    0x7F, 0xBF, 0x7D, 0xBD, 0xBC, 0x7C, 0xB4, 0x74, 0x75, 0xB5,
    0x77, 0xB7, 0xB6, 0x76, 0x72, 0xB2, 0xB3, 0x73, 0xB1, 0x71,
    0x70, 0xB0, 0x50, 0x90, 0x91, 0x51, 0x93, 0x53, 0x52, 0x92,
    0x96, 0x56, 0x57, 0x97, 0x55, 0x95, 0x94, 0x54, 0x9C, 0x5C,
    0x5D, 0x9D, 0x5F, 0x9F, 0x9E, 0x5E, 0x5A, 0x9A, 0x9B, 0x5B,
    0x99, 0x59, 0x58, 0x98, 0x88, 0x48, 0x49, 0x89, 0x4B, 0x8B,
    0x8A, 0x4A, 0x4E, 0x8E, 0x8F, 0x4F, 0x8D, 0x4D, 0x4C, 0x8C,
    0x44, 0x84, 0x85, 0x45, 0x87, 0x47, 0x46, 0x86, 0x82, 0x42,
    0x43, 0x83, 0x41, 0x81, 0x80, 0x40
]

/-- One pass of the `while` loop of `crc16`: the pair is `(crc_hi, crc_lo)`. -/
def crc16_step (crc : Nat × Nat) (byte : Nat) : Nat × Nat :=
  let i := crc.1 ^^^ byte
  (crc.2 ^^^ table_crc_hi.getD i 0, table_crc_lo.getD i 0)

/-- The function `crc16(buffer, buffer_length)`; the list holds the
`buffer_length` bytes starting at `buffer`. -/
def crc16 (buffer : List Nat) : Nat :=
  let crc := buffer.foldl crc16_step (0xFF, 0xFF)
  (crc.1 <<< 8 ||| crc.2) % 65536

/-! ## Bitwise CRC-16/Modbus, as the specification words it -/

/-- Specification side: one shift of the CRC register, with XOR of the
polynomial `0xA001` when the bit shifted out is 1. -/
def modbus_shift (r : Nat) : Nat :=
  if r % 2 = 1 then (r >>> 1) ^^^ 0xA001 else r >>> 1

/-- Specification side: the byte is XORed into the low byte of the register,
then the register is shifted 8 times. -/
def modbus_byte (r byte : Nat) : Nat :=
  modbus_shift^[8] (r ^^^ byte)

/-- Specification side: bitwise CRC-16/Modbus, register initialised to `0xFFFF`. -/
def crc16_modbus_bitwise (s : List Nat) : Nat :=
  s.foldl modbus_byte 0xFFFF

/-- Exchange the two bytes of a 16-bit value. -/
def swap_bytes (r : Nat) : Nat :=
  (r % 256) * 256 + r / 256

/-! ## Data structures -/

/-- The struct `RS485ExtensionPacket`: a `Packet` (80 bytes: UID in bytes 0..3,
little-endian, `header.length` in byte 4, function id in byte 5) and its retry
budget. A copy of more than 80 bytes overruns the `Packet`; the list then
records all bytes written from its start. -/
structure RS485ExtensionPacket where
  packet : List Nat
  tries_left : Nat
deriving DecidableEq

/-- The struct `RS485Slave`; the queue is a FIFO with its head first. -/
structure RS485Slave where
  address : Nat
  sequence : Nat
  packet_queue : List RS485ExtensionPacket
deriving DecidableEq

/-- The file-scope variables of `red_rs485_extension.c` that the polling engine
reads and writes, the two inputs it takes from its surroundings (the monotonic
clock and the results of `write`), and a record of the calls it makes to the
outside (`write`, `network_dispatch_response`, `stack_add_recipient`).

`slaves` holds the first `slave_num` entries of `_red_rs485_extension.slaves`,
those whose queues exist. The bytes of `current_request_as_byte_array` are read
as unsigned, as `char` is on the ARM target of the RED Brick. -/
structure Engine where
  slaves : List RS485Slave
  master_current_slave_to_process : Int
  receive_buffer : Nat → Nat
  current_receive_buffer_index : Nat
  current_request_as_byte_array : Nat → Nat
  send_verify_flag : Bool
  sent_ack_of_data_packet : Bool
  TIMEOUT : Nat
  /-- The field `master_timer.it_value.tv_nsec` as last passed to
  `timerfd_settime`; 0 disarms the timer. -/
  master_timer_value_nsec : Nat
  last_timer_enable_at_uS : Nat
  /-- What `microseconds()` returns. -/
  microseconds : Nat
  /-- What the `k`-th call of `write` on the serial descriptor returns. -/
  write_result : Nat → Int
  /-- The buffers passed to `write`, oldest first. -/
  written : List (List Nat)
  /-- The packets passed to `network_dispatch_response`, oldest first. -/
  dispatched : List (List Nat)
  /-- The pairs passed to `stack_add_recipient`, oldest first. -/
  recipients : List (Nat × Nat)

/-- The field `_red_rs485_extension.slave_num`. -/
def Engine.slave_num (s : Engine) : Nat := s.slaves.length

/-- Size of `current_request_as_byte_array`: `sizeof(Packet) + RS485_PACKET_OVERHEAD`
with `RS485_PACKET_OVERHEAD` expanding to `3+2`. -/
def CURRENT_REQUEST_SIZE : Nat :=
  TF_PACKET_MAX_LENGTH + RS485_PACKET_HEADER_LENGTH + RS485_PACKET_FOOTER_LENGTH

/-! ## Queue (daemonlib collaborator) -/

/-- Modelled from the spec: `queue_peek` of daemonlib, the head of the FIFO or
`NULL` when it is empty. -/
def queue_peek (q : List RS485ExtensionPacket) : Option RS485ExtensionPacket := q.head?

/-- Modelled from the spec: `queue_pop` of daemonlib, removing the head of the
FIFO (nothing happens on an empty queue). -/
def queue_pop (q : List RS485ExtensionPacket) : List RS485ExtensionPacket := q.tail

/-- Modelled from the spec: `queue_push` of daemonlib appends a new item at the
tail of the FIFO; the item is handed out zero-filled and the caller fills it. -/
def queue_push (q : List RS485ExtensionPacket) (item : RS485ExtensionPacket) :
    List RS485ExtensionPacket := q ++ [item]

/-- An `RS485ExtensionPacket` of zero bytes, as left by `memset` or handed out
by `queue_push`. -/
def zero_packet : RS485ExtensionPacket :=
  { packet := List.replicate TF_PACKET_MAX_LENGTH 0, tries_left := 0 }

/-- The field `packet.header.length`. -/
def header_length (p : List Nat) : Nat := p.getD 4 0

/-- A 32-bit value read by `memcpy` from four bytes, little-endian. -/
def uid_of_bytes (b0 b1 b2 b3 : Nat) : Nat :=
  b0 + 256 * b1 + 65536 * b2 + 16777216 * b3

/-- The field `packet.header.uid`. -/
def header_uid (p : List Nat) : Nat :=
  uid_of_bytes (p.getD 0 0) (p.getD 1 0) (p.getD 2 0) (p.getD 3 0)

/-- The item pushed by `master_poll_slave` and written over the queue head by
`verify_buffer`: all zero except `tries_left = RS485_PACKET_TRIES_EMPTY` and
`packet.header.length = 8`. -/
def empty_packet : RS485ExtensionPacket :=
  { packet := zero_packet.packet.set 4 8, tries_left := RS485_PACKET_TRIES_EMPTY }

/-- The 80 bytes of a zeroed `Packet` of which the first `n` are those of `src`. -/
def copied_packet (src : Nat → Nat) (n : Nat) : List Nat :=
  (List.range TF_PACKET_MAX_LENGTH).map (fun k => if k < n then src k else 0)

/-- A zeroed `Packet` into which `n` bytes of `src` are copied by `memcpy`:
`none` when `n` exceeds the 80 bytes of a `Packet`, where the copy writes past
the object. -/
def memcpy_packet (src : Nat → Nat) (n : Nat) : Option (List Nat) :=
  if n ≤ TF_PACKET_MAX_LENGTH then some (copied_packet src n) else none

/-- The bytes `buffer[0] .. buffer[n-1]`. -/
def span (buffer : Nat → Nat) (n : Nat) : List Nat := (List.range n).map buffer

/-- The buffer after `read` stored `data` from index `at_index` on. -/
def store_bytes (buffer : Nat → Nat) (at_index : Nat) (data : List Nat) : Nat → Nat :=
  fun j => if at_index ≤ j ∧ j < at_index + data.length then data.getD (j - at_index) 0
    else buffer j

/-- The buffer after `memmove(&buffer[0], &buffer[start], n)`. -/
def move_to_front (buffer : Nat → Nat) (start n : Nat) : Nat → Nat :=
  fun j => if j < n then buffer (start + j) else buffer j

/-! ## Access to the current slave -/

/-- The element `slaves[master_current_slave_to_process]`; `none` when the index is
outside `0 .. slave_num - 1`. -/
def Engine.current_slave (s : Engine) : Option RS485Slave :=
  if 0 ≤ s.master_current_slave_to_process then
    s.slaves[s.master_current_slave_to_process.toNat]?
  else none

/-- Store into `slaves[master_current_slave_to_process]`. -/
def Engine.set_current_slave (s : Engine) (slave : RS485Slave) : Engine :=
  { s with slaves := s.slaves.set s.master_current_slave_to_process.toNat slave }

/-! ## Send path -/

/-- The local array `rs485_packet` of `send_packet` once assembled: address,
function code, sequence, the `header.length` bytes of the queued packet, and the
CRC16 of all of these, high byte first. -/
def rs485_packet (current_slave : RS485Slave) (packet_to_send : RS485ExtensionPacket) :
    List Nat :=
  let length := header_length packet_to_send.packet
  let body := [current_slave.address, RS485_EXTENSION_FUNCTION_CODE, current_slave.sequence]
    ++ (List.range length).map (fun k => packet_to_send.packet.getD k 0)
  let packet_crc16 := crc16 body
  body ++ [packet_crc16 >>> 8, packet_crc16 &&& 0x00FF]

/-- The function `disable_master_timer`. -/
def disable_master_timer (s : Engine) : Engine :=
  { s with master_timer_value_nsec := 0 }

mutual

/-- The function `send_packet`. The first argument bounds the depth of the chain
of calls between `send_packet` and `master_poll_slave`. A queued length above
80 would overrun `current_request_as_byte_array`. -/
def send_packet : Nat → Engine → Option Engine
  | 0, _ => none
  | fuel + 1, s =>
    match s.current_slave with
    | none => none
    | some current_slave =>
      match queue_peek current_slave.packet_queue with
      | none => master_poll_slave fuel s
      | some packet_to_send =>
        if TF_PACKET_MAX_LENGTH < header_length packet_to_send.packet then none
        else
          let frame := rs485_packet current_slave packet_to_send
          let s1 := { s with written := s.written ++ [frame] }
          if s.write_result s.written.length ≤ 0 then master_poll_slave fuel s1
          else
            some { s1 with
              current_request_as_byte_array := fun j =>
                if j < frame.length then frame.getD j 0 else s.current_request_as_byte_array j
              send_verify_flag := true
              master_timer_value_nsec := s.TIMEOUT
              last_timer_enable_at_uS := s.microseconds }

/-- The function `master_poll_slave`. -/
def master_poll_slave : Nat → Engine → Option Engine
  | 0, _ => none
  | fuel + 1, s =>
    let s1 := { s with
      sent_ack_of_data_packet := false
      current_receive_buffer_index := 0
      receive_buffer := fun _ => 0
      master_current_slave_to_process :=
        if s.master_current_slave_to_process + 1 ≥ (s.slave_num : Int) then 0
        else s.master_current_slave_to_process + 1 }
    match s1.current_slave with
    | none => none
    | some slave =>
      match queue_peek slave.packet_queue with
      | none =>
        send_packet fuel
          (s1.set_current_slave
            { slave with packet_queue := queue_push slave.packet_queue empty_packet })
      | some _ => send_packet fuel s1

end

/-! ## Failure recovery -/

/-- The function `is_current_request_empty`: the saved request has UID 0,
length 8 and a zero byte 8. -/
def is_current_request_empty (s : Engine) : Bool :=
  let a := s.current_request_as_byte_array
  decide (uid_of_bytes (a 3) (a 4) (a 5) (a 6) = 0 ∧ a 7 = 8 ∧ a 8 = 0)

/-- The statement `++slaves[master_current_slave_to_process].sequence` on the
`uint8_t` field. -/
def increment_sequence (s : Engine) : Option Engine :=
  match s.current_slave with
  | none => none
  | some slave => some (s.set_current_slave { slave with sequence := (slave.sequence + 1) % 256 })

/-- The statement `queue_pop(&slaves[master_current_slave_to_process].packet_queue, NULL)`. -/
def pop_current_queue (s : Engine) : Option Engine :=
  match s.current_slave with
  | none => none
  | some slave => some (s.set_current_slave { slave with packet_queue := queue_pop slave.packet_queue })

/-- The function `pop_packet_from_slave_queue`: `--tries_left` on the `uint8_t`
field of the queue head, which is popped when the result is 0. -/
def pop_packet_from_slave_queue (s : Engine) : Option Engine :=
  match s.current_slave with
  | none => none
  | some slave =>
    match slave.packet_queue with
    | [] => some s
    | head :: rest =>
      let tries_left := (head.tries_left + 255) % 256
      if tries_left = 0 then
        some (s.set_current_slave { slave with packet_queue := queue_pop (head :: rest) })
      else
        some (s.set_current_slave
          { slave with packet_queue := { head with tries_left := tries_left } :: rest })

/-- The function `seq_pop_poll`. -/
def seq_pop_poll (fuel : Nat) (s : Engine) : Option Engine :=
  (if is_current_request_empty s then increment_sequence s else some s).bind fun s1 =>
  (pop_packet_from_slave_queue s1).bind fun s2 =>
  master_poll_slave fuel s2

/-! ## Receive parser -/

/-- The expression `7+((receive_buffer[RS485_PACKET_LENGTH_INDEX] - 5) + RS485_PACKET_FOOTER_LENGTH)`,
computed in `int`. -/
def packet_end_index (length_byte : Nat) : Nat :=
  (7 + (((length_byte : Int) - 5) + (RS485_PACKET_FOOTER_LENGTH : Int))).toNat

/-- The comparison loop `for(i = 0; i <= packet_end_index; i++)` of `verify_buffer`,
entered at index `i` with `n` passes to go: `some true` when all bytes compared
equal, `some false` at the first difference, `none` when the loop reads
`current_request_as_byte_array` past its end. -/
def send_verify_loop (receive_buffer current_request : Nat → Nat) : Nat → Nat → Option Bool
  | 0, _ => some true
  | n + 1, i =>
    if CURRENT_REQUEST_SIZE ≤ i then none
    else if receive_buffer i ≠ current_request i then some false
    else send_verify_loop receive_buffer current_request n (i + 1)

/-- The checks of address, function code, sequence number and CRC16 that both
reply branches of `verify_buffer` make, in this order. -/
def reply_checks_pass (s : Engine) (packet_end_index : Nat) : Bool :=
  let b := s.receive_buffer
  let a := s.current_request_as_byte_array
  if b 0 ≠ a 0 then false
  else if b 1 ≠ a 1 then false
  else if b 2 ≠ a 2 then false
  else
    let crc16_calculated := crc16 (span b ((packet_end_index - RS485_PACKET_FOOTER_LENGTH) + 1))
    let crc16_on_packet := ((b (packet_end_index - 1) <<< 8) ||| b packet_end_index) % 65536
    if crc16_calculated ≠ crc16_on_packet then false else true

/-- The function `verify_buffer`. The first argument bounds the depth of its
calls of itself, the second is passed on to `master_poll_slave` and
`send_packet`. -/
def verify_buffer : Nat → Nat → Engine → Option Engine
  | 0, _, _ => none
  | depth + 1, fuel, s =>
    let b := s.receive_buffer
    if s.current_receive_buffer_index < 8 then some s
    else
      let packet_end_index := packet_end_index (b RS485_PACKET_LENGTH_INDEX)
      if s.current_receive_buffer_index ≤ packet_end_index then some s
      else if s.send_verify_flag then
        match send_verify_loop b s.current_request_as_byte_array (packet_end_index + 1) 0 with
        | none => none
        | some false => seq_pop_poll fuel (disable_master_timer s)
        | some true =>
          let s1 := { s with send_verify_flag := false }
          if s1.sent_ack_of_data_packet then
            (increment_sequence (disable_master_timer s1)).bind fun s2 =>
            (pop_current_queue s2).bind fun s3 =>
            master_poll_slave fuel s3
          else if s1.current_receive_buffer_index = packet_end_index + 1 then
            some { s1 with current_receive_buffer_index := 0, receive_buffer := fun _ => 0 }
          else if s1.current_receive_buffer_index > packet_end_index + 1 then
            let n := s1.current_receive_buffer_index - (packet_end_index + 1)
            let s2 := { s1 with
              receive_buffer := move_to_front b (packet_end_index + 1) n
              current_receive_buffer_index := n }
            if s2.current_receive_buffer_index ≥ 8 then verify_buffer depth fuel s2
            else some s2
          else seq_pop_poll fuel (disable_master_timer s1)
      else
        let uid_from_packet := uid_of_bytes (b 3) (b 4) (b 5) (b 6)
        if uid_from_packet = 0 ∧ b RS485_PACKET_LENGTH_INDEX = 8 ∧ b 8 = 0 then
          if reply_checks_pass s packet_end_index then
            (increment_sequence (disable_master_timer s)).bind fun s2 =>
            (pop_current_queue s2).bind fun s3 =>
            master_poll_slave fuel s3
          else seq_pop_poll fuel (disable_master_timer s)
        else if uid_from_packet ≠ 0 ∧ b 8 ≠ 0 then
          if reply_checks_pass s packet_end_index then
            match memcpy_packet (fun k => b (3 + k)) (b RS485_PACKET_LENGTH_INDEX) with
            | none => none
            | some dispatch_packet =>
              let s1 := { s with
                dispatched := s.dispatched ++ [dispatch_packet]
                recipients := s.recipients ++ [(uid_from_packet, b 0)] }
              match s1.current_slave with
              | none => none
              | some slave =>
                match slave.packet_queue with
                | [] => none
                | _ :: rest =>
                  let s2 := s1.set_current_slave
                    { slave with packet_queue := empty_packet :: rest }
                  send_packet fuel { s2 with
                    current_receive_buffer_index := 0
                    sent_ack_of_data_packet := true
                    receive_buffer := fun _ => 0 }
          else seq_pop_poll fuel (disable_master_timer s)
        else seq_pop_poll fuel (disable_master_timer s)

/-- The function `serial_data_available_handler`. `incoming` is what `read` finds
on the serial descriptor: `none` when it fails, else the bytes waiting, of which
it stores at most `RECEIVE_BUFFER_SIZE - current_receive_buffer_index`. The
bound of the space check is `RECEIVE_BUFFER_SIZE - RS485_PACKET_MAX_LENGTH` with
the macro expanding to `TF_PACKET_MAX_LENGTH+3+2`. -/
def serial_data_available_handler (depth fuel : Nat) (incoming : Option (List Nat))
    (s : Engine) : Option Engine :=
  if s.current_receive_buffer_index ≥
      RECEIVE_BUFFER_SIZE - TF_PACKET_MAX_LENGTH + RS485_PACKET_HEADER_LENGTH
        + RS485_PACKET_FOOTER_LENGTH then
    master_poll_slave fuel s
  else
    match incoming with
    | none => some s
    | some bytes =>
      let data := bytes.take (RECEIVE_BUFFER_SIZE - s.current_receive_buffer_index)
      verify_buffer depth fuel { s with
        receive_buffer := store_bytes s.receive_buffer s.current_receive_buffer_index data
        current_receive_buffer_index := s.current_receive_buffer_index + data.length }

/-! ## Timeout handler -/

/-- The value assigned to `time_passed_from_last_timer_enable`,
`(microseconds() - last_timer_enable_at_uS) * 1000` computed in `uint64_t`. -/
def time_passed_from_last_timer_enable (s : Engine) : Nat :=
  (((s.microseconds + 2 ^ 64 - s.last_timer_enable_at_uS % 2 ^ 64) % 2 ^ 64) * 1000) % 2 ^ 64

/-- The function `master_timeout_handler`. -/
def master_timeout_handler (fuel : Nat) (s : Engine) : Option Engine :=
  let s1 := disable_master_timer s
  if time_passed_from_last_timer_enable s1 < s1.TIMEOUT then
    some { s1 with
      master_timer_value_nsec := s1.TIMEOUT - time_passed_from_last_timer_enable s1
      last_timer_enable_at_uS := s1.microseconds }
  else
    (if is_current_request_empty s1 then increment_sequence s1 else some s1).bind fun s2 =>
    (pop_packet_from_slave_queue s2).bind fun s3 =>
    master_poll_slave fuel s3

/-! ## Dispatch from the host -/

/-- The item that `red_rs485_extension_dispatch_to_rs485` fills after `queue_push`
when `header.length` is at most 80: `tries_left = RS485_PACKET_TRIES_DATA` and
a copy of `header.length` bytes of the request. -/
def queued_request (request : List Nat) : RS485ExtensionPacket :=
  { packet := copied_packet (fun k => request.getD k 0) (header_length request)
    tries_left := RS485_PACKET_TRIES_DATA }

/-- The three statements that queue the request for `slave`: `queue_push`, the
assignment to `tries_left` and the `memcpy` of `header.length` bytes; `none`
when the copy writes past the item. -/
def push_request (request : List Nat) (slave : RS485Slave) : Option RS485Slave :=
  (memcpy_packet (fun k => request.getD k 0) (header_length request)).map fun packet =>
    { slave with
      packet_queue := queue_push slave.packet_queue
        { packet := packet, tries_left := RS485_PACKET_TRIES_DATA } }

/-- The loop of the broadcast branch: the request is queued for every slave. -/
def push_to_all (request : List Nat) : List RS485Slave → Option (List RS485Slave)
  | [] => some []
  | slave :: rest =>
    (push_request request slave).bind fun pushed =>
    (push_to_all request rest).map fun others => pushed :: others

/-- The loop of the routing branch: the first slave whose address equals
`recipient->opaque` gets the request, then the loop breaks. -/
def push_to_recipient (request : List Nat) (recipient_tag : Int) :
    List RS485Slave → Option (List RS485Slave)
  | [] => some []
  | slave :: rest =>
    if (slave.address : Int) = recipient_tag then
      (push_request request slave).map fun pushed => pushed :: rest
    else (push_to_recipient request recipient_tag rest).map fun others => slave :: others

/-- The function `red_rs485_extension_dispatch_to_rs485`; `recipient` is `none` for a
`NULL` pointer, else the field `opaque`. The result is `none` when a copy of the
request writes past the queued item. -/
def red_rs485_extension_dispatch_to_rs485 (request : List Nat) (recipient : Option Int)
    (s : Engine) : Option Engine :=
  match recipient with
  | none => (push_to_all request s.slaves).map fun slaves => { s with slaves := slaves }
  | some recipient_tag =>
    if header_uid request = 0 then
      (push_to_all request s.slaves).map fun slaves => { s with slaves := slaves }
    else
      (push_to_recipient request recipient_tag s.slaves).map fun slaves =>
        { s with slaves := slaves }

/-! ## States named in the statements -/

/-- The state of `master_poll_slave` after its first statements: the ACK flag and
the receive cursor are reset, the receive buffer is cleared and the index of the
current slave is advanced. -/
def poll_advance (s : Engine) : Engine :=
  { s with
    sent_ack_of_data_packet := false
    current_receive_buffer_index := 0
    receive_buffer := fun _ => 0
    master_current_slave_to_process :=
      if s.master_current_slave_to_process + 1 ≥ (s.slave_num : Int) then 0
      else s.master_current_slave_to_process + 1 }

/-- The state that `send_packet` leaves after a successful `write` of the frame
of `packet_to_send` for `current_slave`. -/
def sent_state (s : Engine) (current_slave : RS485Slave) (packet_to_send : RS485ExtensionPacket) :
    Engine :=
  { s with
    written := s.written ++ [rs485_packet current_slave packet_to_send]
    current_request_as_byte_array := fun j =>
      if j < (rs485_packet current_slave packet_to_send).length then
        (rs485_packet current_slave packet_to_send).getD j 0
      else s.current_request_as_byte_array j
    send_verify_flag := true
    master_timer_value_nsec := s.TIMEOUT
    last_timer_enable_at_uS := s.microseconds }

/-- The queue of the current slave after `pop_packet_from_slave_queue`. -/
def after_tries : List RS485ExtensionPacket → List RS485ExtensionPacket
  | [] => []
  | head :: rest =>
    if (head.tries_left + 255) % 256 = 0 then rest
    else { head with tries_left := (head.tries_left + 255) % 256 } :: rest

/-- The state handed to `master_poll_slave` when an exchange with `slave` completes:
the timer is disabled, the send-verify flag is clear, the sequence of the slave
is incremented and the head of its queue is popped. -/
def exchange_done (s : Engine) (slave : RS485Slave) : Engine :=
  (disable_master_timer { s with send_verify_flag := false }).set_current_slave
    { slave with
      sequence := (slave.sequence + 1) % 256
      packet_queue := queue_pop slave.packet_queue }

/-- The state handed to `master_poll_slave` by `seq_pop_poll` after the timer was
disabled: the sequence of `slave` is incremented only when the saved request is
empty, and the head of its queue has lost one try. -/
def exchange_failed (s : Engine) (slave : RS485Slave) : Engine :=
  (disable_master_timer s).set_current_slave
    { slave with
      sequence :=
        if is_current_request_empty s then (slave.sequence + 1) % 256 else slave.sequence
      packet_queue := after_tries slave.packet_queue }

/-- The event loop handing the bytes of successive reads to
`serial_data_available_handler`. -/
def feed_reads (depth fuel : Nat) : List (List Nat) → Engine → Option Engine
  | [], s => some s
  | bytes :: more, s =>
    (serial_data_available_handler depth fuel (some bytes) s).bind (feed_reads depth fuel more)

/-- The bytes of the frame saved in `current_request_as_byte_array`: 3 header
bytes, as many bytes as its length byte says, 2 CRC bytes. -/
def sent_frame (s : Engine) : List Nat :=
  span s.current_request_as_byte_array (s.current_request_as_byte_array 7 + 5)

/-- An empty reply of 13 bytes to the saved request: same address, function code
and sequence, UID 0, length 8, byte 8 zero, two further bytes `x` and `y`, and
the CRC16 of these 11 bytes, high byte first. -/
def empty_reply (s : Engine) (x y : Nat) : List Nat :=
  [s.current_request_as_byte_array 0, s.current_request_as_byte_array 1,
   s.current_request_as_byte_array 2, 0, 0, 0, 0, 8, 0, x, y,
   crc16 [s.current_request_as_byte_array 0, s.current_request_as_byte_array 1,
     s.current_request_as_byte_array 2, 0, 0, 0, 0, 8, 0, x, y] / 256,
   crc16 [s.current_request_as_byte_array 0, s.current_request_as_byte_array 1,
     s.current_request_as_byte_array 2, 0, 0, 0, 0, 8, 0, x, y] % 256]

/-- The engine waiting for the rest of the echo: `n` bytes are in the buffer. -/
def awaiting_echo (s : Engine) (buffer : Nat → Nat) (n : Nat) : Engine :=
  { s with receive_buffer := buffer, current_receive_buffer_index := n }

/-- The engine waiting for the rest of the reply, the echo being verified. -/
def awaiting_reply (s : Engine) (buffer : Nat → Nat) (n : Nat) : Engine :=
  { s with send_verify_flag := false, receive_buffer := buffer,
           current_receive_buffer_index := n }

/-- The scheduler called `n` times in a row. -/
def poll_times (fuel : Nat) : Nat → Engine → Option Engine
  | 0, s => some s
  | n + 1, s => (master_poll_slave fuel s).bind (poll_times fuel n)

/-- The function `pop_packet_from_slave_queue` called `n` times in a row, once
for each exchange of the current slave that did not succeed. -/
def pop_times : Nat → Engine → Option Engine
  | 0, s => some s
  | n + 1, s => (pop_packet_from_slave_queue s).bind (pop_times n)

/-- No queued packet is longer than a `Packet`. -/
def queues_fit (s : Engine) : Prop :=
  ∀ slave ∈ s.slaves, ∀ p ∈ slave.packet_queue, header_length p.packet ≤ TF_PACKET_MAX_LENGTH

/-- An engine with two slaves, of addresses 17 (sequence 0) and 5 (sequence 7),
the first being the current one: built from the queue of the first slave, the
saved request, the bytes received so far and the two flags. Every `write`
succeeds. -/
def example_engine (queue : List RS485ExtensionPacket) (request received : List Nat)
    (verify ack : Bool) : Engine where
  slaves := [⟨17, 0, queue⟩, ⟨5, 7, []⟩]
  master_current_slave_to_process := 0
  receive_buffer := fun j => received.getD j 0
  current_receive_buffer_index := received.length
  current_request_as_byte_array := fun j => request.getD j 0
  send_verify_flag := verify
  sent_ack_of_data_packet := ack
  TIMEOUT := 19944444
  master_timer_value_nsec := 19944444
  last_timer_enable_at_uS := 0
  microseconds := 25000
  write_result := fun _ => 13
  written := []
  dispatched := []
  recipients := []

/-- A queued request of 12 bytes with UID `0x01020304` and function id 1. -/
def example_request : RS485ExtensionPacket :=
  { packet := [4, 3, 2, 1, 12, 1, 0, 0, 0xAA, 0xBB, 0xCC, 0xDD] ++ List.replicate 68 0
    tries_left := 10 }

/-- The frame of an empty poll of the slave with address 17 and sequence 0. -/
def example_poll_frame : List Nat := [17, 100, 0, 0, 0, 0, 0, 8, 0, 0, 0, 22, 211]

/-- A data reply of slave 17 to the empty poll: a packet of 16 bytes with UID
`0xCAFEBABE`, framed with address 17, function code 100, sequence 0 and its CRC16. -/
def example_data_reply : List Nat :=
  [17, 100, 0, 190, 186, 254, 202, 16, 1, 24, 0, 1, 2, 3, 4, 5, 6, 7, 8, 26, 26]

/-- The empty reply of slave 17 to its poll with the low CRC byte corrupted. -/
def example_bad_reply : List Nat := [17, 100, 0, 0, 0, 0, 0, 8, 0, 0, 0, 22, 210]

/-! ## States and values named in the later statements -/

/-- The state of `verify_buffer` after the echo was verified and the bytes
behind it were moved to the start of the buffer. -/
def compacted (s : Engine) : Engine :=
  { s with
    send_verify_flag := false
    receive_buffer := move_to_front s.receive_buffer (s.receive_buffer 7 + 4 + 1)
      (s.current_receive_buffer_index - (s.receive_buffer 7 + 4 + 1))
    current_receive_buffer_index :=
      s.current_receive_buffer_index - (s.receive_buffer 7 + 4 + 1) }

/-- The buffer with bit `k` of byte `j` flipped. -/
def flip_bit (buffer : Nat → Nat) (j k : Nat) : Nat → Nat :=
  fun i => if i = j then buffer i ^^^ 2 ^ k else buffer i

/-- The constant `TIMEOUT_BYTES`. -/
def TIMEOUT_BYTES : Nat := 86

/-- The value that `red_rs485_extension_init` assigns to `TIMEOUT` for the baud
rate read from the EEPROM. The operations on `double` are taken as exact; the
conversion to an `unsigned long` of `width` bits truncates, and is undefined
(`none`) when the value is out of range. -/
def TIMEOUT_of_baudrate (width baudrate : Nat) : Option Nat :=
  if Nat.floor
      ((((TIMEOUT_BYTES : ℚ) / ((baudrate / 8 : Nat) : ℚ)) * 1000000000) * 2 + 8000000)
      < 2 ^ width then
    some (Nat.floor
      ((((TIMEOUT_BYTES : ℚ) / ((baudrate / 8 : Nat) : ℚ)) * 1000000000) * 2 + 8000000))
  else none

/-- The timeout in the words of the specification: `(86 * 8 / B) * 2 * 10^9 + 8 * 10^6`
in exact arithmetic, truncated to an integer. -/
def claimed_timeout (B : Nat) : Nat :=
  Nat.floor ((86 * 8 / (B : ℚ)) * 2 * 10 ^ 9 + 8 * 10 ^ 6)

/-- The example engine before the poll of slave 17 is sent, on a serial
interface whose `write` takes 5 bytes at a time. -/
def example_short_write_engine : Engine :=
  { example_engine [empty_packet] [] [] false false with write_result := fun _ => 5 }

/-- The example engine with an empty poll of slave 17 sent at 0 µs and a silent
slave, at the time `now` in microseconds. -/
def example_silent_engine (now : Nat) : Engine :=
  { example_engine [empty_packet] example_poll_frame [] true false with microseconds := now }

/-- The example engine before the poll of slave 17 is sent, on a serial
interface whose first `write` fails with -1 and whose later ones succeed. -/
def example_failed_write_engine : Engine :=
  { example_engine [empty_packet] [] [] false false with
    write_result := fun k => if k = 0 then -1 else 13 }

/-! ## Reads of the comparison loop -/

/-- The indices at which the comparison loop of `verify_buffer` reads
`current_request_as_byte_array`, in the order of the reads: the loop is entered
at index `i` with `n` passes to go and returns at the first difference. -/
def send_verify_reads (receive_buffer current_request : Nat → Nat) : Nat → Nat → List Nat
  | 0, _ => []
  | n + 1, i =>
    if receive_buffer i ≠ current_request i then [i]
    else i :: send_verify_reads receive_buffer current_request n (i + 1)

/-! ## Initialisation and shutdown -/

def RS485_EXTENSION_EEPROM_CONFIG_LOCATION_ADDRESS : Nat := 4
def RS485_EXTENSION_EEPROM_CONFIG_LOCATION_SLAVE_ADDRESSES_START : Nat := 100
def RS485_EXTENSION_EEPROM_CONFIG_LOCATION_BAUDRATE : Nat := 400
def RS485_EXTENSION_EEPROM_CONFIG_LOCATION_PARTIY : Nat := 404
def RS485_EXTENSION_EEPROM_CONFIG_LOCATION_STOPBITS : Nat := 405
def RS485_EXTENSION_MAX_SLAVES : Nat := 32
def RS485_EXTENSION_SERIAL_PARITY_NONE : Nat := 110
def RS485_EXTENSION_SERIAL_PARITY_EVEN : Nat := 101
def RS485_EXTENSION_SERIAL_PARITY_ODD : Nat := 111

/-- The calls by which `red_rs485_extension_init`, `serial_interface_init` and
`red_rs485_extension_exit` give back what was set up. -/
inductive Teardown where
  | close_master_timer_event
  | event_remove_source_master_timer_event
  | close_serial_fd
  | event_remove_source_serial_fd
  | queue_destroy (i : Nat)
  | hardware_remove_stack
  | stack_destroy
  | i2c_eeprom_release
deriving DecidableEq

/-- What the surroundings answer to the calls of `red_rs485_extension_init` and
`serial_interface_init`: the results of the calls, negative on failure. -/
structure Environment where
  i2c_eeprom_init : Int
  stack_create : Int
  hardware_add_stack : Int
  /-- Modelled from the spec: the configuration store, `read(offset, length) → bytes`.
  The result is `none` when `i2c_eeprom_read` reports a status `≤ 0`, else the
  bytes it stored in `_tmp_eeprom_read_buf`. -/
  i2c_eeprom_read : Nat → Nat → Option (List Nat)
  /-- The result of `queue_create` for the queue of slave `i`. -/
  queue_create : Nat → Int
  /-- The result of `open` on the serial device. -/
  open_serial : Int
  ioctl_TIOCGSERIAL : Int
  ioctl_TIOCSSERIAL : Int
  /-- The result of `event_add_source` for the serial descriptor. -/
  event_add_source_serial : Int
  timerfd_create : Int
  /-- The result of `event_add_source` for the timer descriptor. -/
  event_add_source_timer : Int

/-- The polling engine together with the file-scope variables that only
initialisation and shutdown use, and a record of the teardown calls made. -/
structure Extension where
  engine : Engine
  /-- The variable `_initialized`. -/
  initialized : Bool
  red_rs485_eeprom_config_address : Nat
  red_rs485_eeprom_config_baudrate : Nat
  red_rs485_eeprom_config_parity : Nat
  red_rs485_eeprom_config_stopbits : Nat
  red_rs485_serial_fd : Int
  master_timer_event : Int
  /-- The teardown calls made so far, oldest first. -/
  teardown : List Teardown

/-- The `uint32_t` assembled from the four bytes of `_tmp_eeprom_read_buf`. -/
def u32_of_buffer (buf : List Nat) : Nat :=
  (buf.getD 0 0 <<< 0 ||| buf.getD 1 0 <<< 8 ||| buf.getD 2 0 <<< 16 ||| buf.getD 3 0 <<< 24)
    % 2 ^ 32

/-- The function `serial_interface_init`: the result and the state. The settings
written to the line are not part of the state. -/
def serial_interface_init (env : Environment) (x : Extension) : Int × Extension :=
  if env.open_serial < 0 then (-1, { x with red_rs485_serial_fd := env.open_serial })
  else if x.red_rs485_eeprom_config_stopbits ≠ 1 ∧ x.red_rs485_eeprom_config_stopbits ≠ 2 then
    (-1, { x with
      red_rs485_serial_fd := env.open_serial
      teardown := x.teardown ++ [Teardown.close_serial_fd] })
  else if x.red_rs485_eeprom_config_parity ≠ RS485_EXTENSION_SERIAL_PARITY_NONE ∧
      x.red_rs485_eeprom_config_parity ≠ RS485_EXTENSION_SERIAL_PARITY_EVEN ∧
      x.red_rs485_eeprom_config_parity ≠ RS485_EXTENSION_SERIAL_PARITY_ODD then
    (-1, { x with
      red_rs485_serial_fd := env.open_serial
      teardown := x.teardown ++ [Teardown.close_serial_fd] })
  else if env.ioctl_TIOCGSERIAL < 0 then (-1, { x with red_rs485_serial_fd := env.open_serial })
  else if env.ioctl_TIOCSSERIAL < 0 then (-1, { x with red_rs485_serial_fd := env.open_serial })
  else (0, { x with red_rs485_serial_fd := env.open_serial })

/-- The `do ... while` loop of `red_rs485_extension_init` that reads the slave
addresses, entered with `n = RS485_EXTENSION_MAX_SLAVES - slave_num` and the
slaves stored so far: whether all reads succeeded, and the slaves. The address
is stored in a `uint8_t`. -/
def read_slave_addresses (env : Environment) : Nat → Nat → List RS485Slave →
    Bool × List RS485Slave
  | 0, _, slaves => (true, slaves)
  | n + 1, current_eeprom_location, slaves =>
    match env.i2c_eeprom_read current_eeprom_location 4 with
    | none => (false, slaves)
    | some buf =>
      if u32_of_buffer buf ≠ 0 then
        read_slave_addresses env n (current_eeprom_location + 4)
          (slaves ++ [⟨u32_of_buffer buf % 256, 0, []⟩])
      else (true, slaves)

/-- The teardown calls of the `switch (phase)` after the label `cleanup`, whose
cases fall through. -/
def cleanup_switch (phase : Nat) (x : Extension) : List Teardown :=
  (if phase = 6 then
    [Teardown.close_master_timer_event, Teardown.event_remove_source_master_timer_event]
   else []) ++
  (if 5 ≤ phase ∧ phase ≤ 6 then
    [Teardown.close_serial_fd, Teardown.event_remove_source_serial_fd]
   else []) ++
  (if 4 ≤ phase ∧ phase ≤ 6 ∧ x.red_rs485_eeprom_config_address = 0 then
    (List.range x.engine.slave_num).map Teardown.queue_destroy
   else []) ++
  (if 3 ≤ phase ∧ phase ≤ 6 then [Teardown.hardware_remove_stack] else []) ++
  (if 2 ≤ phase ∧ phase ≤ 6 then [Teardown.stack_destroy] else []) ++
  (if 1 ≤ phase ∧ phase ≤ 6 then [Teardown.i2c_eeprom_release] else [])

/-- The code of `red_rs485_extension_init` from the label `cleanup` on: the
result of the function and the state. -/
def cleanup (phase : Nat) (cleanup_return_zero : Bool) (x : Extension) : Int × Extension :=
  (if cleanup_return_zero then 0 else if phase = 7 then 0 else -1,
    { x with teardown := x.teardown ++ cleanup_switch phase x })

/-- The function `red_rs485_extension_init`: its result and the state it leaves.
`width` is the number of bits of an `unsigned long`, `fuel` is passed to
`master_poll_slave`; the result is `none` when the conversion of the timeout is
undefined or `master_poll_slave` does not return within `fuel`. -/
def red_rs485_extension_init (width fuel : Nat) (env : Environment) (x : Extension) :
    Option (Int × Extension) :=
  if env.i2c_eeprom_init < 0 then some (cleanup 0 false x)
  else if env.stack_create < 0 then some (cleanup 1 false x)
  else if env.hardware_add_stack < 0 then some (cleanup 2 false x)
  else
    match env.i2c_eeprom_read RS485_EXTENSION_EEPROM_CONFIG_LOCATION_ADDRESS 4 with
    | none => some (cleanup 3 false x)
    | some address_buf =>
    let x1 := { x with red_rs485_eeprom_config_address := u32_of_buffer address_buf }
    match env.i2c_eeprom_read RS485_EXTENSION_EEPROM_CONFIG_LOCATION_BAUDRATE 4 with
    | none => some (cleanup 3 false x1)
    | some baudrate_buf =>
    let x2 := { x1 with red_rs485_eeprom_config_baudrate := u32_of_buffer baudrate_buf }
    if x2.red_rs485_eeprom_config_baudrate < 8 then some (cleanup 3 true x2)
    else
    match TIMEOUT_of_baudrate width x2.red_rs485_eeprom_config_baudrate with
    | none => none
    | some timeout =>
    let x3 := { x2 with engine := { x2.engine with TIMEOUT := timeout } }
    match env.i2c_eeprom_read RS485_EXTENSION_EEPROM_CONFIG_LOCATION_PARTIY 1 with
    | none => some (cleanup 3 false x3)
    | some parity_buf =>
    let x4 := { x3 with
      red_rs485_eeprom_config_parity :=
        if parity_buf.getD 0 0 = RS485_EXTENSION_SERIAL_PARITY_NONE then
          RS485_EXTENSION_SERIAL_PARITY_NONE
        else if parity_buf.getD 0 0 = RS485_EXTENSION_SERIAL_PARITY_EVEN then
          RS485_EXTENSION_SERIAL_PARITY_EVEN
        else RS485_EXTENSION_SERIAL_PARITY_ODD }
    match env.i2c_eeprom_read RS485_EXTENSION_EEPROM_CONFIG_LOCATION_STOPBITS 1 with
    | none => some (cleanup 3 false x4)
    | some stopbits_buf =>
    let x5 := { x4 with red_rs485_eeprom_config_stopbits := stopbits_buf.getD 0 0 }
    if x5.red_rs485_eeprom_config_address = 0 then
      let loop := read_slave_addresses env RS485_EXTENSION_MAX_SLAVES
        RS485_EXTENSION_EEPROM_CONFIG_LOCATION_SLAVE_ADDRESSES_START []
      let x6 := { x5 with engine := { x5.engine with slaves := loop.2 } }
      if loop.1 = false then some (cleanup 3 false x6)
      else if ∃ i ∈ List.range x6.engine.slave_num, env.queue_create i < 0 then
        some (cleanup 3 false x6)
      else
        let x7 := { x6 with teardown := x6.teardown ++ [Teardown.i2c_eeprom_release] }
        if (serial_interface_init env x7).1 < 0 then
          some (cleanup 3 false (serial_interface_init env x7).2)
        else
          let x8 := (serial_interface_init env x7).2
          if env.event_add_source_serial < 0 then some (cleanup 4 false x8)
          else
            let x9 := { x8 with master_timer_event := env.timerfd_create }
            if env.timerfd_create < 0 then some (cleanup 5 false x9)
            else if env.event_add_source_timer < 0 then some (cleanup 5 false x9)
            else if x9.red_rs485_eeprom_config_address = 0 ∧ x9.engine.slave_num > 0 then
              (master_poll_slave fuel x9.engine).map fun engine =>
                cleanup 7 false { x9 with initialized := true, engine := engine }
            else some (cleanup 6 true x9)
    else some (cleanup 3 true x5)

/-- The function `red_rs485_extension_exit`. -/
def red_rs485_extension_exit (x : Extension) : Extension :=
  if x.initialized = false then x
  else
    { x with teardown := x.teardown ++
        [Teardown.event_remove_source_serial_fd, Teardown.event_remove_source_master_timer_event,
          Teardown.hardware_remove_stack, Teardown.stack_destroy,
          Teardown.close_serial_fd, Teardown.close_master_timer_event] ++
        (if x.red_rs485_eeprom_config_address = 0 then
          (List.range x.engine.slave_num).map Teardown.queue_destroy
         else []) }

/-! ## A concrete configuration -/

/-- The four bytes of a `uint32_t`, little-endian. -/
def le_bytes (v : Nat) : List Nat :=
  [v % 256, v / 256 % 256, v / 65536 % 256, v / 16777216 % 256]

/-- A configuration store of a master (own address 0) with the given baud rate,
parity byte and slave addresses, and one stop bit; every read succeeds. -/
def example_store (baudrate parity : Nat) (addresses : List Nat) (location length : Nat) :
    Option (List Nat) :=
  if location = 4 then some (le_bytes 0)
  else if location = 400 then some (le_bytes baudrate)
  else if location = 404 then some [parity]
  else if location = 405 then some [1]
  else if 100 ≤ location ∧ location < 400 ∧ length = 4 then
    some (le_bytes (addresses.getD ((location - 100) / 4) 0))
  else some (List.replicate length 0)

/-- Surroundings in which every call succeeds, with the store `example_store`. -/
def example_environment (baudrate parity : Nat) (addresses : List Nat) : Environment where
  i2c_eeprom_init := 0
  stack_create := 0
  hardware_add_stack := 0
  i2c_eeprom_read := example_store baudrate parity addresses
  queue_create := fun _ => 0
  open_serial := 3
  ioctl_TIOCGSERIAL := 0
  ioctl_TIOCSSERIAL := 0
  event_add_source_serial := 0
  timerfd_create := 4
  event_add_source_timer := 0

/-- The state before `red_rs485_extension_init`: the initial values of the
file-scope variables, a clock at 0 and a serial line that takes every frame. -/
def initial_extension : Extension where
  engine :=
    { slaves := []
      master_current_slave_to_process := -1
      receive_buffer := fun _ => 0
      current_receive_buffer_index := 0
      current_request_as_byte_array := fun _ => 0
      send_verify_flag := false
      sent_ack_of_data_packet := false
      TIMEOUT := 0
      master_timer_value_nsec := 0
      last_timer_enable_at_uS := 0
      microseconds := 0
      write_result := fun _ => 13
      written := []
      dispatched := []
      recipients := [] }
  initialized := false
  red_rs485_eeprom_config_address := 0
  red_rs485_eeprom_config_baudrate := 0
  red_rs485_eeprom_config_parity := 0
  red_rs485_eeprom_config_stopbits := 0
  red_rs485_serial_fd := -1
  master_timer_event := 0
  teardown := []

/-- An initialised master with the slaves 17 and 5, before any teardown. -/
def example_extension : Extension :=
  { initial_extension with
    engine := example_engine [empty_packet] example_poll_frame [] true false
    initialized := true
    red_rs485_eeprom_config_baudrate := 115200
    red_rs485_eeprom_config_parity := 111
    red_rs485_eeprom_config_stopbits := 1
    red_rs485_serial_fd := 3
    master_timer_event := 4 }

/-- The example engine in verify mode after the poll of slave 17, with 8 bytes
received: the start of the echo with the length byte 0 instead of 8. -/
def example_short_echo_engine : Engine :=
  example_engine [empty_packet] example_poll_frame [17, 100, 0, 0, 0, 0, 0, 0] true false

/-- Every call that `red_rs485_extension_init` makes to its surroundings
succeeds and the stop bits in the store are 1 or 2, so that initialisation can
only end early on account of the baud rate, the own address or the number of
slaves. -/
structure Environment.Cooperates (env : Environment) : Prop where
  i2c_eeprom_init : 0 ≤ env.i2c_eeprom_init
  stack_create : 0 ≤ env.stack_create
  hardware_add_stack : 0 ≤ env.hardware_add_stack
  read_address : env.i2c_eeprom_read RS485_EXTENSION_EEPROM_CONFIG_LOCATION_ADDRESS 4 ≠ none
  read_baudrate : env.i2c_eeprom_read RS485_EXTENSION_EEPROM_CONFIG_LOCATION_BAUDRATE 4 ≠ none
  read_parity : env.i2c_eeprom_read RS485_EXTENSION_EEPROM_CONFIG_LOCATION_PARTIY 1 ≠ none
  read_stopbits : env.i2c_eeprom_read RS485_EXTENSION_EEPROM_CONFIG_LOCATION_STOPBITS 1 ≠ none
  stopbits : ∀ buf,
    env.i2c_eeprom_read RS485_EXTENSION_EEPROM_CONFIG_LOCATION_STOPBITS 1 = some buf →
      buf.getD 0 0 = 1 ∨ buf.getD 0 0 = 2
  read_slaves : ∀ k, k < RS485_EXTENSION_MAX_SLAVES →
    env.i2c_eeprom_read (RS485_EXTENSION_EEPROM_CONFIG_LOCATION_SLAVE_ADDRESSES_START + 4 * k) 4
      ≠ none
  queue_create : ∀ i, i < RS485_EXTENSION_MAX_SLAVES → 0 ≤ env.queue_create i
  open_serial : 0 ≤ env.open_serial
  ioctl_TIOCGSERIAL : 0 ≤ env.ioctl_TIOCGSERIAL
  ioctl_TIOCSSERIAL : 0 ≤ env.ioctl_TIOCSSERIAL
  event_add_source_serial : 0 ≤ env.event_add_source_serial
  timerfd_create : 0 ≤ env.timerfd_create
  event_add_source_timer : 0 ≤ env.event_add_source_timer

/-- The outcome `result` of `red_rs485_extension_init` on `x` leaves the engine as
it was but for the timeout and the slave table, and leaves `_initialized` as it
was: `master_poll_slave` was not called. -/
def not_started (x : Extension) (result : Int × Extension) : Prop :=
  result.2.initialized = x.initialized ∧
    result.2.engine =
      { x.engine with TIMEOUT := result.2.engine.TIMEOUT, slaves := result.2.engine.slaves }

/-- The state in which `red_rs485_extension_init` calls `master_poll_slave`, from
the buffers read from the store, the timeout and the slaves. -/
def configured (env : Environment) (x : Extension)
    (address_buf baudrate_buf parity_buf stopbits_buf : List Nat) (timeout : Nat)
    (slaves : List RS485Slave) : Extension :=
  { engine := { x.engine with TIMEOUT := timeout, slaves := slaves }
    initialized := x.initialized
    red_rs485_eeprom_config_address := u32_of_buffer address_buf
    red_rs485_eeprom_config_baudrate := u32_of_buffer baudrate_buf
    red_rs485_eeprom_config_parity :=
      if parity_buf.getD 0 0 = RS485_EXTENSION_SERIAL_PARITY_NONE then
        RS485_EXTENSION_SERIAL_PARITY_NONE
      else if parity_buf.getD 0 0 = RS485_EXTENSION_SERIAL_PARITY_EVEN then
        RS485_EXTENSION_SERIAL_PARITY_EVEN
      else RS485_EXTENSION_SERIAL_PARITY_ODD
    red_rs485_eeprom_config_stopbits := stopbits_buf.getD 0 0
    red_rs485_serial_fd := env.open_serial
    master_timer_event := env.timerfd_create
    teardown := x.teardown ++ [Teardown.i2c_eeprom_release] }

/-! ## Replies with a length byte outside 8 .. 80 -/

/-- A data reply of slave 17 to its poll whose length byte is 81: 86 bytes with
UID `0xCAFEBABE`, framed with address 17, function code 100, sequence 0 and the
CRC16 of the 84 bytes before it. -/
def example_long_reply : List Nat :=
  [17, 100, 0, 190, 186, 254, 202, 81, 1] ++ List.range 75 ++ [177, 145]

/-- A data reply of slave 17 to its poll whose length byte is 6: 11 bytes with
UID `0xCAFEBABE` and the CRC16 of the 9 bytes before it. -/
def example_short_reply : List Nat := [17, 100, 0, 190, 186, 254, 202, 6, 1, 220, 8]


/-- The sequence numbers of the slaves, in the order of the slave table. -/
def sequences (s : Engine) : List Nat := s.slaves.map fun slave => slave.sequence

/-- The frame of `example_request` for slave 17 with sequence 0. -/
def example_request_frame : List Nat := rs485_packet ⟨17, 0, []⟩ example_request

/-- The surroundings of `example_environment` at 115200 baud with the own
address 3 in the store. -/
def example_slave_environment : Environment :=
  { example_environment 115200 111 [17, 5] with
    i2c_eeprom_read := fun location length =>
      if location = 4 then some (le_bytes 3)
      else example_store 115200 111 [17, 5] location length }
/-! ## Properties of the CRC16 codec -/

theorem shiftRight_one_xor (a b : Nat) : (a ^^^ b) >>> 1 = a >>> 1 ^^^ b >>> 1 := by
  apply Nat.eq_of_testBit_eq
  intro j
  simp only [Nat.testBit_shiftRight, Nat.testBit_xor]

theorem modbus_shift_xor (a b : Nat) :
    modbus_shift (a ^^^ b) = modbus_shift a ^^^ modbus_shift b := by
  unfold modbus_shift
  rw [Nat.xor_mod_two_eq, shiftRight_one_xor]
  rcases Nat.mod_two_eq_zero_or_one a with ha | ha <;>
    rcases Nat.mod_two_eq_zero_or_one b with hb | hb
  · have : (a + b) % 2 = 0 := by omega
    simp [ha, hb, this]
  · have : (a + b) % 2 = 1 := by omega
    simp [ha, hb, this, Nat.xor_assoc]
  · have : (a + b) % 2 = 1 := by omega
    simp only [ha, hb, this, if_true]
    simp [Nat.xor_assoc, Nat.xor_comm 40961]
  · have : (a + b) % 2 = 0 := by omega
    simp only [ha, hb, this, if_true]
    have h : ∀ x y c : Nat, (x ^^^ c) ^^^ (y ^^^ c) = x ^^^ y := by
      intro x y c
      rw [Nat.xor_assoc, Nat.xor_comm y c, ← Nat.xor_assoc c c y, Nat.xor_self, Nat.zero_xor]
    simp [h]

theorem modbus_shift_iterate_xor (n a b : Nat) :
    modbus_shift^[n] (a ^^^ b) = modbus_shift^[n] a ^^^ modbus_shift^[n] b := by
  induction n generalizing a b with
  | zero => rfl
  | succ n ih => simp only [Function.iterate_succ, Function.comp, modbus_shift_xor, ih]

set_option maxRecDepth 100000 in
theorem modbus_shift8_high : ∀ h < 256, modbus_shift^[8] (256 * h) = h := by
  decide

set_option maxRecDepth 100000 in
theorem modbus_shift8_table : ∀ l < 256,
    modbus_shift^[8] l = 256 * table_crc_lo.getD l 0 + table_crc_hi.getD l 0 := by
  decide

set_option maxRecDepth 100000 in
theorem table_crc_hi_lt : ∀ i < 256, table_crc_hi.getD i 0 < 256 := by
  decide

set_option maxRecDepth 100000 in
theorem table_crc_lo_lt : ∀ i < 256, table_crc_lo.getD i 0 < 256 := by
  decide

set_option maxRecDepth 100000 in
theorem table_crc_hi_length : table_crc_hi.length = 256 := by
  rfl

set_option maxRecDepth 100000 in
theorem table_crc_lo_length : table_crc_lo.length = 256 := by
  rfl

theorem table_crc_hi_getD_lt (i : Nat) : table_crc_hi.getD i 0 < 256 := by
  by_cases h : i < 256
  · exact table_crc_hi_lt i h
  · have hl := table_crc_hi_length
    rw [List.getD_eq_default _ _ (by omega)]
    decide

theorem table_crc_lo_getD_lt (i : Nat) : table_crc_lo.getD i 0 < 256 := by
  by_cases h : i < 256
  · exact table_crc_lo_lt i h
  · have hl := table_crc_lo_length
    rw [List.getD_eq_default _ _ (by omega)]
    decide

/-- Adding a byte below a multiple of 256 is the same as XORing it in. -/
theorem mul256_add_eq_xor (y : Nat) {x : Nat} (hx : x < 256) :
    256 * y + x = 256 * y ^^^ x := by
  have hx8 : x < 2 ^ 8 := by simpa using hx
  apply Nat.eq_of_testBit_eq
  intro j
  have e : (256 : Nat) = 2 ^ 8 := by norm_num
  rw [Nat.testBit_xor, e, Nat.testBit_mul_pow_two_add y hx8 j, Nat.testBit_mul_pow_two]
  by_cases hj : j < 8
  · have : ¬ (j ≥ 8) := by omega
    simp [hj, this]
  · have h8 : j ≥ 8 := by omega
    have hxj : x.testBit j = false :=
      Nat.testBit_lt_two_pow (lt_of_lt_of_le hx8 (Nat.pow_le_pow_right (by norm_num) h8))
    simp [hj, h8, hxj]

theorem crc16_step_lt (crc : Nat × Nat) (byte : Nat) (h2 : crc.2 < 256) :
    (crc16_step crc byte).1 < 256 ∧ (crc16_step crc byte).2 < 256 := by
  refine ⟨?_, table_crc_lo_getD_lt _⟩
  have h : crc.2 < 2 ^ 8 := by simpa using h2
  have h' : table_crc_hi.getD (crc.1 ^^^ byte) 0 < 2 ^ 8 := by
    simpa using table_crc_hi_getD_lt (crc.1 ^^^ byte)
  simpa [crc16_step] using Nat.xor_lt_two_pow h h'

theorem crc16_foldl_lt (s : List Nat) (crc : Nat × Nat) (h1 : crc.1 < 256) (h2 : crc.2 < 256) :
    (s.foldl crc16_step crc).1 < 256 ∧ (s.foldl crc16_step crc).2 < 256 := by
  induction s generalizing crc with
  | nil => exact ⟨h1, h2⟩
  | cons b s ih =>
    rw [List.foldl_cons]
    exact ih _ (crc16_step_lt crc b h2).1 (crc16_step_lt crc b h2).2

/-- The value returned for a pair of bytes `(crc_hi, crc_lo)`. -/
theorem crc16_pack {hi lo : Nat} (hhi : hi < 256) (hlo : lo < 256) :
    (hi <<< 8 ||| lo) % 65536 = 256 * hi + lo := by
  have hlo8 : lo < 2 ^ 8 := by simpa using hlo
  have e : hi <<< 8 ||| lo = 256 * hi + lo := by
    rw [Nat.shiftLeft_eq, Nat.mul_comm hi, Nat.mul_add_lt_is_or hlo8 hi]
  rw [e]
  omega

theorem crc16_eq (s : List Nat) :
    crc16 s = 256 * (s.foldl crc16_step (0xFF, 0xFF)).1 + (s.foldl crc16_step (0xFF, 0xFF)).2 := by
  have h := crc16_foldl_lt s (0xFF, 0xFF) (by decide) (by decide)
  unfold crc16
  exact crc16_pack h.1 h.2

theorem crc16_hi (s : List Nat) : crc16 s >>> 8 = (s.foldl crc16_step (0xFF, 0xFF)).1 := by
  have h := crc16_foldl_lt s (0xFF, 0xFF) (by decide) (by decide)
  rw [crc16_eq, Nat.shiftRight_eq_div_pow]
  omega

theorem crc16_lo (s : List Nat) : crc16 s &&& 0xFF = (s.foldl crc16_step (0xFF, 0xFF)).2 := by
  have h := crc16_foldl_lt s (0xFF, 0xFF) (by decide) (by decide)
  have e : crc16 s &&& 0xFF = crc16 s % 256 := Nat.and_pow_two_sub_one_eq_mod (crc16 s) 8
  rw [e, crc16_eq]
  omega

theorem crc16_lt (s : List Nat) : crc16 s < 65536 := by
  have h := crc16_foldl_lt s (0xFF, 0xFF) (by decide) (by decide)
  rw [crc16_eq]
  omega

/-- Feeding the two CRC bytes, high byte first, drives the state to zero. -/
theorem crc16_step_self (hi lo : Nat) :
    crc16_step (crc16_step (hi, lo) hi) lo = (0, 0) := by
  have h1 : table_crc_hi.getD 0 0 = 0 := rfl
  have h2 : table_crc_lo.getD 0 0 = 0 := rfl
  simp only [crc16_step, Nat.xor_self, h1, h2, Nat.xor_zero, Nat.zero_xor]

theorem crc16_append_crc (s : List Nat) :
    crc16 (s ++ [crc16 s >>> 8, crc16 s &&& 0xFF]) = 0 := by
  rw [crc16_hi, crc16_lo]
  unfold crc16
  rw [List.foldl_append]
  simp only [List.foldl_cons, List.foldl_nil]
  rw [crc16_step_self]
  rfl

/-- One byte of the table-driven loop against one byte of the bitwise loop:
the register holds `crc_lo` in its high byte and `crc_hi` in its low byte. -/
theorem crc16_step_modbus_byte {hi lo byte : Nat} (hhi : hi < 256) (hlo : lo < 256)
    (hb : byte < 256) :
    modbus_byte (256 * lo + hi) byte
      = 256 * (crc16_step (hi, lo) byte).2 + (crc16_step (hi, lo) byte).1 := by
  have hi8 : hi < 2 ^ 8 := by simpa using hhi
  have hb8 : byte < 2 ^ 8 := by simpa using hb
  have hidx : hi ^^^ byte < 256 := by simpa using Nat.xor_lt_two_pow hi8 hb8
  have hst := crc16_step_lt (hi, lo) byte hlo
  unfold modbus_byte
  rw [mul256_add_eq_xor lo hhi, Nat.xor_assoc, modbus_shift_iterate_xor,
    modbus_shift8_high lo hlo, modbus_shift8_table _ hidx,
    mul256_add_eq_xor _ (table_crc_hi_getD_lt _), ← Nat.xor_assoc,
    Nat.xor_comm lo, Nat.xor_assoc]
  exact (mul256_add_eq_xor _ hst.1).symm

theorem crc16_foldl_modbus (s : List Nat) (hs : ∀ b ∈ s, b < 256) (hi lo : Nat)
    (hhi : hi < 256) (hlo : lo < 256) :
    s.foldl modbus_byte (256 * lo + hi)
      = 256 * (s.foldl crc16_step (hi, lo)).2 + (s.foldl crc16_step (hi, lo)).1 := by
  induction s generalizing hi lo with
  | nil => rfl
  | cons b s ih =>
    have hb : b < 256 := hs b (List.mem_cons_self b s)
    have hst := crc16_step_lt (hi, lo) b hlo
    rw [List.foldl_cons, List.foldl_cons, crc16_step_modbus_byte hhi hlo hb]
    exact ih (fun x hx => hs x (List.mem_cons_of_mem b hx)) _ _ hst.1 hst.2

theorem crc16_refines_bitwise (s : List Nat) (hs : ∀ b ∈ s, b < 256) :
    crc16 s = swap_bytes (crc16_modbus_bitwise s) := by
  have h := crc16_foldl_lt s (0xFF, 0xFF) (by decide) (by decide)
  have e := crc16_foldl_modbus s hs 0xFF 0xFF (by decide) (by decide)
  have e0 : (256 * 0xFF + 0xFF : Nat) = 0xFFFF := by norm_num
  rw [e0] at e
  unfold crc16_modbus_bitwise swap_bytes
  rw [e, crc16_eq]
  omega

/-! ## The scheduler and the send path -/

theorem master_poll_slave_succ (fuel : Nat) (s : Engine) :
    master_poll_slave (fuel + 1) s =
      match (poll_advance s).current_slave with
      | none => none
      | some slave =>
        match queue_peek slave.packet_queue with
        | none =>
          send_packet fuel ((poll_advance s).set_current_slave
            { slave with packet_queue := queue_push slave.packet_queue empty_packet })
        | some _ => send_packet fuel (poll_advance s) := by
  rw [master_poll_slave]
  rfl

theorem send_packet_succ (fuel : Nat) (s : Engine) :
    send_packet (fuel + 1) s =
      match s.current_slave with
      | none => none
      | some current_slave =>
        match queue_peek current_slave.packet_queue with
        | none => master_poll_slave fuel s
        | some packet_to_send =>
          if TF_PACKET_MAX_LENGTH < header_length packet_to_send.packet then none
          else if s.write_result s.written.length ≤ 0 then
            master_poll_slave fuel
              { s with written := s.written ++ [rs485_packet current_slave packet_to_send] }
          else some (sent_state s current_slave packet_to_send) := by
  rw [send_packet]
  rfl

/-- A successful `write` of the head of the current slave's queue. -/
theorem send_packet_ok (fuel : Nat) (s : Engine) (slave : RS485Slave)
    (p : RS485ExtensionPacket) (rest : List RS485ExtensionPacket)
    (hslave : s.current_slave = some slave) (hq : slave.packet_queue = p :: rest)
    (hlen : header_length p.packet ≤ TF_PACKET_MAX_LENGTH)
    (hw : 0 < s.write_result s.written.length) :
    send_packet (fuel + 1) s = some (sent_state s slave p) := by
  rw [send_packet_succ, hslave]
  simp only [hq, queue_peek, List.head?_cons]
  rw [if_neg (by omega), if_neg (by omega)]

/-- The receive buffer, the receive cursor and the ACK flag do not reach
`master_poll_slave`: it overwrites them first. -/
theorem master_poll_slave_reset (fuel : Nat) (s : Engine) (b : Nat → Nat) (c : Nat) (a : Bool) :
    master_poll_slave fuel
        { s with receive_buffer := b, current_receive_buffer_index := c,
                 sent_ack_of_data_packet := a }
      = master_poll_slave fuel s := by
  cases fuel with
  | zero => simp [master_poll_slave]
  | succ n => rw [master_poll_slave_succ, master_poll_slave_succ]; rfl

theorem current_slave_eq_some (s : Engine) (slave : RS485Slave) :
    s.current_slave = some slave ↔
      0 ≤ s.master_current_slave_to_process ∧
        s.slaves[s.master_current_slave_to_process.toNat]? = some slave := by
  unfold Engine.current_slave
  by_cases h : 0 ≤ s.master_current_slave_to_process <;> simp [h]

theorem current_slave_lt (s : Engine) (slave : RS485Slave) (h : s.current_slave = some slave) :
    0 ≤ s.master_current_slave_to_process ∧
      s.master_current_slave_to_process.toNat < s.slaves.length := by
  rw [current_slave_eq_some] at h
  refine ⟨h.1, ?_⟩
  by_contra hc
  rw [List.getElem?_eq_none (by omega)] at h
  exact absurd h.2 (by simp)

theorem set_current_slave_current (s : Engine) (slave new_slave : RS485Slave)
    (h : s.current_slave = some slave) :
    (s.set_current_slave new_slave).current_slave = some new_slave := by
  have hl := current_slave_lt s slave h
  rw [current_slave_eq_some]
  refine ⟨hl.1, ?_⟩
  simp [Engine.set_current_slave, hl.2]


theorem crc16_shiftRight (s : List Nat) : crc16 s >>> 8 = crc16 s / 256 := by
  rw [Nat.shiftRight_eq_div_pow]

theorem crc16_and (s : List Nat) : crc16 s &&& 0xFF = crc16 s % 256 :=
  Nat.and_pow_two_sub_one_eq_mod (crc16 s) 8

theorem rs485_packet_eq (slave : RS485Slave) (p : RS485ExtensionPacket) :
    rs485_packet slave p =
      ([slave.address, RS485_EXTENSION_FUNCTION_CODE, slave.sequence]
        ++ (List.range (header_length p.packet)).map (fun k => p.packet.getD k 0))
      ++ [crc16 ([slave.address, RS485_EXTENSION_FUNCTION_CODE, slave.sequence]
            ++ (List.range (header_length p.packet)).map (fun k => p.packet.getD k 0)) / 256,
          crc16 ([slave.address, RS485_EXTENSION_FUNCTION_CODE, slave.sequence]
            ++ (List.range (header_length p.packet)).map (fun k => p.packet.getD k 0)) % 256] := by
  unfold rs485_packet
  simp only [crc16_shiftRight, crc16_and]

theorem rs485_packet_length (slave : RS485Slave) (p : RS485ExtensionPacket) :
    (rs485_packet slave p).length = header_length p.packet + 5 := by
  rw [rs485_packet_eq]
  simp

theorem rs485_packet_take (slave : RS485Slave) (p : RS485ExtensionPacket) :
    (rs485_packet slave p).take (header_length p.packet + 3) =
      [slave.address, RS485_EXTENSION_FUNCTION_CODE, slave.sequence]
        ++ (List.range (header_length p.packet)).map (fun k => p.packet.getD k 0) := by
  rw [rs485_packet_eq]
  apply List.take_left'
  simp

theorem rs485_packet_drop (slave : RS485Slave) (p : RS485ExtensionPacket) :
    (rs485_packet slave p).drop (header_length p.packet + 3) =
      [crc16 ((rs485_packet slave p).take (header_length p.packet + 3)) / 256,
       crc16 ((rs485_packet slave p).take (header_length p.packet + 3)) % 256] := by
  rw [rs485_packet_take, rs485_packet_eq]
  apply List.drop_left'
  simp


/-! ## Failure recovery -/

theorem list_set_same {α : Type} (l : List α) (i : Nat) (a : α) (h : l[i]? = some a) :
    l.set i a = l := by
  apply List.ext_getElem?
  intro j
  rw [List.getElem?_set']
  by_cases hij : i = j
  · subst hij
    simp [h]
  · simp [hij]

theorem set_current_slave_twice (s : Engine) (a b : RS485Slave) :
    (s.set_current_slave a).set_current_slave b = s.set_current_slave b := by
  simp [Engine.set_current_slave, List.set_set]

theorem increment_sequence_some (s : Engine) (slave : RS485Slave)
    (h : s.current_slave = some slave) :
    increment_sequence s
      = some (s.set_current_slave { slave with sequence := (slave.sequence + 1) % 256 }) := by
  simp [increment_sequence, h]

theorem pop_current_queue_some (s : Engine) (slave : RS485Slave)
    (h : s.current_slave = some slave) :
    pop_current_queue s
      = some (s.set_current_slave { slave with packet_queue := queue_pop slave.packet_queue }) := by
  simp [pop_current_queue, h]

theorem pop_packet_from_slave_queue_some (s : Engine) (slave : RS485Slave)
    (h : s.current_slave = some slave) :
    pop_packet_from_slave_queue s
      = some (s.set_current_slave
          { slave with packet_queue := after_tries slave.packet_queue }) := by
  have hl := current_slave_lt s slave h
  have hget := ((current_slave_eq_some s slave).1 h).2
  unfold pop_packet_from_slave_queue
  rw [h]
  rcases slave with ⟨address, sequence, queue⟩
  cases queue with
  | nil =>
    simp only [after_tries, Engine.set_current_slave]
    rw [list_set_same _ _ _ hget]
  | cons head rest =>
    simp only [after_tries, queue_pop, List.tail_cons]
    split <;> rfl

/-- The three statements of `seq_pop_poll` for a valid current slave. -/
theorem seq_pop_poll_eq (fuel : Nat) (s : Engine) (slave : RS485Slave)
    (h : s.current_slave = some slave) :
    seq_pop_poll fuel (disable_master_timer s)
      = master_poll_slave fuel (exchange_failed s slave) := by
  have h' : (disable_master_timer s).current_slave = some slave := h
  have he : is_current_request_empty (disable_master_timer s) = is_current_request_empty s := rfl
  unfold seq_pop_poll exchange_failed
  rw [he]
  cases hempty : is_current_request_empty s
  · simp only [Bool.false_eq_true, if_false, Option.some_bind]
    rw [pop_packet_from_slave_queue_some _ slave h', Option.some_bind]
  · simp only [if_true]
    rw [increment_sequence_some _ slave h', Option.some_bind,
      pop_packet_from_slave_queue_some _ _ (set_current_slave_current _ slave _ h'),
      Option.some_bind, set_current_slave_twice]

theorem exchange_done_eq (fuel : Nat) (s : Engine) (slave : RS485Slave)
    (h : s.current_slave = some slave) :
    ((increment_sequence (disable_master_timer { s with send_verify_flag := false })).bind
        fun s2 => (pop_current_queue s2).bind fun s3 => master_poll_slave fuel s3)
      = master_poll_slave fuel (exchange_done s slave) := by
  have h' : (disable_master_timer { s with send_verify_flag := false }).current_slave
      = some slave := h
  rw [increment_sequence_some _ slave h', Option.some_bind,
    pop_current_queue_some _ _ (set_current_slave_current _ slave _ h'), Option.some_bind,
    set_current_slave_twice]
  rfl

/-- The deadline has expired: `master_timeout_handler` runs the steps of `seq_pop_poll`. -/
theorem master_timeout_handler_expired (fuel : Nat) (s : Engine) (slave : RS485Slave)
    (h : s.current_slave = some slave)
    (hexp : s.TIMEOUT ≤ time_passed_from_last_timer_enable s) :
    master_timeout_handler fuel s = master_poll_slave fuel (exchange_failed s slave) := by
  unfold master_timeout_handler
  have e : time_passed_from_last_timer_enable (disable_master_timer s)
      = time_passed_from_last_timer_enable s := rfl
  simp only [e]
  rw [if_neg (by simp only [disable_master_timer]; omega)]
  exact seq_pop_poll_eq fuel s slave h


/-! ## The receive parser, branch by branch -/

theorem packet_end_index_eq (length_byte : Nat) : packet_end_index length_byte = length_byte + 4 := by
  unfold packet_end_index RS485_PACKET_FOOTER_LENGTH
  omega

theorem verify_flag_clear (s : Engine) (h : s.send_verify_flag = false) :
    { s with send_verify_flag := false } = s := by
  cases s
  simp only at h
  subst h
  rfl

/-- Fewer than 8 bytes: `verify_buffer` returns at once. -/
theorem verify_buffer_short (depth fuel : Nat) (s : Engine)
    (h : s.current_receive_buffer_index < 8) :
    verify_buffer (depth + 1) fuel s = some s := by
  rw [verify_buffer]
  simp only [h, if_true]

/-- The frame is not complete yet: `verify_buffer` returns at once. -/
theorem verify_buffer_incomplete (depth fuel : Nat) (s : Engine)
    (h : s.current_receive_buffer_index ≤ s.receive_buffer 7 + 4) :
    verify_buffer (depth + 1) fuel s = some s := by
  rw [verify_buffer]
  by_cases h8 : s.current_receive_buffer_index < 8
  · simp only [h8, if_true]
  · simp only [h8, if_false, RS485_PACKET_LENGTH_INDEX, packet_end_index_eq, h, if_true]

/-- Send-verify mode, the echo differs from the saved request. -/
theorem verify_buffer_echo_mismatch (depth fuel : Nat) (s : Engine) (slave : RS485Slave)
    (hs : s.current_slave = some slave)
    (h8 : 8 ≤ s.current_receive_buffer_index)
    (hc : s.receive_buffer 7 + 4 < s.current_receive_buffer_index)
    (hv : s.send_verify_flag = true)
    (hl : send_verify_loop s.receive_buffer s.current_request_as_byte_array
            (s.receive_buffer 7 + 4 + 1) 0 = some false) :
    verify_buffer (depth + 1) fuel s = master_poll_slave fuel (exchange_failed s slave) := by
  rw [verify_buffer]
  simp only [RS485_PACKET_LENGTH_INDEX, packet_end_index_eq]
  rw [if_neg (Nat.not_lt.2 h8), if_neg (Nat.not_le.2 hc), if_pos hv, hl]
  exact seq_pop_poll_eq fuel s slave hs

/-- Send-verify mode, the echo of the ACK matches: the exchange is complete. -/
theorem verify_buffer_echo_ack (depth fuel : Nat) (s : Engine) (slave : RS485Slave)
    (hs : s.current_slave = some slave)
    (h8 : 8 ≤ s.current_receive_buffer_index)
    (hc : s.receive_buffer 7 + 4 < s.current_receive_buffer_index)
    (hv : s.send_verify_flag = true)
    (hl : send_verify_loop s.receive_buffer s.current_request_as_byte_array
            (s.receive_buffer 7 + 4 + 1) 0 = some true)
    (hack : s.sent_ack_of_data_packet = true) :
    verify_buffer (depth + 1) fuel s = master_poll_slave fuel (exchange_done s slave) := by
  rw [verify_buffer]
  simp only [RS485_PACKET_LENGTH_INDEX, packet_end_index_eq]
  rw [if_neg (Nat.not_lt.2 h8), if_neg (Nat.not_le.2 hc), if_pos hv, hl]
  simp only []
  rw [if_pos hack]
  exact exchange_done_eq fuel s slave hs

/-- Send-verify mode, the echo matches and nothing follows it. -/
theorem verify_buffer_echo_exact (depth fuel : Nat) (s : Engine)
    (h8 : 8 ≤ s.current_receive_buffer_index)
    (hc : s.current_receive_buffer_index = s.receive_buffer 7 + 5)
    (hv : s.send_verify_flag = true)
    (hl : send_verify_loop s.receive_buffer s.current_request_as_byte_array
            (s.receive_buffer 7 + 4 + 1) 0 = some true)
    (hack : s.sent_ack_of_data_packet = false) :
    verify_buffer (depth + 1) fuel s =
      some { s with send_verify_flag := false, current_receive_buffer_index := 0,
                    receive_buffer := fun _ => 0 } := by
  rw [verify_buffer]
  simp only [RS485_PACKET_LENGTH_INDEX, packet_end_index_eq]
  rw [if_neg (Nat.not_lt.2 h8), if_neg (by omega), if_pos hv, hl]
  simp only []
  rw [if_neg (by simp [hack]), if_pos (by omega)]

/-- The state after the surplus bytes were moved to the start of the buffer. -/
theorem verify_buffer_echo_more (depth fuel : Nat) (s : Engine)
    (h8 : 8 ≤ s.current_receive_buffer_index)
    (hc : s.receive_buffer 7 + 5 < s.current_receive_buffer_index)
    (hv : s.send_verify_flag = true)
    (hl : send_verify_loop s.receive_buffer s.current_request_as_byte_array
            (s.receive_buffer 7 + 4 + 1) 0 = some true)
    (hack : s.sent_ack_of_data_packet = false) :
    verify_buffer (depth + 1) fuel s =
      if 8 ≤ s.current_receive_buffer_index - (s.receive_buffer 7 + 4 + 1) then
        verify_buffer depth fuel { s with
          send_verify_flag := false
          receive_buffer := move_to_front s.receive_buffer (s.receive_buffer 7 + 4 + 1)
            (s.current_receive_buffer_index - (s.receive_buffer 7 + 4 + 1))
          current_receive_buffer_index :=
            s.current_receive_buffer_index - (s.receive_buffer 7 + 4 + 1) }
      else
        some { s with
          send_verify_flag := false
          receive_buffer := move_to_front s.receive_buffer (s.receive_buffer 7 + 4 + 1)
            (s.current_receive_buffer_index - (s.receive_buffer 7 + 4 + 1))
          current_receive_buffer_index :=
            s.current_receive_buffer_index - (s.receive_buffer 7 + 4 + 1) } := by
  rw [verify_buffer]
  simp only [RS485_PACKET_LENGTH_INDEX, packet_end_index_eq]
  rw [if_neg (Nat.not_lt.2 h8), if_neg (by omega), if_pos hv, hl]
  simp only []
  rw [if_neg (by simp [hack]), if_neg (by omega), if_pos (by omega)]

/-- Peer-reply mode, a valid empty reply: the exchange is complete. -/
theorem verify_buffer_empty_reply (depth fuel : Nat) (s : Engine) (slave : RS485Slave)
    (hs : s.current_slave = some slave)
    (h8 : 8 ≤ s.current_receive_buffer_index)
    (hc : s.receive_buffer 7 + 4 < s.current_receive_buffer_index)
    (hv : s.send_verify_flag = false)
    (hclass : uid_of_bytes (s.receive_buffer 3) (s.receive_buffer 4) (s.receive_buffer 5)
        (s.receive_buffer 6) = 0 ∧ s.receive_buffer 7 = 8 ∧ s.receive_buffer 8 = 0)
    (hchecks : reply_checks_pass s (s.receive_buffer 7 + 4) = true) :
    verify_buffer (depth + 1) fuel s = master_poll_slave fuel (exchange_done s slave) := by
  rw [verify_buffer]
  simp only [RS485_PACKET_LENGTH_INDEX, packet_end_index_eq]
  rw [if_neg (Nat.not_lt.2 h8), if_neg (Nat.not_le.2 hc), if_neg (by simp [hv]),
    if_pos hclass, if_pos hchecks]
  have e := exchange_done_eq fuel s slave hs
  rw [verify_flag_clear s hv] at e
  exact e

/-- Peer-reply mode, a frame that is neither a valid empty reply nor a valid
data reply. -/
theorem verify_buffer_reply_rejected (depth fuel : Nat) (s : Engine) (slave : RS485Slave)
    (hs : s.current_slave = some slave)
    (h8 : 8 ≤ s.current_receive_buffer_index)
    (hc : s.receive_buffer 7 + 4 < s.current_receive_buffer_index)
    (hv : s.send_verify_flag = false)
    (hbad : reply_checks_pass s (s.receive_buffer 7 + 4) = false ∨
      (¬ (uid_of_bytes (s.receive_buffer 3) (s.receive_buffer 4) (s.receive_buffer 5)
          (s.receive_buffer 6) = 0 ∧ s.receive_buffer 7 = 8 ∧ s.receive_buffer 8 = 0) ∧
       ¬ (uid_of_bytes (s.receive_buffer 3) (s.receive_buffer 4) (s.receive_buffer 5)
          (s.receive_buffer 6) ≠ 0 ∧ s.receive_buffer 8 ≠ 0))) :
    verify_buffer (depth + 1) fuel s = master_poll_slave fuel (exchange_failed s slave) := by
  rw [verify_buffer]
  simp only [RS485_PACKET_LENGTH_INDEX, packet_end_index_eq]
  rw [if_neg (Nat.not_lt.2 h8), if_neg (Nat.not_le.2 hc), if_neg (by simp [hv])]
  rcases hbad with hchk | ⟨hne, hnd⟩
  · have hchk' : ¬ reply_checks_pass s (s.receive_buffer 7 + 4) = true := by simp [hchk]
    by_cases he : uid_of_bytes (s.receive_buffer 3) (s.receive_buffer 4) (s.receive_buffer 5)
        (s.receive_buffer 6) = 0 ∧ s.receive_buffer 7 = 8 ∧ s.receive_buffer 8 = 0
    · rw [if_pos he, if_neg hchk']
      exact seq_pop_poll_eq fuel s slave hs
    · rw [if_neg he]
      by_cases hd : uid_of_bytes (s.receive_buffer 3) (s.receive_buffer 4) (s.receive_buffer 5)
          (s.receive_buffer 6) ≠ 0 ∧ s.receive_buffer 8 ≠ 0
      · rw [if_pos hd, if_neg hchk']
        exact seq_pop_poll_eq fuel s slave hs
      · rw [if_neg hd]
        exact seq_pop_poll_eq fuel s slave hs
  · rw [if_neg hne, if_neg hnd]
    exact seq_pop_poll_eq fuel s slave hs

/-- Peer-reply mode, a valid data reply: the packet is handed to the host, the
head of the queue becomes the ACK and the ACK is sent. -/
theorem verify_buffer_data_reply (depth fuel : Nat) (s : Engine) (slave : RS485Slave)
    (head : RS485ExtensionPacket) (rest : List RS485ExtensionPacket)
    (hs : s.current_slave = some slave) (hq : slave.packet_queue = head :: rest)
    (h8 : 8 ≤ s.current_receive_buffer_index)
    (hc : s.receive_buffer 7 + 4 < s.current_receive_buffer_index)
    (hv : s.send_verify_flag = false)
    (hclass : uid_of_bytes (s.receive_buffer 3) (s.receive_buffer 4) (s.receive_buffer 5)
        (s.receive_buffer 6) ≠ 0 ∧ s.receive_buffer 8 ≠ 0)
    (hchecks : reply_checks_pass s (s.receive_buffer 7 + 4) = true)
    (hlen : s.receive_buffer 7 ≤ TF_PACKET_MAX_LENGTH) :
    verify_buffer (depth + 1) fuel s =
      send_packet fuel
        { s with
          dispatched := s.dispatched ++
            [copied_packet (fun k => s.receive_buffer (3 + k)) (s.receive_buffer 7)]
          recipients := s.recipients ++
            [(uid_of_bytes (s.receive_buffer 3) (s.receive_buffer 4) (s.receive_buffer 5)
                (s.receive_buffer 6), s.receive_buffer 0)]
          slaves := s.slaves.set s.master_current_slave_to_process.toNat
            { slave with packet_queue := empty_packet :: rest }
          current_receive_buffer_index := 0
          sent_ack_of_data_packet := true
          receive_buffer := fun _ => 0 } := by
  have hne : ¬ (uid_of_bytes (s.receive_buffer 3) (s.receive_buffer 4) (s.receive_buffer 5)
        (s.receive_buffer 6) = 0 ∧ s.receive_buffer 7 = 8 ∧ s.receive_buffer 8 = 0) :=
    fun h => hclass.1 h.1
  have hs' : Engine.current_slave { s with
      dispatched := s.dispatched ++
        [copied_packet (fun k => s.receive_buffer (3 + k)) (s.receive_buffer 7)]
      recipients := s.recipients ++
        [(uid_of_bytes (s.receive_buffer 3) (s.receive_buffer 4) (s.receive_buffer 5)
            (s.receive_buffer 6), s.receive_buffer 0)] } = some slave := hs
  rw [verify_buffer]
  simp only [RS485_PACKET_LENGTH_INDEX, packet_end_index_eq]
  rw [if_neg (Nat.not_lt.2 h8), if_neg (Nat.not_le.2 hc), if_neg (by simp [hv]),
    if_neg hne, if_pos hclass, if_pos hchecks, memcpy_packet, if_pos hlen]
  simp only []
  rw [hs']
  simp only [hq]
  rfl

/-- Peer-reply mode, a data reply that passes the checks with a length byte
above 80: the copy into `dispatch_packet` writes past the object. -/
theorem verify_buffer_data_reply_overrun (depth fuel : Nat) (s : Engine)
    (h8 : 8 ≤ s.current_receive_buffer_index)
    (hc : s.receive_buffer 7 + 4 < s.current_receive_buffer_index)
    (hv : s.send_verify_flag = false)
    (hclass : uid_of_bytes (s.receive_buffer 3) (s.receive_buffer 4) (s.receive_buffer 5)
        (s.receive_buffer 6) ≠ 0 ∧ s.receive_buffer 8 ≠ 0)
    (hchecks : reply_checks_pass s (s.receive_buffer 7 + 4) = true)
    (hlen : TF_PACKET_MAX_LENGTH < s.receive_buffer 7) :
    verify_buffer depth fuel s = none := by
  cases depth with
  | zero => rfl
  | succ d =>
    have hne : ¬ (uid_of_bytes (s.receive_buffer 3) (s.receive_buffer 4) (s.receive_buffer 5)
          (s.receive_buffer 6) = 0 ∧ s.receive_buffer 7 = 8 ∧ s.receive_buffer 8 = 0) :=
      fun h => hclass.1 h.1
    rw [verify_buffer]
    simp only [RS485_PACKET_LENGTH_INDEX, packet_end_index_eq]
    rw [if_neg (Nat.not_lt.2 h8), if_neg (Nat.not_le.2 hc), if_neg (by simp [hv]),
      if_neg hne, if_pos hclass, if_pos hchecks, memcpy_packet, if_neg (Nat.not_le.2 hlen)]


/-! ## Echo followed by an empty reply, over any split into reads -/

theorem send_verify_loop_true (b a : Nat → Nat) (n i : Nat)
    (h : ∀ j, j < n → i + j < CURRENT_REQUEST_SIZE ∧ b (i + j) = a (i + j)) :
    send_verify_loop b a n i = some true := by
  induction n generalizing i with
  | zero => rfl
  | succ n ih =>
    have h0 := h 0 (Nat.succ_pos n)
    rw [send_verify_loop, if_neg (by simpa using Nat.not_le.2 h0.1),
      if_neg (by simpa using h0.2)]
    apply ih
    intro j hj
    have := h (j + 1) (by omega)
    rw [show i + (j + 1) = i + 1 + j by omega] at this
    exact this

/-- What a list that continues `l` from index `n` on says about its first part. -/
theorem append_eq_drop {c rest l : List Nat} {n : Nat} (h : c ++ rest = l.drop n)
    (hn : n ≤ l.length) :
    n + c.length ≤ l.length ∧ rest = l.drop (n + c.length) ∧
      ∀ j, j < c.length → c.getD j 0 = l.getD (n + j) 0 := by
  have hlen : c.length + rest.length = l.length - n := by
    rw [← List.length_append, h, List.length_drop]
  refine ⟨?_, ?_, ?_⟩
  · omega
  · have := congrArg (List.drop c.length) h
    rw [List.drop_left, List.drop_drop] at this
    rw [this, Nat.add_comm]
  · intro j hj
    have e : (c ++ rest).getD j 0 = (l.drop n).getD j 0 := by rw [h]
    rw [List.getD_append _ _ _ _ hj] at e
    rw [e]
    simp [List.getD_eq_getElem?_getD, List.getElem?_drop]

theorem store_bytes_below (b : Nat → Nat) (n : Nat) (data : List Nat) (j : Nat) (h : j < n) :
    store_bytes b n data j = b j := by
  unfold store_bytes
  rw [if_neg (by omega)]

theorem store_bytes_at (b : Nat → Nat) (n : Nat) (data : List Nat) (j : Nat)
    (h1 : n ≤ j) (h2 : j < n + data.length) :
    store_bytes b n data j = data.getD (j - n) 0 := by
  unfold store_bytes
  rw [if_pos ⟨h1, h2⟩]

/-- Appending the bytes that continue `l` keeps the buffer equal to `l`. -/
theorem store_bytes_agree {c rest l : List Nat} {n : Nat} (b : Nat → Nat)
    (h : c ++ rest = l.drop n) (hn : n ≤ l.length) (hb : ∀ j, j < n → b j = l.getD j 0) :
    ∀ j, j < n + c.length → store_bytes b n c j = l.getD j 0 := by
  intro j hj
  by_cases hjn : j < n
  · rw [store_bytes_below b n c j hjn]
    exact hb j hjn
  · rw [store_bytes_at b n c j (by omega) hj, (append_eq_drop h hn).2.2 (j - n) (by omega)]
    congr 1
    omega

/-- A read that fits into the buffer: the bytes are appended and parsed. -/
theorem serial_data_available_handler_append (depth fuel : Nat) (bytes : List Nat) (s : Engine)
    (h : s.current_receive_buffer_index + bytes.length ≤ 1000000) :
    serial_data_available_handler depth fuel (some bytes) s =
      verify_buffer depth fuel { s with
        receive_buffer := store_bytes s.receive_buffer s.current_receive_buffer_index bytes
        current_receive_buffer_index := s.current_receive_buffer_index + bytes.length } := by
  unfold serial_data_available_handler
  have h1 : ¬ s.current_receive_buffer_index ≥
      RECEIVE_BUFFER_SIZE - TF_PACKET_MAX_LENGTH + RS485_PACKET_HEADER_LENGTH
        + RS485_PACKET_FOOTER_LENGTH := by
    simp only [RECEIVE_BUFFER_SIZE, TF_PACKET_MAX_LENGTH, RS485_PACKET_HEADER_LENGTH,
      RS485_PACKET_FOOTER_LENGTH]
    omega
  have h2 : bytes.take (RECEIVE_BUFFER_SIZE - s.current_receive_buffer_index) = bytes := by
    apply List.take_of_length_le
    simp only [RECEIVE_BUFFER_SIZE]
    omega
  rw [if_neg h1]
  simp only [h2]

theorem poll_send_cursor (fuel : Nat) :
    (∀ s t, master_poll_slave fuel s = some t → t.current_receive_buffer_index = 0) ∧
    (∀ s t, send_packet fuel s = some t → s.current_receive_buffer_index = 0 →
      t.current_receive_buffer_index = 0) := by
  induction fuel with
  | zero =>
    constructor
    · intro s t h; simp [master_poll_slave] at h
    · intro s t h; simp [send_packet] at h
  | succ n ih =>
    constructor
    · intro s t h
      rw [master_poll_slave_succ] at h
      cases hcs : (poll_advance s).current_slave with
      | none => rw [hcs] at h; simp at h
      | some slave =>
        rw [hcs] at h
        simp only at h
        cases hq : queue_peek slave.packet_queue with
        | none => rw [hq] at h; exact ih.2 _ t h rfl
        | some p => rw [hq] at h; exact ih.2 _ t h rfl
    · intro s t h h0
      rw [send_packet_succ] at h
      cases hcs : s.current_slave with
      | none => rw [hcs] at h; simp at h
      | some slave =>
        rw [hcs] at h
        simp only at h
        cases hq : queue_peek slave.packet_queue with
        | none => rw [hq] at h; exact ih.1 _ t h
        | some p =>
          rw [hq] at h
          simp only at h
          split at h
          · simp at h
          · split at h
            · exact ih.1 _ t h
            · simp only [Option.some.injEq] at h
              rw [← h]
              exact h0

/-- After `master_poll_slave` the receive cursor is 0. -/
theorem master_poll_slave_cursor (fuel : Nat) (s t : Engine)
    (h : master_poll_slave fuel s = some t) : t.current_receive_buffer_index = 0 :=
  (poll_send_cursor fuel).1 s t h

theorem store_bytes_nil (b : Nat → Nat) (n : Nat) : store_bytes b n [] = b := by
  funext j
  unfold store_bytes
  rw [if_neg (by simp)]

/-- Reads that bring no bytes leave an engine with an empty buffer as it is. -/
theorem feed_reads_nothing (depth fuel : Nat) (reads : List (List Nat)) (t : Engine)
    (hjoin : reads.flatten = []) (ht : t.current_receive_buffer_index = 0) :
    feed_reads (depth + 1) fuel reads t = some t := by
  induction reads with
  | nil => rfl
  | cons c cs ih =>
    rw [List.flatten_cons, List.append_eq_nil] at hjoin
    obtain ⟨hc, hcs⟩ := hjoin
    subst hc
    rw [feed_reads, serial_data_available_handler_append _ _ _ _ (by simp [ht]),
      verify_buffer_short _ _ _ (by simp [ht]), Option.some_bind, store_bytes_nil]
    exact ih hcs

theorem crc16_bytes_pack (s : List Nat) :
    ((crc16 s / 256) <<< 8 ||| crc16 s % 256) % 65536 = crc16 s := by
  have h := crc16_lt s
  rw [crc16_pack (by omega) (Nat.mod_lt _ (by norm_num))]
  omega

/-- The parser in peer-reply mode while the bytes of an empty reply come in. -/
theorem verify_buffer_awaiting_reply (depth fuel : Nat) (s : Engine) (slave : RS485Slave)
    (x y : Nat) (b : Nat → Nat) (m : Nat)
    (hs : s.current_slave = some slave) (hm : m ≤ 13)
    (hb : ∀ j, j < m → b j = (empty_reply s x y).getD j 0) :
    verify_buffer (depth + 1) fuel (awaiting_reply s b m) =
      if m = 13 then master_poll_slave fuel (exchange_done s slave)
      else some (awaiting_reply s b m) := by
  by_cases h13 : m = 13
  · subst h13
    rw [if_pos rfl]
    have h0 : b 0 = s.current_request_as_byte_array 0 := hb 0 (by omega)
    have h1 : b 1 = s.current_request_as_byte_array 1 := hb 1 (by omega)
    have h2 : b 2 = s.current_request_as_byte_array 2 := hb 2 (by omega)
    have h3 : b 3 = 0 := hb 3 (by omega)
    have h4 : b 4 = 0 := hb 4 (by omega)
    have h5 : b 5 = 0 := hb 5 (by omega)
    have h6 : b 6 = 0 := hb 6 (by omega)
    have h7 : b 7 = 8 := hb 7 (by omega)
    have h8 : b 8 = 0 := hb 8 (by omega)
    have h9 : b 9 = x := hb 9 (by omega)
    have h10 : b 10 = y := hb 10 (by omega)
    have h11 : b 11 = crc16 [s.current_request_as_byte_array 0,
      s.current_request_as_byte_array 1, s.current_request_as_byte_array 2,
      0, 0, 0, 0, 8, 0, x, y] / 256 := hb 11 (by omega)
    have h12 : b 12 = crc16 [s.current_request_as_byte_array 0,
      s.current_request_as_byte_array 1, s.current_request_as_byte_array 2,
      0, 0, 0, 0, 8, 0, x, y] % 256 := hb 12 (by omega)
    have hspan : span b 11 = [b 0, b 1, b 2, b 3, b 4, b 5, b 6, b 7, b 8, b 9, b 10] := rfl
    have hchecks : reply_checks_pass (awaiting_reply s b 13) (b 7 + 4) = true := by
      unfold reply_checks_pass
      simp only [awaiting_reply, h7, RS485_PACKET_FOOTER_LENGTH]
      rw [if_neg (by simp [h0]), if_neg (by simp [h1]), if_neg (by simp [h2])]
      norm_num only
      rw [hspan, h0, h1, h2, h3, h4, h5, h6, h7, h8, h9, h10, h11, h12, crc16_bytes_pack]
      simp
    rw [verify_buffer_empty_reply depth fuel (awaiting_reply s b 13) slave hs (by simp [awaiting_reply])
      (by simp [awaiting_reply, h7]) rfl
      (by simp [awaiting_reply, h3, h4, h5, h6, h7, h8, uid_of_bytes]) hchecks]
    exact master_poll_slave_reset fuel (exchange_done s slave) b 13
      s.sent_ack_of_data_packet
  · rw [if_neg h13]
    by_cases h8 : m < 8
    · exact verify_buffer_short depth fuel _ h8
    · have h7 : b 7 = 8 := hb 7 (by omega)
      apply verify_buffer_incomplete
      simp only [awaiting_reply, h7]
      omega

theorem empty_reply_length (s : Engine) (x y : Nat) : (empty_reply s x y).length = 13 := rfl

theorem sent_frame_length (s : Engine) :
    (sent_frame s).length = s.current_request_as_byte_array 7 + 5 := by
  simp [sent_frame, span]

theorem span_getD (a : Nat → Nat) (n j : Nat) (h : j < n) : (span a n).getD j 0 = a j := by
  simp [span, List.getD_eq_getElem?_getD, List.getElem?_map, List.getElem?_range h]

/-- The scheduler has taken over: further reads bring nothing. -/
theorem feed_reads_done (depth fuel : Nat) (reads : List (List Nat)) (s : Engine)
    (hjoin : reads.flatten = []) :
    (master_poll_slave fuel s).bind (feed_reads (depth + 1) fuel reads)
      = master_poll_slave fuel s := by
  cases h : master_poll_slave fuel s with
  | none => rfl
  | some t =>
    rw [Option.some_bind]
    exact feed_reads_nothing depth fuel reads t hjoin (master_poll_slave_cursor fuel s t h)

/-- Peer-reply mode: however the rest of the empty reply is split into reads, the
exchange completes. -/
theorem feed_reads_awaiting_reply (depth fuel : Nat) (s : Engine) (slave : RS485Slave)
    (x y : Nat) (hs : s.current_slave = some slave) (reads : List (List Nat)) :
    ∀ (b : Nat → Nat) (m : Nat), m < 13 →
      (∀ j, j < m → b j = (empty_reply s x y).getD j 0) →
      reads.flatten = (empty_reply s x y).drop m →
      feed_reads (depth + 1) fuel reads (awaiting_reply s b m)
        = master_poll_slave fuel (exchange_done s slave) := by
  induction reads with
  | nil =>
    intro b m hm _ hjoin
    have := congrArg List.length hjoin
    simp [empty_reply_length] at this
    omega
  | cons c cs ih =>
    intro b m hm hb hjoin
    rw [List.flatten_cons] at hjoin
    have hm' : m ≤ (empty_reply s x y).length := by rw [empty_reply_length]; omega
    obtain ⟨hle, hrest, _⟩ := append_eq_drop hjoin hm'
    rw [empty_reply_length] at hle
    have hagree := store_bytes_agree b hjoin hm' hb
    rw [feed_reads, serial_data_available_handler_append _ _ _ _
      (by simp only [awaiting_reply]; omega)]
    have e := verify_buffer_awaiting_reply depth fuel s slave x y (store_bytes b m c)
      (m + c.length) hs hle hagree
    simp only [awaiting_reply] at e ⊢
    rw [e]
    by_cases h13 : m + c.length = 13
    · rw [if_pos h13]
      apply feed_reads_done
      rw [hrest, h13]
      exact List.drop_eq_nil_of_le (by rw [empty_reply_length])
    · rw [if_neg h13, Option.some_bind]
      exact ih _ _ (by omega) hagree hrest

/-- The last step shared by the reads that complete the echo. -/
theorem feed_reads_after_echo (depth fuel : Nat) (s : Engine) (slave : RS485Slave)
    (x y : Nat) (hs : s.current_slave = some slave) (reads : List (List Nat))
    (b : Nat → Nat) (m : Nat) (hm : m ≤ 13)
    (hb : ∀ j, j < m → b j = (empty_reply s x y).getD j 0)
    (hjoin : reads.flatten = (empty_reply s x y).drop m) :
    (if m = 13 then master_poll_slave fuel (exchange_done s slave)
      else some (awaiting_reply s b m)).bind (feed_reads (depth + 1) fuel reads)
      = master_poll_slave fuel (exchange_done s slave) := by
  by_cases h13 : m = 13
  · rw [if_pos h13]
    apply feed_reads_done
    rw [hjoin, h13]
    exact List.drop_eq_nil_of_le (by rw [empty_reply_length])
  · rw [if_neg h13, Option.some_bind]
    exact feed_reads_awaiting_reply depth fuel s slave x y hs reads b m (by omega) hb hjoin

theorem stream_getD_echo (s : Engine) (x y : Nat) (j : Nat)
    (h : j < s.current_request_as_byte_array 7 + 5) :
    (sent_frame s ++ empty_reply s x y).getD j 0 = s.current_request_as_byte_array j := by
  rw [List.getD_append _ _ _ _ (by rw [sent_frame_length]; exact h)]
  exact span_getD _ _ _ h

theorem stream_getD_reply (s : Engine) (x y : Nat) (j : Nat) :
    (sent_frame s ++ empty_reply s x y).getD (s.current_request_as_byte_array 7 + 5 + j) 0
      = (empty_reply s x y).getD j 0 := by
  rw [List.getD_append_right _ _ _ _ (by rw [sent_frame_length]; omega), sent_frame_length]
  congr 1
  omega

/-- Send-verify mode: however the echo and the empty reply are split into reads,
the exchange completes. -/
theorem feed_reads_awaiting_echo (depth fuel : Nat) (s : Engine) (slave : RS485Slave)
    (x y : Nat) (hs : s.current_slave = some slave)
    (hv : s.send_verify_flag = true) (hack : s.sent_ack_of_data_packet = false)
    (hlo : 8 ≤ s.current_request_as_byte_array 7)
    (hhi : s.current_request_as_byte_array 7 ≤ 80)
    (reads : List (List Nat)) :
    ∀ (b : Nat → Nat) (n : Nat), n < s.current_request_as_byte_array 7 + 5 →
      (∀ j, j < n → b j = (sent_frame s ++ empty_reply s x y).getD j 0) →
      reads.flatten = (sent_frame s ++ empty_reply s x y).drop n →
      feed_reads (depth + 2) fuel reads (awaiting_echo s b n)
        = master_poll_slave fuel (exchange_done s slave) := by
  have hlen : (sent_frame s ++ empty_reply s x y).length
      = s.current_request_as_byte_array 7 + 5 + 13 := by
    rw [List.length_append, sent_frame_length, empty_reply_length]
  induction reads with
  | nil =>
    intro b n hn _ hjoin
    have := congrArg List.length hjoin
    simp only [List.flatten_nil, List.length_nil, List.length_drop, hlen] at this
    omega
  | cons c cs ih =>
    intro b n hn hb hjoin
    rw [List.flatten_cons] at hjoin
    have hn' : n ≤ (sent_frame s ++ empty_reply s x y).length := by rw [hlen]; omega
    obtain ⟨hle, hrest, _⟩ := append_eq_drop hjoin hn'
    rw [hlen] at hle
    have hagree := store_bytes_agree b hjoin hn' hb
    rw [feed_reads, serial_data_available_handler_append _ _ _ _
      (by simp only [awaiting_echo]; omega)]
    have hstate : ({ awaiting_echo s b n with
        receive_buffer := store_bytes (awaiting_echo s b n).receive_buffer
          (awaiting_echo s b n).current_receive_buffer_index c
        current_receive_buffer_index :=
          (awaiting_echo s b n).current_receive_buffer_index + c.length } : Engine)
        = awaiting_echo s (store_bytes b n c) (n + c.length) := rfl
    rw [hstate]
    have h7 : 8 ≤ n + c.length → store_bytes b n c 7 = s.current_request_as_byte_array 7 := by
      intro h
      rw [hagree 7 (by omega)]
      exact stream_getD_echo s x y 7 (by omega)
    by_cases hlt : n + c.length < s.current_request_as_byte_array 7 + 5
    · have hw : verify_buffer (depth + 2) fuel (awaiting_echo s (store_bytes b n c) (n + c.length))
          = some (awaiting_echo s (store_bytes b n c) (n + c.length)) := by
        by_cases h8 : n + c.length < 8
        · exact verify_buffer_short _ _ _ h8
        · apply verify_buffer_incomplete
          simp only [awaiting_echo]
          rw [h7 (by omega)]
          omega
      rw [hw, Option.some_bind]
      exact ih _ _ hlt hagree hrest
    · have h8 : 8 ≤ n + c.length := by omega
      have hb7 := h7 h8
      have hloop : send_verify_loop (store_bytes b n c) s.current_request_as_byte_array
          (store_bytes b n c 7 + 4 + 1) 0 = some true := by
        apply send_verify_loop_true
        intro j hj
        rw [hb7] at hj
        refine ⟨by simp only [CURRENT_REQUEST_SIZE, TF_PACKET_MAX_LENGTH,
          RS485_PACKET_HEADER_LENGTH, RS485_PACKET_FOOTER_LENGTH]; omega, ?_⟩
        rw [Nat.zero_add, hagree j (by omega)]
        exact stream_getD_echo s x y j (by omega)
      by_cases heq : n + c.length = s.current_request_as_byte_array 7 + 5
      · rw [verify_buffer_echo_exact (depth + 1) fuel
          (awaiting_echo s (store_bytes b n c) (n + c.length)) h8
          (by simp only [awaiting_echo]; rw [hb7]; exact heq) hv hloop hack, Option.some_bind]
        have hrest' : cs.flatten = (empty_reply s x y).drop 0 := by
          rw [hrest, heq, List.drop_zero, ← sent_frame_length, List.drop_left]
        exact feed_reads_awaiting_reply (depth + 1) fuel s slave x y hs cs (fun _ => 0) 0
          (by omega) (fun j hj => absurd hj (Nat.not_lt_zero j)) hrest'
      · have hgt : s.current_request_as_byte_array 7 + 5 < n + c.length := by omega
        rw [verify_buffer_echo_more (depth + 1) fuel
          (awaiting_echo s (store_bytes b n c) (n + c.length)) h8
          (by simp only [awaiting_echo]; rw [hb7]; exact hgt) hv hloop hack]
        simp only [awaiting_echo]
        rw [hb7]
        have hmove : ∀ j, j < n + c.length - (s.current_request_as_byte_array 7 + 4 + 1) →
            move_to_front (store_bytes b n c) (s.current_request_as_byte_array 7 + 4 + 1)
              (n + c.length - (s.current_request_as_byte_array 7 + 4 + 1)) j
              = (empty_reply s x y).getD j 0 := by
          intro j hj
          unfold move_to_front
          rw [if_pos hj, hagree _ (by omega)]
          exact stream_getD_reply s x y j
        have hrest' : cs.flatten = (empty_reply s x y).drop
            (n + c.length - (s.current_request_as_byte_array 7 + 4 + 1)) := by
          rw [hrest, show n + c.length = (sent_frame s).length +
            (n + c.length - (s.current_request_as_byte_array 7 + 4 + 1)) by
              rw [sent_frame_length]; omega, ← List.drop_drop, List.drop_left]
          rw [sent_frame_length]
          congr 1
          omega
        have hstep : (if 8 ≤ n + c.length - (s.current_request_as_byte_array 7 + 4 + 1) then
              verify_buffer (depth + 1) fuel (awaiting_reply s
                (move_to_front (store_bytes b n c) (s.current_request_as_byte_array 7 + 4 + 1)
                  (n + c.length - (s.current_request_as_byte_array 7 + 4 + 1)))
                (n + c.length - (s.current_request_as_byte_array 7 + 4 + 1)))
            else some (awaiting_reply s
                (move_to_front (store_bytes b n c) (s.current_request_as_byte_array 7 + 4 + 1)
                  (n + c.length - (s.current_request_as_byte_array 7 + 4 + 1)))
                (n + c.length - (s.current_request_as_byte_array 7 + 4 + 1))))
            = (if n + c.length - (s.current_request_as_byte_array 7 + 4 + 1) = 13 then
                master_poll_slave fuel (exchange_done s slave)
              else some (awaiting_reply s
                (move_to_front (store_bytes b n c) (s.current_request_as_byte_array 7 + 4 + 1)
                  (n + c.length - (s.current_request_as_byte_array 7 + 4 + 1)))
                (n + c.length - (s.current_request_as_byte_array 7 + 4 + 1)))) := by
          by_cases h8' : 8 ≤ n + c.length - (s.current_request_as_byte_array 7 + 4 + 1)
          · rw [if_pos h8']
            exact verify_buffer_awaiting_reply depth fuel s slave x y _ _ hs (by omega) hmove
          · rw [if_neg h8', if_neg (by omega)]
        simp only [awaiting_reply] at hstep
        rw [hstep]
        exact feed_reads_after_echo (depth + 1) fuel s slave x y hs cs _ _ (by omega) hmove hrest'


/-! ## What the scheduler and the send path leave alone -/

/-- Whatever the four state changes of `master_poll_slave` and `send_packet` keep,
the two functions keep. -/
theorem poll_send_preserve {α : Type} (obs : Engine → α)
    (h1 : ∀ s, obs (poll_advance s) = obs s)
    (h2 : ∀ s slave, s.current_slave = some slave →
      obs (s.set_current_slave
        { slave with packet_queue := queue_push slave.packet_queue empty_packet }) = obs s)
    (h3 : ∀ (s : Engine) frame, obs { s with written := s.written ++ [frame] } = obs s)
    (h4 : ∀ s slave p, obs (sent_state s slave p) = obs s) (fuel : Nat) :
    (∀ s t, master_poll_slave fuel s = some t → obs t = obs s) ∧
    (∀ s t, send_packet fuel s = some t → obs t = obs s) := by
  induction fuel with
  | zero =>
    constructor
    · intro s t h; simp [master_poll_slave] at h
    · intro s t h; simp [send_packet] at h
  | succ n ih =>
    constructor
    · intro s t h
      rw [master_poll_slave_succ] at h
      cases hcs : (poll_advance s).current_slave with
      | none => rw [hcs] at h; simp at h
      | some slave =>
        rw [hcs] at h
        simp only at h
        cases hq : queue_peek slave.packet_queue with
        | none =>
          rw [hq] at h
          rw [ih.2 _ t h, h2 _ slave hcs, h1]
        | some p =>
          rw [hq] at h
          rw [ih.2 _ t h, h1]
    · intro s t h
      rw [send_packet_succ] at h
      cases hcs : s.current_slave with
      | none => rw [hcs] at h; simp at h
      | some slave =>
        rw [hcs] at h
        simp only at h
        cases hq : queue_peek slave.packet_queue with
        | none => rw [hq] at h; exact ih.1 _ t h
        | some p =>
          rw [hq] at h
          simp only at h
          split at h
          · simp at h
          · split at h
            · rw [ih.1 _ t h, h3]
            · simp only [Option.some.injEq] at h
              rw [← h, h4]

theorem map_set_current_slave {α : Type} (f : RS485Slave → α) (s : Engine)
    (slave new_slave : RS485Slave) (h : s.current_slave = some slave)
    (hf : f new_slave = f slave) :
    (s.set_current_slave new_slave).slaves.map f = s.slaves.map f := by
  have hget := ((current_slave_eq_some s slave).1 h).2
  simp only [Engine.set_current_slave, List.map_set, hf]
  apply list_set_same
  rw [List.getElem?_map, hget]
  rfl

/-- The scheduler changes neither a sequence number nor an address. -/
theorem master_poll_slave_sequences (fuel : Nat) (s t : Engine)
    (h : master_poll_slave fuel s = some t) :
    t.slaves.map (fun slave => (slave.address, slave.sequence))
      = s.slaves.map (fun slave => (slave.address, slave.sequence)) := by
  have key := poll_send_preserve
    (fun (s : Engine) => s.slaves.map (fun (slave : RS485Slave) => (slave.address, slave.sequence)))
    (by intro s; rfl)
    (by intro s slave hcs; exact map_set_current_slave _ s slave _ hcs rfl)
    (by intro s frame; rfl) (by intro s slave p; rfl) fuel
  exact key.1 s t h

/-- The scheduler hands nothing to the host. -/
theorem master_poll_slave_dispatched (fuel : Nat) (s t : Engine)
    (h : master_poll_slave fuel s = some t) :
    t.dispatched = s.dispatched ∧ t.recipients = s.recipients := by
  have key := poll_send_preserve (fun (s : Engine) => (s.dispatched, s.recipients))
    (by intro s; rfl) (by intro s slave hcs; rfl) (by intro s frame; rfl)
    (by intro s slave p; rfl) fuel
  have e := key.1 s t h
  exact ⟨congrArg Prod.fst e, congrArg Prod.snd e⟩


/-! ## Round-robin polling -/

theorem header_length_empty_packet : header_length empty_packet.packet = 8 := by
  decide

theorem poll_advance_index (s : Engine) (hS : 1 ≤ s.slave_num)
    (hlo : -1 ≤ s.master_current_slave_to_process)
    (hhi : s.master_current_slave_to_process < (s.slave_num : Int)) :
    (poll_advance s).master_current_slave_to_process
        = (s.master_current_slave_to_process + 1) % (s.slave_num : Int) ∧
      0 ≤ (poll_advance s).master_current_slave_to_process ∧
      (poll_advance s).master_current_slave_to_process < (s.slave_num : Int) := by
  simp only [poll_advance]
  by_cases h : s.master_current_slave_to_process + 1 ≥ (s.slave_num : Int)
  · rw [if_pos h]
    have e : s.master_current_slave_to_process + 1 = (s.slave_num : Int) := by omega
    rw [e, Int.emod_self]
    omega
  · rw [if_neg h, Int.emod_eq_of_lt (by omega) (by omega)]
    omega

theorem poll_advance_current_slave (s : Engine) (hS : 1 ≤ s.slave_num)
    (hlo : -1 ≤ s.master_current_slave_to_process)
    (hhi : s.master_current_slave_to_process < (s.slave_num : Int)) :
    ∃ slave, (poll_advance s).current_slave = some slave ∧ slave ∈ s.slaves := by
  obtain ⟨_, h0, h1⟩ := poll_advance_index s hS hlo hhi
  have hlt : (poll_advance s).master_current_slave_to_process.toNat < s.slaves.length := by
    simp only [Engine.slave_num] at h1
    omega
  refine ⟨s.slaves[(poll_advance s).master_current_slave_to_process.toNat], ?_,
    List.getElem_mem _⟩
  rw [current_slave_eq_some]
  exact ⟨h0, List.getElem?_eq_getElem hlt⟩

/-- The result of `master_poll_slave` when the `write` succeeds. -/
theorem master_poll_slave_ok (fuel : Nat) (s : Engine) (slave : RS485Slave)
    (hcs : (poll_advance s).current_slave = some slave)
    (hfit : ∀ p ∈ slave.packet_queue, header_length p.packet ≤ TF_PACKET_MAX_LENGTH)
    (hw : 0 < s.write_result s.written.length) :
    master_poll_slave (fuel + 2) s = some
      (match slave.packet_queue with
       | [] =>
         sent_state
           ((poll_advance s).set_current_slave { slave with packet_queue := [empty_packet] })
           { slave with packet_queue := [empty_packet] } empty_packet
       | p :: _ => sent_state (poll_advance s) slave p) := by
  rw [master_poll_slave_succ, hcs]
  rcases slave with ⟨address, sequence, queue⟩
  cases queue with
  | nil =>
    simp only [queue_peek, List.head?_nil, queue_push, List.nil_append]
    exact send_packet_ok fuel _ ⟨address, sequence, [empty_packet]⟩ empty_packet []
      (set_current_slave_current _ _ _ hcs) rfl
      (by rw [header_length_empty_packet]; decide) hw
  | cons p rest =>
    simp only [queue_peek, List.head?_cons]
    exact send_packet_ok fuel _ ⟨address, sequence, p :: rest⟩ p rest hcs rfl
      (hfit p (List.mem_cons_self p rest)) hw

theorem mem_set_current_slave (s : Engine) (new_slave x : RS485Slave)
    (h : x ∈ (s.set_current_slave new_slave).slaves) : x ∈ s.slaves ∨ x = new_slave := by
  simp only [Engine.set_current_slave] at h
  rcases List.mem_or_eq_of_mem_set h with h | h
  · exact Or.inl h
  · exact Or.inr h

/-- One call of the scheduler with a successful `write`: where it leaves the
index, and that it can be called again. -/
theorem master_poll_slave_step (fuel : Nat) (s : Engine) (hS : 1 ≤ s.slave_num)
    (hlo : -1 ≤ s.master_current_slave_to_process)
    (hhi : s.master_current_slave_to_process < (s.slave_num : Int))
    (hw : ∀ k, 0 < s.write_result k) (hfit : queues_fit s) :
    ∃ t, master_poll_slave (fuel + 2) s = some t ∧
      t.master_current_slave_to_process
        = (s.master_current_slave_to_process + 1) % (s.slave_num : Int) ∧
      0 ≤ t.master_current_slave_to_process ∧
      t.master_current_slave_to_process < (t.slave_num : Int) ∧
      t.slave_num = s.slave_num ∧ (∀ k, 0 < t.write_result k) ∧ queues_fit t := by
  obtain ⟨hi, h0, h1⟩ := poll_advance_index s hS hlo hhi
  obtain ⟨slave, hcs, hmem⟩ := poll_advance_current_slave s hS hlo hhi
  rw [master_poll_slave_ok fuel s slave hcs (hfit slave hmem) (hw _)]
  refine ⟨_, rfl, ?_⟩
  cases hq : slave.packet_queue with
  | nil =>
    refine ⟨hi, h0, ?_, ?_, hw, ?_⟩
    · simpa [sent_state, Engine.set_current_slave, Engine.slave_num, poll_advance] using h1
    · simp [sent_state, Engine.set_current_slave, Engine.slave_num, poll_advance]
    · intro x hx p hp
      rcases mem_set_current_slave (poll_advance s) _ x hx with hx | hx
      · exact hfit x hx p hp
      · subst hx
        simp only [List.mem_singleton] at hp
        subst hp
        rw [header_length_empty_packet]
        decide
  | cons p rest => exact ⟨hi, h0, h1, rfl, hw, hfit⟩

theorem poll_times_index (fuel : Nat) (n : Nat) :
    ∀ s : Engine, 1 ≤ s.slave_num → 0 ≤ s.master_current_slave_to_process →
      s.master_current_slave_to_process < (s.slave_num : Int) →
      (∀ k, 0 < s.write_result k) → queues_fit s →
      ∃ t, poll_times (fuel + 2) n s = some t ∧
        t.master_current_slave_to_process
          = (s.master_current_slave_to_process + (n : Int)) % (s.slave_num : Int) ∧
        0 ≤ t.master_current_slave_to_process ∧
        t.master_current_slave_to_process < (s.slave_num : Int) := by
  induction n with
  | zero =>
    intro s _ hlo hhi _ _
    refine ⟨s, rfl, ?_, hlo, hhi⟩
    simp only [Nat.cast_zero, Int.add_zero]
    exact (Int.emod_eq_of_lt hlo hhi).symm
  | succ n ih =>
    intro s hS hlo hhi hw hfit
    obtain ⟨t1, h1, hi1, hlo1, hhi1, hS1, hw1, hfit1⟩ :=
      master_poll_slave_step fuel s hS (by omega) hhi hw hfit
    obtain ⟨t, ht, hit, hlot, hhit⟩ := ih t1 (by omega) hlo1 hhi1 hw1 hfit1
    refine ⟨t, ?_, ?_, hlot, by rw [← hS1]; exact hhit⟩
    · rw [poll_times, h1, Option.some_bind, ht]
    · rw [hit, hi1, hS1, Int.emod_add_emod]
      congr 1
      push_cast
      omega

/-- With a successful `write` and queues that fit, the scheduler returns. -/
theorem master_poll_slave_returns (fuel : Nat) (s : Engine) (hS : 1 ≤ s.slave_num)
    (hlo : -1 ≤ s.master_current_slave_to_process)
    (hhi : s.master_current_slave_to_process < (s.slave_num : Int))
    (hw : 0 < s.write_result s.written.length) (hfit : queues_fit s) :
    ∃ t, master_poll_slave (fuel + 2) s = some t ∧
      t.master_current_slave_to_process
        = (s.master_current_slave_to_process + 1) % (s.slave_num : Int) := by
  obtain ⟨hi, _, _⟩ := poll_advance_index s hS hlo hhi
  obtain ⟨slave, hcs, hmem⟩ := poll_advance_current_slave s hS hlo hhi
  rw [master_poll_slave_ok fuel s slave hcs (hfit slave hmem) hw]
  refine ⟨_, rfl, ?_⟩
  cases hq : slave.packet_queue with
  | nil => exact hi
  | cons p rest => exact hi

theorem current_slave_mem (s : Engine) (slave : RS485Slave) (h : s.current_slave = some slave) :
    slave ∈ s.slaves :=
  List.getElem?_mem ((current_slave_eq_some s slave).1 h).2

theorem current_slave_range (s : Engine) (slave : RS485Slave) (h : s.current_slave = some slave) :
    1 ≤ s.slave_num ∧ -1 ≤ s.master_current_slave_to_process ∧
      s.master_current_slave_to_process < (s.slave_num : Int) := by
  have hl := current_slave_lt s slave h
  simp only [Engine.slave_num]
  omega

theorem mem_after_tries (q : List RS485ExtensionPacket) (p : RS485ExtensionPacket)
    (h : p ∈ after_tries q) : ∃ p0 ∈ q, p.packet = p0.packet := by
  cases q with
  | nil => simp [after_tries] at h
  | cons head rest =>
    simp only [after_tries] at h
    split at h
    · exact ⟨p, List.mem_cons_of_mem _ h, rfl⟩
    · rcases List.mem_cons.1 h with h | h
      · exact ⟨head, List.mem_cons_self _ _, by rw [h]⟩
      · exact ⟨p, List.mem_cons_of_mem _ h, rfl⟩

theorem queues_fit_exchange_done (s : Engine) (slave : RS485Slave)
    (hs : s.current_slave = some slave) (hfit : queues_fit s) :
    queues_fit (exchange_done s slave) := by
  intro x hx p hp
  rcases mem_set_current_slave _ _ x hx with hx | hx
  · exact hfit x hx p hp
  · subst hx
    exact hfit slave (current_slave_mem s slave hs) p (List.mem_of_mem_tail hp)

theorem queues_fit_exchange_failed (s : Engine) (slave : RS485Slave)
    (hs : s.current_slave = some slave) (hfit : queues_fit s) :
    queues_fit (exchange_failed s slave) := by
  intro x hx p hp
  rcases mem_set_current_slave _ _ x hx with hx | hx
  · exact hfit x hx p hp
  · subst hx
    obtain ⟨p0, hp0, e⟩ := mem_after_tries _ p hp
    rw [e]
    exact hfit slave (current_slave_mem s slave hs) p0 hp0

/-- After a completed exchange the scheduler returns, given a successful `write`. -/
theorem master_poll_slave_exchange_done (fuel : Nat) (s : Engine) (slave : RS485Slave)
    (hs : s.current_slave = some slave)
    (hw : 0 < s.write_result s.written.length) (hfit : queues_fit s) :
    ∃ t, master_poll_slave (fuel + 2) (exchange_done s slave) = some t ∧
      t.master_current_slave_to_process
        = (s.master_current_slave_to_process + 1) % (s.slave_num : Int) := by
  obtain ⟨hS, hlo, hhi⟩ := current_slave_range s slave hs
  have hn : (exchange_done s slave).slave_num = s.slave_num := by
    simp [exchange_done, Engine.set_current_slave, Engine.slave_num, disable_master_timer]
  obtain ⟨t, ht, hi⟩ := master_poll_slave_returns fuel (exchange_done s slave)
    (by rw [hn]; exact hS) hlo (by rw [hn]; exact hhi) hw
    (queues_fit_exchange_done s slave hs hfit)
  exact ⟨t, ht, by rw [hi, hn]; rfl⟩

/-- After a failed exchange the scheduler returns, given a successful `write`. -/
theorem master_poll_slave_exchange_failed (fuel : Nat) (s : Engine) (slave : RS485Slave)
    (hs : s.current_slave = some slave)
    (hw : 0 < s.write_result s.written.length) (hfit : queues_fit s) :
    ∃ t, master_poll_slave (fuel + 2) (exchange_failed s slave) = some t ∧
      t.master_current_slave_to_process
        = (s.master_current_slave_to_process + 1) % (s.slave_num : Int) := by
  obtain ⟨hS, hlo, hhi⟩ := current_slave_range s slave hs
  have hn : (exchange_failed s slave).slave_num = s.slave_num := by
    simp [exchange_failed, Engine.set_current_slave, Engine.slave_num, disable_master_timer]
  obtain ⟨t, ht, hi⟩ := master_poll_slave_returns fuel (exchange_failed s slave)
    (by rw [hn]; exact hS) hlo (by rw [hn]; exact hhi) hw
    (queues_fit_exchange_failed s slave hs hfit)
  exact ⟨t, ht, by rw [hi, hn]; rfl⟩


/-! ## The claims -/

/-- C1, frame length law: for the packet at the head of the current slave's queue,
of length `L ≤ 80`, `send_packet` passes to `write` a frame of exactly `L + 5`
bytes whose last two bytes are the CRC16 of the first `L + 3` bytes, high byte
first and then low byte. The frame is written whether `write` succeeds (then the
engine is left in `sent_state`) or fails (then the scheduler is called). -/
theorem send_packet_frame_length (fuel : Nat) (s : Engine) (slave : RS485Slave)
    (p : RS485ExtensionPacket) (rest : List RS485ExtensionPacket)
    (hslave : s.current_slave = some slave) (hq : slave.packet_queue = p :: rest)
    (hlen : header_length p.packet ≤ 80) :
    send_packet (fuel + 1) s =
        (if s.write_result s.written.length ≤ 0 then
          master_poll_slave fuel { s with written := s.written ++ [rs485_packet slave p] }
         else some (sent_state s slave p)) ∧
      (sent_state s slave p).written = s.written ++ [rs485_packet slave p] ∧
      (rs485_packet slave p).length = header_length p.packet + 5 ∧
      (rs485_packet slave p).drop (header_length p.packet + 3) =
        [crc16 ((rs485_packet slave p).take (header_length p.packet + 3)) / 256,
         crc16 ((rs485_packet slave p).take (header_length p.packet + 3)) % 256] := by
  refine ⟨?_, rfl, rs485_packet_length slave p, rs485_packet_drop slave p⟩
  rw [send_packet_succ, hslave]
  simp only [hq, queue_peek, List.head?_cons]
  rw [if_neg (by simp only [TF_PACKET_MAX_LENGTH]; omega)]

/-- Witness of C1 on a queued request of 12 bytes. -/
theorem send_packet_frame_length_witness :
    (example_engine [example_request] [] [] false false).current_slave
        = some ⟨17, 0, [example_request]⟩ ∧
      header_length example_request.packet ≤ 80 ∧
      (rs485_packet ⟨17, 0, [example_request]⟩ example_request).length
        = header_length example_request.packet + 5 :=
  ⟨by decide, by decide,
    (send_packet_frame_length 0 (example_engine [example_request] [] [] false false)
      ⟨17, 0, [example_request]⟩ example_request [] (by decide) rfl (by decide)).2.2.1⟩

/-- C2, CRC round-trip: `crc16` applied to a byte sequence followed by the two
bytes of its own CRC16, high byte first and then low byte, returns `0x0000`. This
holds for sequences of every length, those of at most 85 bytes included. -/
theorem crc16_round_trip (s : List Nat) :
    crc16 (s ++ [crc16 s / 256, crc16 s % 256]) = 0x0000 := by
  rw [← crc16_shiftRight, ← crc16_and]
  exact crc16_append_crc s

/-- C3, the tables are the standard Modbus tables: both have 256 entries, entry `i`
of the two tables holds the two bytes of the register obtained from `i` by 8
shifts with polynomial `0xA001`, and for every byte sequence the table-driven
`crc16` equals the bitwise CRC-16/Modbus with the two bytes of the register
exchanged. -/
theorem crc16_is_modbus (s : List Nat) (hs : ∀ b ∈ s, b < 256) :
    table_crc_hi.length = 256 ∧ table_crc_lo.length = 256 ∧
      (∀ i, i < 256 →
        modbus_shift^[8] i = 256 * table_crc_lo.getD i 0 + table_crc_hi.getD i 0) ∧
      crc16 s = swap_bytes (crc16_modbus_bitwise s) :=
  ⟨table_crc_hi_length, table_crc_lo_length, modbus_shift8_table,
    crc16_refines_bitwise s hs⟩

/-- Witness of C3 on the bytes `01 04 02 FF FF`. -/
theorem crc16_is_modbus_witness :
    (∀ b ∈ [0x01, 0x04, 0x02, 0xFF, 0xFF], b < 256) ∧
      crc16 [0x01, 0x04, 0x02, 0xFF, 0xFF]
        = swap_bytes (crc16_modbus_bitwise [0x01, 0x04, 0x02, 0xFF, 0xFF]) :=
  ⟨by decide, (crc16_is_modbus [0x01, 0x04, 0x02, 0xFF, 0xFF] (by decide)).2.2.2⟩

/-- C4, reference vector: `crc16` of the five bytes `01 04 02 FF FF` is `0xB880`,
high byte `0xB8` and low byte `0x80`. -/
theorem crc16_reference_vector :
    crc16 [0x01, 0x04, 0x02, 0xFF, 0xFF] = 0xB880 ∧
      crc16 [0x01, 0x04, 0x02, 0xFF, 0xFF] / 256 = 0xB8 ∧
      crc16 [0x01, 0x04, 0x02, 0xFF, 0xFF] % 256 = 0x80 := by
  decide

/-- C5, echo verification: a frame was sent (send-verify flag set, no ACK pending,
receive buffer empty, saved request of length byte `L` with `8 ≤ L ≤ 80`) and the
reads deliver exactly the `L + 5` bytes of the saved request followed by a valid
empty reply of 13 bytes. However these bytes are split into successive reads,
the result is that of one call of the scheduler on the state `exchange_done`, in
which the sequence of the current slave is incremented once, the head of its
queue is removed and nothing else about the slaves is changed; the sequence
numbers are still these when the scheduler has returned, and it does return,
on the next slave, when its `write` succeeds and the queued packets fit. -/
theorem echo_verification (depth fuel : Nat) (s : Engine) (slave : RS485Slave) (x y : Nat)
    (reads : List (List Nat))
    (hs : s.current_slave = some slave)
    (hv : s.send_verify_flag = true) (hack : s.sent_ack_of_data_packet = false)
    (hcur : s.current_receive_buffer_index = 0)
    (hlo : 8 ≤ s.current_request_as_byte_array 7)
    (hhi : s.current_request_as_byte_array 7 ≤ 80)
    (hreads : reads.flatten = sent_frame s ++ empty_reply s x y) :
    feed_reads (depth + 2) fuel reads s = master_poll_slave fuel (exchange_done s slave) ∧
      (exchange_done s slave).slaves =
        s.slaves.set s.master_current_slave_to_process.toNat
          { slave with
            sequence := (slave.sequence + 1) % 256
            packet_queue := slave.packet_queue.tail } ∧
      (exchange_done s slave).master_current_slave_to_process
        = s.master_current_slave_to_process ∧
      (exchange_done s slave).dispatched = s.dispatched ∧
      (∀ t, feed_reads (depth + 2) fuel reads s = some t →
        t.slaves.map (fun slave => slave.sequence) =
          (s.slaves.set s.master_current_slave_to_process.toNat
            { slave with sequence := (slave.sequence + 1) % 256 }).map
            (fun slave => slave.sequence)) ∧
      (0 < s.write_result s.written.length → queues_fit s →
        ∃ t, feed_reads (depth + 2) (fuel + 2) reads s = some t ∧
          t.master_current_slave_to_process
            = (s.master_current_slave_to_process + 1) % (s.slave_num : Int)) := by
  have hstart : s = awaiting_echo s s.receive_buffer 0 := by
    cases s
    simp only at hcur
    subst hcur
    rfl
  have hmain : ∀ f, feed_reads (depth + 2) f reads s
      = master_poll_slave f (exchange_done s slave) := by
    intro f
    have h := feed_reads_awaiting_echo depth f s slave x y hs hv hack hlo hhi reads
      s.receive_buffer 0 (by omega) (fun j hj => absurd hj (Nat.not_lt_zero j))
      (by rw [List.drop_zero]; exact hreads)
    rw [← hstart] at h
    exact h
  refine ⟨hmain fuel, rfl, rfl, rfl, ?_, ?_⟩
  · intro t ht
    rw [hmain] at ht
    have hseq := congrArg (List.map Prod.snd) (master_poll_slave_sequences fuel _ t ht)
    simp only [List.map_map] at hseq
    have e1 : (Prod.snd ∘ fun (slave : RS485Slave) => (slave.address, slave.sequence))
        = fun slave => slave.sequence := rfl
    rw [e1] at hseq
    rw [hseq]
    simp only [exchange_done, Engine.set_current_slave, disable_master_timer, List.map_set]
  · intro hw hfit
    rw [hmain]
    exact master_poll_slave_exchange_done fuel s slave hs hw hfit

/-- Witness of C5: the echo of an empty poll and the empty reply to it arrive in
three reads that cut both frames. -/
theorem echo_verification_witness :
    (example_engine [empty_packet] example_poll_frame [] true false).current_slave
        = some ⟨17, 0, [empty_packet]⟩ ∧
      [[17, 100, 0, 0, 0], [0, 0, 8, 0, 0, 0, 22, 211, 17, 100, 0],
          [0, 0, 0, 0, 8, 0, 0, 0, 22, 211]].flatten
        = sent_frame (example_engine [empty_packet] example_poll_frame [] true false)
          ++ empty_reply (example_engine [empty_packet] example_poll_frame [] true false) 0 0 ∧
      feed_reads 2 2 [[17, 100, 0, 0, 0], [0, 0, 8, 0, 0, 0, 22, 211, 17, 100, 0],
          [0, 0, 0, 0, 8, 0, 0, 0, 22, 211]]
          (example_engine [empty_packet] example_poll_frame [] true false)
        = master_poll_slave 2
            (exchange_done (example_engine [empty_packet] example_poll_frame [] true false)
              ⟨17, 0, [empty_packet]⟩) :=
  ⟨by decide, by decide,
    (echo_verification 0 2 (example_engine [empty_packet] example_poll_frame [] true false)
      ⟨17, 0, [empty_packet]⟩ 0 0
      [[17, 100, 0, 0, 0], [0, 0, 8, 0, 0, 0, 22, 211, 17, 100, 0],
        [0, 0, 0, 0, 8, 0, 0, 0, 22, 211]]
      (by decide) rfl rfl rfl (by decide) (by decide) (by decide)).1⟩

/-! ## Queueing a request -/

theorem copied_packet_getD (src : Nat → Nat) (n k : Nat) (hn : n ≤ TF_PACKET_MAX_LENGTH) :
    (copied_packet src n).getD k 0 = if k < n then src k else 0 := by
  unfold copied_packet
  by_cases hk : k < TF_PACKET_MAX_LENGTH
  · rw [List.getD_eq_getElem?_getD, List.getElem?_map, List.getElem?_range hk]
    rfl
  · rw [List.getD_eq_getElem?_getD, List.getElem?_eq_none (by simpa using Nat.le_of_not_lt hk)]
    rw [if_neg (by omega)]
    rfl

theorem memcpy_packet_fits (src : Nat → Nat) (n : Nat) (h : n ≤ TF_PACKET_MAX_LENGTH) :
    memcpy_packet src n = some (copied_packet src n) := by
  rw [memcpy_packet, if_pos h]

theorem memcpy_packet_overrun (src : Nat → Nat) (n : Nat) (h : TF_PACKET_MAX_LENGTH < n) :
    memcpy_packet src n = none := by
  rw [memcpy_packet, if_neg (Nat.not_le.2 h)]

/-- A request of at most 80 bytes is appended to the queue as `queued_request`. -/
theorem push_request_fits (request : List Nat) (slave : RS485Slave)
    (h : header_length request ≤ TF_PACKET_MAX_LENGTH) :
    push_request request slave =
      some { slave with packet_queue := slave.packet_queue ++ [queued_request request] } := by
  rw [push_request, memcpy_packet_fits _ _ h]
  rfl

theorem push_request_overrun (request : List Nat) (slave : RS485Slave)
    (h : TF_PACKET_MAX_LENGTH < header_length request) :
    push_request request slave = none := by
  rw [push_request, memcpy_packet_overrun _ _ h]
  rfl

theorem push_to_all_fits (request : List Nat)
    (h : header_length request ≤ TF_PACKET_MAX_LENGTH) (l : List RS485Slave) :
    push_to_all request l =
      some (l.map fun slave =>
        { slave with packet_queue := slave.packet_queue ++ [queued_request request] }) := by
  induction l with
  | nil => rfl
  | cons a rest ih =>
    rw [push_to_all, push_request_fits request a h, Option.some_bind, ih]
    rfl

theorem push_to_all_overrun (request : List Nat)
    (h : TF_PACKET_MAX_LENGTH < header_length request) (l : List RS485Slave) (hl : l ≠ []) :
    push_to_all request l = none := by
  cases l with
  | nil => exact absurd rfl hl
  | cons a rest =>
    rw [push_to_all, push_request_overrun request a h]
    rfl

/-- The broadcast branch of `red_rs485_extension_dispatch_to_rs485`: every slave
gets `queued_request` when the request has at most 80 bytes or there is no
slave; otherwise the first copy writes past the queued item. -/
theorem dispatch_to_all (request : List Nat) (recipient : Option Int) (s : Engine)
    (h : header_uid request = 0 ∨ recipient = none) :
    red_rs485_extension_dispatch_to_rs485 request recipient s =
      if header_length request ≤ TF_PACKET_MAX_LENGTH ∨ s.slaves = [] then
        some { s with slaves := s.slaves.map fun slave =>
          { slave with packet_queue := slave.packet_queue ++ [queued_request request] } }
      else none := by
  have key : red_rs485_extension_dispatch_to_rs485 request recipient s =
      (push_to_all request s.slaves).map fun slaves => { s with slaves := slaves } := by
    unfold red_rs485_extension_dispatch_to_rs485
    cases recipient with
    | none => rfl
    | some tag =>
      rcases h with h | h
      · simp only [h, if_true]
      · exact absurd h (by simp)
  rw [key]
  by_cases hlen : header_length request ≤ TF_PACKET_MAX_LENGTH
  · rw [if_pos (Or.inl hlen), push_to_all_fits request hlen]
    rfl
  · by_cases hl : s.slaves = []
    · rw [if_pos (Or.inr hl), hl]
      rfl
    · rw [if_neg (by tauto), push_to_all_overrun request (Nat.lt_of_not_le hlen) _ hl]
      rfl

theorem set_current_slave_self (s : Engine) (slave : RS485Slave)
    (h : s.current_slave = some slave) : s.set_current_slave slave = s := by
  have hget := ((current_slave_eq_some s slave).1 h).2
  cases s
  simp only [Engine.set_current_slave] at hget ⊢
  rw [list_set_same _ _ _ hget]

/-- A head with `k + 1` tries left, at most 10, after `j ≤ k` failed exchanges. -/
theorem pop_times_head (s : Engine) (slave : RS485Slave) (packet : List Nat)
    (rest : List RS485ExtensionPacket) (j : Nat) :
    ∀ (k : Nat) (queue : List RS485ExtensionPacket), k + j ≤ 9 →
      queue = ⟨packet, k + j + 1⟩ :: rest →
      (s.set_current_slave { slave with packet_queue := queue }).current_slave
        = some { slave with packet_queue := queue } →
      pop_times j (s.set_current_slave { slave with packet_queue := queue })
        = some (s.set_current_slave { slave with packet_queue := ⟨packet, k + 1⟩ :: rest }) := by
  induction j with
  | zero =>
    intro k queue _ hq _
    rw [hq]
    rfl
  | succ j ih =>
    intro k queue hk hq hcs
    rw [pop_times, pop_packet_from_slave_queue_some _ _ hcs, Option.some_bind,
      set_current_slave_twice]
    have hat : after_tries queue = ⟨packet, k + j + 1⟩ :: rest := by
      rw [hq]
      simp only [after_tries]
      rw [if_neg (by omega)]
      congr 2
      omega
    simp only [hat]
    apply ih k _ (by omega) rfl
    have := set_current_slave_current _ _
      ({ slave with packet_queue := ⟨packet, k + j + 1⟩ :: rest } : RS485Slave) hcs
    rw [set_current_slave_twice] at this
    exact this

/-- The queue of the current slave in the state `exchange_failed`: a head with
1 to 10 tries left loses one try and is popped when none is left. -/
theorem exchange_failed_queue (s : Engine) (slave : RS485Slave) (head : RS485ExtensionPacket)
    (rest : List RS485ExtensionPacket) (hs : s.current_slave = some slave)
    (hq : slave.packet_queue = head :: rest)
    (h1 : 1 ≤ head.tries_left) (h10 : head.tries_left ≤ 10) :
    (exchange_failed s slave).current_slave.map (fun slave => slave.packet_queue) =
      some (if head.tries_left = 1 then rest
        else { head with tries_left := head.tries_left - 1 } :: rest) := by
  have hcs := set_current_slave_current (disable_master_timer s) slave
    ({ slave with
        sequence :=
          if is_current_request_empty s then (slave.sequence + 1) % 256 else slave.sequence
        packet_queue := after_tries slave.packet_queue } : RS485Slave) hs
  unfold exchange_failed
  rw [hcs, hq]
  simp only [Option.map_some', after_tries]
  by_cases h : head.tries_left = 1
  · rw [if_pos h, if_pos (by omega)]
  · rw [if_neg h, if_neg (by omega)]
    congr 3
    omega

/-- C7, retry budget: a data packet of at most 80 bytes is enqueued by
dispatch-in (here the broadcast) as `queued_request`, with `tries_left = 10`
(a longer one makes the copy write past the queued item). While it is at the head
of the queue of the current slave, each of the first 9 consecutive calls of
`pop_packet_from_slave_queue` keeps it at the head with `tries_left` reduced by
one, and the 10th removes it from the queue. A frame error (`seq_pop_poll`
after the timer was disabled) and an expired deadline (`master_timeout_handler`)
each hand to the scheduler the state `exchange_failed`, in which exactly one
such call has been made on the queue of the current slave. -/
theorem retry_budget (fuel : Nat) (s : Engine) (slave : RS485Slave) (request : List Nat)
    (rest : List RS485ExtensionPacket)
    (hs : s.current_slave = some slave)
    (hq : slave.packet_queue = queued_request request :: rest) :
    (∀ e : Engine, red_rs485_extension_dispatch_to_rs485 request none e =
        if header_length request ≤ TF_PACKET_MAX_LENGTH ∨ e.slaves = [] then
          some { e with slaves := e.slaves.map fun slave =>
            { slave with packet_queue := slave.packet_queue ++ [queued_request request] } }
        else none) ∧
      (queued_request request).tries_left = 10 ∧
      (∀ j, j < 10 →
        pop_times j s = some (s.set_current_slave
          { slave with
            packet_queue := { queued_request request with tries_left := 10 - j } :: rest })) ∧
      pop_times 10 s = some (s.set_current_slave { slave with packet_queue := rest }) ∧
      (∀ (e : Engine) (current : RS485Slave) (head : RS485ExtensionPacket)
          (others : List RS485ExtensionPacket),
        e.current_slave = some current → current.packet_queue = head :: others →
        1 ≤ head.tries_left → head.tries_left ≤ 10 →
        seq_pop_poll fuel (disable_master_timer e)
            = master_poll_slave fuel (exchange_failed e current) ∧
          (e.TIMEOUT ≤ time_passed_from_last_timer_enable e →
            master_timeout_handler fuel e
              = master_poll_slave fuel (exchange_failed e current)) ∧
          (exchange_failed e current).current_slave.map (fun slave => slave.packet_queue) =
            some (if head.tries_left = 1 then others
              else { head with tries_left := head.tries_left - 1 } :: others)) := by
  have hstart : s = s.set_current_slave { slave with packet_queue := slave.packet_queue } :=
    (set_current_slave_self s slave hs).symm
  have hcs : (s.set_current_slave { slave with packet_queue := slave.packet_queue }).current_slave
      = some { slave with packet_queue := slave.packet_queue } := by
    rw [← hstart]
    exact hs
  have hnine : ∀ j, j < 10 →
      pop_times j s = some (s.set_current_slave
        { slave with
          packet_queue := { queued_request request with tries_left := 10 - j } :: rest }) := by
    intro j hj
    have h := pop_times_head s slave (queued_request request).packet rest j (9 - j)
      slave.packet_queue (by omega)
      (by rw [hq, show 9 - j + j + 1 = 10 by omega]; rfl) hcs
    rw [← hstart] at h
    rw [h, show 9 - j + 1 = 10 - j by omega]
  refine ⟨fun e => dispatch_to_all request none e (Or.inr rfl), rfl, hnine, ?_, ?_⟩
  · have h9 := hnine 9 (by omega)
    have hcs9 := set_current_slave_current s slave
      ({ slave with
          packet_queue := { queued_request request with tries_left := 10 - 9 } :: rest })
      hs
    rw [show (10 : Nat) = 9 + 1 from rfl]
    have hstep : ∀ n (e : Engine), pop_times (n + 1) e
        = (pop_times n e).bind pop_packet_from_slave_queue := by
      intro n
      induction n with
      | zero => intro e; simp [pop_times]
      | succ n ih =>
        intro e
        rw [pop_times]
        cases hp : pop_packet_from_slave_queue e with
        | none => simp [pop_times, hp]
        | some e1 =>
          rw [Option.some_bind, ih e1]
          conv_rhs => rw [pop_times, hp, Option.some_bind]
    rw [hstep, h9, Option.some_bind, pop_packet_from_slave_queue_some _ _ hcs9,
      set_current_slave_twice]
    simp [after_tries]
  · intro e current head others hcur hqueue h1 h10
    exact ⟨seq_pop_poll_eq fuel e current hcur,
      fun hexp => master_timeout_handler_expired fuel e current hcur hexp,
      exchange_failed_queue e current head others hcur hqueue h1 h10⟩

/-- Witness of C7: a request of 12 bytes put at the head of the queue of slave 17. -/
theorem retry_budget_witness :
    (example_engine [queued_request example_request.packet] [] [] false false).current_slave
        = some ⟨17, 0, [queued_request example_request.packet]⟩ ∧
      pop_times 10 (example_engine [queued_request example_request.packet] [] [] false false)
        = some ((example_engine [queued_request example_request.packet] [] []
            false false).set_current_slave ⟨17, 0, []⟩) :=
  ⟨by decide,
    (retry_budget 0 (example_engine [queued_request example_request.packet] [] [] false false)
      ⟨17, 0, [queued_request example_request.packet]⟩ example_request.packet []
      (by decide) rfl).2.2.2.1⟩

/-- C8, round-robin: with `S ≥ 1` slaves, successful writes and no queued packet
longer than 80 bytes (in particular with all queues empty), every call of
`master_poll_slave` returns and replaces the index `i` of the current slave by
`(i + 1) mod S`, the initial value `-1` by 0; so `n` calls in a row starting
from index `i ≥ 0` end at `(i + n) mod S` (from 0 the slaves are visited in the
order 1, 2, ..., S-1, 0, 1, ...), and the index is in `[0, S)` after every call. -/
theorem round_robin (fuel : Nat) (s : Engine) (hS : 1 ≤ s.slave_num)
    (hlo : -1 ≤ s.master_current_slave_to_process)
    (hhi : s.master_current_slave_to_process < (s.slave_num : Int))
    (hw : ∀ k, 0 < s.write_result k) (hfit : queues_fit s) :
    (∃ t, master_poll_slave (fuel + 2) s = some t ∧
        t.master_current_slave_to_process
          = (s.master_current_slave_to_process + 1) % (s.slave_num : Int) ∧
        0 ≤ t.master_current_slave_to_process ∧
        t.master_current_slave_to_process < (s.slave_num : Int)) ∧
      (s.master_current_slave_to_process = -1 →
        ∃ t, master_poll_slave (fuel + 2) s = some t ∧
          t.master_current_slave_to_process = 0) ∧
      (0 ≤ s.master_current_slave_to_process →
        ∀ n, ∃ t, poll_times (fuel + 2) n s = some t ∧
          t.master_current_slave_to_process
            = (s.master_current_slave_to_process + (n : Int)) % (s.slave_num : Int) ∧
          0 ≤ t.master_current_slave_to_process ∧
          t.master_current_slave_to_process < (s.slave_num : Int)) := by
  obtain ⟨t, ht, hi, h0, h1, hS', _, _⟩ := master_poll_slave_step fuel s hS hlo hhi hw hfit
  refine ⟨⟨t, ht, hi, h0, by rw [← hS']; exact h1⟩, ?_, ?_⟩
  · intro hm
    refine ⟨t, ht, ?_⟩
    rw [hi, hm]
    simp
  · intro hpos n
    exact poll_times_index fuel n s hS hpos hhi hw hfit

/-- Witness of C8: two slaves with empty queues, the first being the current one. -/
theorem round_robin_witness :
    1 ≤ (example_engine [] [] [] false false).slave_num ∧
      (∃ t, master_poll_slave 2 (example_engine [] [] [] false false) = some t ∧
        t.master_current_slave_to_process =
          ((example_engine [] [] [] false false).master_current_slave_to_process + 1)
            % ((example_engine [] [] [] false false).slave_num : Int) ∧
        0 ≤ t.master_current_slave_to_process ∧
        t.master_current_slave_to_process
          < ((example_engine [] [] [] false false).slave_num : Int)) :=
  ⟨by decide,
    (round_robin 0 (example_engine [] [] [] false false) (by decide) (by decide) (by decide)
      (by intro k; show (0 : Int) < 13; decide)
      (by
        intro slave hslave p hp
        simp only [example_engine, List.mem_cons, List.mem_singleton, List.not_mem_nil,
          or_false] at hslave
        rcases hslave with h | h <;> subst h <;> simp at hp)).1⟩

/-- C9, poll synthesis: `master_poll_slave` first resets `sent_ack_of_data_packet` to
false and the receive cursor to 0 (state `poll_advance`), then, for the slave
`slave` it selects: when the queue is empty it pushes exactly one packet with
length 8 and `tries_left` 1 and calls `send_packet`, which with a successful
`write` sends the frame of that packet; when the queue is not empty it calls
`send_packet` on the unchanged queues, which sends the frame of the existing
head. -/
theorem poll_synthesis (fuel : Nat) (s : Engine) (slave : RS485Slave)
    (hcs : (poll_advance s).current_slave = some slave) :
    (poll_advance s).sent_ack_of_data_packet = false ∧
      (poll_advance s).current_receive_buffer_index = 0 ∧
      (poll_advance s).slaves = s.slaves ∧
      header_length empty_packet.packet = 8 ∧ empty_packet.tries_left = 1 ∧
      (slave.packet_queue = [] →
        master_poll_slave (fuel + 1) s =
            send_packet fuel ((poll_advance s).set_current_slave
              { slave with packet_queue := [empty_packet] }) ∧
          (0 < s.write_result s.written.length →
            master_poll_slave (fuel + 2) s = some
              (sent_state ((poll_advance s).set_current_slave
                  { slave with packet_queue := [empty_packet] })
                { slave with packet_queue := [empty_packet] } empty_packet))) ∧
      (∀ head rest, slave.packet_queue = head :: rest →
        master_poll_slave (fuel + 1) s = send_packet fuel (poll_advance s) ∧
          (0 < s.write_result s.written.length →
            header_length head.packet ≤ 80 →
            master_poll_slave (fuel + 2) s = some (sent_state (poll_advance s) slave head))) ∧
      (∀ e current p, (sent_state e current p).slaves = e.slaves ∧
        (sent_state e current p).written = e.written ++ [rs485_packet current p] ∧
        (sent_state e current p).sent_ack_of_data_packet = e.sent_ack_of_data_packet ∧
        (sent_state e current p).current_receive_buffer_index
          = e.current_receive_buffer_index) := by
  refine ⟨rfl, rfl, rfl, header_length_empty_packet, rfl, ?_, ?_, fun _ _ _ => ⟨rfl, rfl, rfl, rfl⟩⟩
  · intro hq
    constructor
    · rw [master_poll_slave_succ, hcs]
      simp only [hq, queue_peek, List.head?_nil, queue_push, List.nil_append]
    · intro hw
      rw [master_poll_slave_succ, hcs]
      simp only [hq, queue_peek, List.head?_nil, queue_push, List.nil_append]
      exact send_packet_ok fuel _ _ empty_packet []
        (set_current_slave_current _ slave _ hcs) rfl
        (by rw [header_length_empty_packet]; decide) hw
  · intro head rest hq
    constructor
    · rw [master_poll_slave_succ, hcs]
      simp only [hq, queue_peek, List.head?_cons]
    · intro hw hlen
      rw [master_poll_slave_succ, hcs]
      simp only [hq, queue_peek, List.head?_cons]
      exact send_packet_ok fuel _ slave head rest hcs hq hlen hw

/-- Witness of C9: the scheduler moves on to slave 5, whose queue is empty. -/
theorem poll_synthesis_witness :
    (poll_advance (example_engine [] [] [] false false)).current_slave = some ⟨5, 7, []⟩ ∧
      master_poll_slave 1 (example_engine [] [] [] false false) =
        send_packet 0 ((poll_advance (example_engine [] [] [] false false)).set_current_slave
          ⟨5, 7, [empty_packet]⟩) :=
  ⟨by decide,
    ((poll_synthesis 0 (example_engine [] [] [] false false) ⟨5, 7, []⟩
      (by decide)).2.2.2.2.2.1 rfl).1⟩

/-- The comparison loop succeeds on a buffer that starts with the saved request,
whose length byte is at most 80. -/
theorem send_verify_loop_of_echo (s : Engine) (hlen : s.receive_buffer 7 ≤ 80)
    (hecho : ∀ i, i ≤ s.receive_buffer 7 + 4 →
      s.receive_buffer i = s.current_request_as_byte_array i) :
    send_verify_loop s.receive_buffer s.current_request_as_byte_array
      (s.receive_buffer 7 + 4 + 1) 0 = some true := by
  apply send_verify_loop_true
  intro j hj
  rw [Nat.zero_add]
  refine ⟨?_, hecho j (by omega)⟩
  simp only [CURRENT_REQUEST_SIZE, TF_PACKET_MAX_LENGTH, RS485_PACKET_HEADER_LENGTH,
    RS485_PACKET_FOOTER_LENGTH]
  omega

/-- C11, ACK completion: in verify mode with `sent_ack_of_data_packet` set, when the
buffer holds a complete frame equal to the saved request, `verify_buffer` is one
call of the scheduler on the state `exchange_done`: the send-verify flag is
clear, the deadline is disabled, the sequence of the current slave is
incremented by one modulo 256 and the head of its queue is removed. With a
successful `write` and queued packets that fit the scheduler returns, on the
next slave. -/
theorem ack_completion (depth fuel : Nat) (s : Engine) (slave : RS485Slave)
    (hs : s.current_slave = some slave)
    (hv : s.send_verify_flag = true) (hack : s.sent_ack_of_data_packet = true)
    (h8 : 8 ≤ s.current_receive_buffer_index)
    (hc : s.receive_buffer 7 + 4 < s.current_receive_buffer_index)
    (hlen : s.receive_buffer 7 ≤ 80)
    (hecho : ∀ i, i ≤ s.receive_buffer 7 + 4 →
      s.receive_buffer i = s.current_request_as_byte_array i) :
    verify_buffer (depth + 1) fuel s = master_poll_slave fuel (exchange_done s slave) ∧
      (exchange_done s slave).send_verify_flag = false ∧
      (exchange_done s slave).master_timer_value_nsec = 0 ∧
      (exchange_done s slave).slaves =
        s.slaves.set s.master_current_slave_to_process.toNat
          { slave with
            sequence := (slave.sequence + 1) % 256
            packet_queue := slave.packet_queue.tail } ∧
      (exchange_done s slave).master_current_slave_to_process
        = s.master_current_slave_to_process ∧
      (0 < s.write_result s.written.length → queues_fit s →
        ∃ t, verify_buffer (depth + 1) (fuel + 2) s = some t ∧
          t.master_current_slave_to_process
            = (s.master_current_slave_to_process + 1) % (s.slave_num : Int)) := by
  have hl := send_verify_loop_of_echo s hlen hecho
  refine ⟨verify_buffer_echo_ack depth fuel s slave hs h8 hc hv hl hack, rfl, rfl, rfl, rfl, ?_⟩
  intro hw hfit
  rw [verify_buffer_echo_ack depth (fuel + 2) s slave hs h8 hc hv hl hack]
  exact master_poll_slave_exchange_done fuel s slave hs hw hfit

/-- Witness of C11: the echo of the ACK sent to slave 17 has arrived. -/
theorem ack_completion_witness :
    (example_engine [empty_packet] example_poll_frame example_poll_frame true true).current_slave
        = some ⟨17, 0, [empty_packet]⟩ ∧
      (∀ i, i ≤ (example_engine [empty_packet] example_poll_frame example_poll_frame
            true true).receive_buffer 7 + 4 →
        (example_engine [empty_packet] example_poll_frame example_poll_frame
            true true).receive_buffer i =
          (example_engine [empty_packet] example_poll_frame example_poll_frame
            true true).current_request_as_byte_array i) ∧
      verify_buffer 1 2
          (example_engine [empty_packet] example_poll_frame example_poll_frame true true)
        = master_poll_slave 2
            (exchange_done
              (example_engine [empty_packet] example_poll_frame example_poll_frame true true)
              ⟨17, 0, [empty_packet]⟩) ∧
      (exchange_done
          (example_engine [empty_packet] example_poll_frame example_poll_frame true true)
          ⟨17, 0, [empty_packet]⟩).slaves = [⟨17, 1, []⟩, ⟨5, 7, []⟩] :=
  ⟨by decide, by decide,
    (ack_completion 0 2
      (example_engine [empty_packet] example_poll_frame example_poll_frame true true)
      ⟨17, 0, [empty_packet]⟩ (by decide) rfl rfl (by decide) (by decide) (by decide)
      (by decide)).1,
    by decide⟩

/-- The four checks fail when a header byte differs from the saved request or the
last two bytes are not the CRC16 of the bytes before them. -/
theorem reply_checks_fail_of (s : Engine)
    (hhi : s.receive_buffer (s.receive_buffer 7 + 3) < 256)
    (hlo : s.receive_buffer (s.receive_buffer 7 + 4) < 256)
    (hbad : s.receive_buffer 0 ≠ s.current_request_as_byte_array 0 ∨
      s.receive_buffer 1 ≠ s.current_request_as_byte_array 1 ∨
      s.receive_buffer 2 ≠ s.current_request_as_byte_array 2 ∨
      ¬ (s.receive_buffer (s.receive_buffer 7 + 3)
            = crc16 (span s.receive_buffer (s.receive_buffer 7 + 3)) / 256 ∧
          s.receive_buffer (s.receive_buffer 7 + 4)
            = crc16 (span s.receive_buffer (s.receive_buffer 7 + 3)) % 256)) :
    reply_checks_pass s (s.receive_buffer 7 + 4) = false := by
  unfold reply_checks_pass
  simp only [RS485_PACKET_FOOTER_LENGTH]
  by_cases h0 : s.receive_buffer 0 ≠ s.current_request_as_byte_array 0
  · rw [if_pos h0]
  rw [if_neg h0]
  by_cases h1 : s.receive_buffer 1 ≠ s.current_request_as_byte_array 1
  · rw [if_pos h1]
  rw [if_neg h1]
  by_cases h2 : s.receive_buffer 2 ≠ s.current_request_as_byte_array 2
  · rw [if_pos h2]
  rw [if_neg h2]
  have hcrc : ¬ (s.receive_buffer (s.receive_buffer 7 + 3)
        = crc16 (span s.receive_buffer (s.receive_buffer 7 + 3)) / 256 ∧
      s.receive_buffer (s.receive_buffer 7 + 4)
        = crc16 (span s.receive_buffer (s.receive_buffer 7 + 3)) % 256) := by
    rcases hbad with h | h | h | h
    · exact absurd h h0
    · exact absurd h h1
    · exact absurd h h2
    · exact h
  have e1 : s.receive_buffer 7 + 4 - 2 + 1 = s.receive_buffer 7 + 3 := by omega
  have e2 : s.receive_buffer 7 + 4 - 1 = s.receive_buffer 7 + 3 := by omega
  simp only [e1, e2]
  rw [crc16_pack hhi hlo, if_pos]
  intro h
  apply hcrc
  omega

/-- C12, reply validation: in peer-reply mode, every complete frame (so every
complete empty or data reply) whose address, function code or sequence byte
differs from bytes 0, 1, 2 of the saved request, or whose last two bytes are not
the CRC16 of the bytes before them, high byte first, is rejected: the result is
`seq_pop_poll` after `disable_master_timer`, that is one call of the scheduler on
the state `exchange_failed`, in which the deadline is disabled and nothing was
handed to the host; nothing is handed to the host by the scheduler either. -/
theorem reply_validation (depth fuel : Nat) (s : Engine) (slave : RS485Slave)
    (hs : s.current_slave = some slave)
    (hv : s.send_verify_flag = false)
    (h8 : 8 ≤ s.current_receive_buffer_index)
    (hc : s.receive_buffer 7 + 4 < s.current_receive_buffer_index)
    (hhi : s.receive_buffer (s.receive_buffer 7 + 3) < 256)
    (hlo : s.receive_buffer (s.receive_buffer 7 + 4) < 256)
    (hbad : s.receive_buffer 0 ≠ s.current_request_as_byte_array 0 ∨
      s.receive_buffer 1 ≠ s.current_request_as_byte_array 1 ∨
      s.receive_buffer 2 ≠ s.current_request_as_byte_array 2 ∨
      ¬ (s.receive_buffer (s.receive_buffer 7 + 3)
            = crc16 (span s.receive_buffer (s.receive_buffer 7 + 3)) / 256 ∧
          s.receive_buffer (s.receive_buffer 7 + 4)
            = crc16 (span s.receive_buffer (s.receive_buffer 7 + 3)) % 256)) :
    verify_buffer (depth + 1) fuel s = seq_pop_poll fuel (disable_master_timer s) ∧
      verify_buffer (depth + 1) fuel s = master_poll_slave fuel (exchange_failed s slave) ∧
      (disable_master_timer s).master_timer_value_nsec = 0 ∧
      (exchange_failed s slave).master_timer_value_nsec = 0 ∧
      (exchange_failed s slave).dispatched = s.dispatched ∧
      (exchange_failed s slave).recipients = s.recipients ∧
      (∀ t, verify_buffer (depth + 1) fuel s = some t →
        t.dispatched = s.dispatched ∧ t.recipients = s.recipients) ∧
      (0 < s.write_result s.written.length → queues_fit s →
        ∃ t, verify_buffer (depth + 1) (fuel + 2) s = some t ∧
          t.dispatched = s.dispatched ∧ t.recipients = s.recipients) := by
  have hfail := reply_checks_fail_of s hhi hlo hbad
  have hmain : ∀ f, verify_buffer (depth + 1) f s
      = master_poll_slave f (exchange_failed s slave) := fun f =>
    verify_buffer_reply_rejected depth f s slave hs h8 hc hv (Or.inl hfail)
  refine ⟨?_, hmain fuel, rfl, rfl, rfl, rfl, ?_, ?_⟩
  · rw [hmain fuel, seq_pop_poll_eq fuel s slave hs]
  · intro t ht
    rw [hmain fuel] at ht
    exact master_poll_slave_dispatched fuel (exchange_failed s slave) t ht
  · intro hw hfit
    obtain ⟨t, ht, _⟩ := master_poll_slave_exchange_failed fuel s slave hs hw hfit
    rw [hmain (fuel + 2)]
    exact ⟨t, ht, master_poll_slave_dispatched (fuel + 2) (exchange_failed s slave) t ht⟩

/-- Witness of C12: an empty reply whose low CRC byte is 210 instead of 211. -/
theorem reply_validation_witness :
    (example_engine [empty_packet] example_poll_frame example_bad_reply false false).current_slave
        = some ⟨17, 0, [empty_packet]⟩ ∧
      verify_buffer 1 2
          (example_engine [empty_packet] example_poll_frame example_bad_reply false false)
        = master_poll_slave 2
          (exchange_failed
            (example_engine [empty_packet] example_poll_frame example_bad_reply false false)
            ⟨17, 0, [empty_packet]⟩) :=
  ⟨by decide,
    (reply_validation 0 2
      (example_engine [empty_packet] example_poll_frame example_bad_reply false false)
      ⟨17, 0, [empty_packet]⟩ (by decide) rfl (by decide) (by decide) (by decide) (by decide)
      (Or.inr (Or.inr (Or.inr (by decide))))).2.1⟩

/-- C14, buffer compaction: in verify mode with no ACK pending, when the buffer
holds a complete frame equal to the saved request followed by `N ≥ 1` trailing
bytes, `verify_buffer` goes on from the state `compacted`, in which the cursor
is `N` and the first `N` bytes of the buffer are the trailing bytes; it parses
this state again when `N ≥ 8` and returns it otherwise. It is the state returned
whenever the `N` bytes are not yet a complete frame, that is `N < 8` or
`N ≤ trailing[7] + 4`. -/
theorem buffer_compaction (depth fuel : Nat) (s : Engine) (n : Nat)
    (hv : s.send_verify_flag = true) (hack : s.sent_ack_of_data_packet = false)
    (h8 : 8 ≤ s.current_receive_buffer_index)
    (hn : 1 ≤ n)
    (hc : s.current_receive_buffer_index = s.receive_buffer 7 + 5 + n)
    (hlen : s.receive_buffer 7 ≤ 80)
    (hecho : ∀ i, i ≤ s.receive_buffer 7 + 4 →
      s.receive_buffer i = s.current_request_as_byte_array i) :
    verify_buffer (depth + 2) fuel s =
        (if 8 ≤ n then verify_buffer (depth + 1) fuel (compacted s) else some (compacted s)) ∧
      (compacted s).current_receive_buffer_index = n ∧
      (∀ j, j < n →
        (compacted s).receive_buffer j = s.receive_buffer (s.receive_buffer 7 + 5 + j)) ∧
      (compacted s).send_verify_flag = false ∧
      (compacted s).slaves = s.slaves ∧
      (compacted s).master_timer_value_nsec = s.master_timer_value_nsec ∧
      (n < 8 ∨ n ≤ s.receive_buffer (s.receive_buffer 7 + 5 + 7) + 4 →
        verify_buffer (depth + 2) fuel s = some (compacted s)) := by
  have hl := send_verify_loop_of_echo s hlen hecho
  have hcur : s.current_receive_buffer_index - (s.receive_buffer 7 + 4 + 1) = n := by omega
  have hmain : verify_buffer (depth + 2) fuel s =
      (if 8 ≤ n then verify_buffer (depth + 1) fuel (compacted s) else some (compacted s)) := by
    rw [verify_buffer_echo_more (depth + 1) fuel s h8 (by omega) hv hl hack, ← hcur]
    rfl
  have hbytes : ∀ j, j < n →
      (compacted s).receive_buffer j = s.receive_buffer (s.receive_buffer 7 + 5 + j) := by
    intro j hj
    simp only [compacted, move_to_front, hcur]
    rw [if_pos hj]
  refine ⟨hmain, hcur, hbytes, rfl, rfl, rfl, ?_⟩
  intro hwait
  rw [hmain]
  by_cases hn8 : 8 ≤ n
  · rw [if_pos hn8]
    apply verify_buffer_incomplete
    have h7 := hbytes 7 (by omega)
    have hcur' : (compacted s).current_receive_buffer_index = n := hcur
    rw [h7, hcur']
    omega
  · rw [if_neg hn8]

/-- Witness of C14: the echo of the poll followed by the first 9 bytes of the reply. -/
theorem buffer_compaction_witness :
    (∀ i, i ≤ (example_engine [empty_packet] example_poll_frame
          (example_poll_frame ++ [17, 100, 0, 0, 0, 0, 0, 8, 0]) true false).receive_buffer 7 + 4 →
        (example_engine [empty_packet] example_poll_frame
          (example_poll_frame ++ [17, 100, 0, 0, 0, 0, 0, 8, 0]) true false).receive_buffer i =
        (example_engine [empty_packet] example_poll_frame
          (example_poll_frame ++ [17, 100, 0, 0, 0, 0, 0, 8, 0])
          true false).current_request_as_byte_array i) ∧
      verify_buffer 2 2
          (example_engine [empty_packet] example_poll_frame
            (example_poll_frame ++ [17, 100, 0, 0, 0, 0, 0, 8, 0]) true false)
        = some (compacted (example_engine [empty_packet] example_poll_frame
            (example_poll_frame ++ [17, 100, 0, 0, 0, 0, 0, 8, 0]) true false)) :=
  ⟨by decide,
    (buffer_compaction 0 2
      (example_engine [empty_packet] example_poll_frame
        (example_poll_frame ++ [17, 100, 0, 0, 0, 0, 0, 8, 0]) true false) 9
      rfl rfl (by decide) (by decide) (by decide) (by decide) (by decide)).2.2.2.2.2.2
      (Or.inr (by decide))⟩


/-! ## Error detection of the CRC16 -/

set_option maxRecDepth 100000 in
theorem table_crc_lo_nodup : table_crc_lo.Nodup := by
  decide

theorem table_crc_lo_inj {i j : Nat} (hi : i < 256) (hj : j < 256)
    (h : table_crc_lo.getD i 0 = table_crc_lo.getD j 0) : i = j := by
  have hi' : i < table_crc_lo.length := by rw [table_crc_lo_length]; exact hi
  have hj' : j < table_crc_lo.length := by rw [table_crc_lo_length]; exact hj
  rw [List.getD_eq_getElem _ _ hi', List.getD_eq_getElem _ _ hj'] at h
  exact (table_crc_lo_nodup.getElem_inj_iff).1 h

/-- Two different bytes lead from one CRC state to two different states. -/
theorem crc16_step_byte_ne (crc : Nat × Nat) {x y : Nat} (h1 : crc.1 < 256)
    (hx : x < 256) (hy : y < 256) (hxy : x ≠ y) :
    crc16_step crc x ≠ crc16_step crc y := by
  intro h
  have h2 := congrArg Prod.snd h
  simp only [crc16_step] at h2
  have hx8 : x < 2 ^ 8 := by simpa using hx
  have hy8 : y < 2 ^ 8 := by simpa using hy
  have h18 : crc.1 < 2 ^ 8 := by simpa using h1
  have e := table_crc_lo_inj (by simpa using Nat.xor_lt_two_pow h18 hx8)
    (by simpa using Nat.xor_lt_two_pow h18 hy8) h2
  exact hxy (Nat.xor_right_inj.1 e)

/-- One byte leads from two different CRC states to two different states. -/
theorem crc16_step_state_ne {c d : Nat × Nat} (x : Nat) (hc : c.1 < 256) (hd : d.1 < 256)
    (hx : x < 256) (hcd : c ≠ d) : crc16_step c x ≠ crc16_step d x := by
  intro h
  have h1 := congrArg Prod.fst h
  have h2 := congrArg Prod.snd h
  simp only [crc16_step] at h1 h2
  have hx8 : x < 2 ^ 8 := by simpa using hx
  have hc8 : c.1 < 2 ^ 8 := by simpa using hc
  have hd8 : d.1 < 2 ^ 8 := by simpa using hd
  have e := table_crc_lo_inj (by simpa using Nat.xor_lt_two_pow hc8 hx8)
    (by simpa using Nat.xor_lt_two_pow hd8 hx8) h2
  have e1 : c.1 = d.1 := Nat.xor_left_inj.1 e
  rw [e1] at h1
  have e2 : c.2 = d.2 := Nat.xor_left_inj.1 h1
  exact hcd (Prod.ext e1 e2)

theorem span_succ (b : Nat → Nat) (n : Nat) : span b (n + 1) = span b n ++ [b n] := by
  simp [span, List.range_succ]

theorem span_congr (b c : Nat → Nat) (n : Nat) (h : ∀ i, i < n → b i = c i) :
    span b n = span c n := by
  induction n with
  | zero => rfl
  | succ n ih =>
    rw [span_succ, span_succ, ih (fun i hi => h i (by omega)), h n (by omega)]

theorem crc16_state_lt (l : List Nat) :
    (l.foldl crc16_step (0xFF, 0xFF)).1 < 256 ∧ (l.foldl crc16_step (0xFF, 0xFF)).2 < 256 :=
  crc16_foldl_lt l (0xFF, 0xFF) (by decide) (by decide)

/-- Two buffers of bytes that differ in byte `j` only have different CRC states
after any number of bytes beyond `j`. -/
theorem crc16_state_ne_of_differ (b c : Nat → Nat) (j : Nat) (hj : b j ≠ c j) (m : Nat)
    (hb : ∀ i, i ≤ j + m → b i < 256) (hcb : ∀ i, i ≤ j + m → c i < 256)
    (hsame : ∀ i, i ≤ j + m → i ≠ j → b i = c i) :
    (span b (j + 1 + m)).foldl crc16_step (0xFF, 0xFF)
      ≠ (span c (j + 1 + m)).foldl crc16_step (0xFF, 0xFF) := by
  induction m with
  | zero =>
    rw [Nat.add_zero, span_succ, span_succ, List.foldl_append, List.foldl_append,
      span_congr b c j (fun i hi => hsame i (by omega) (by omega))]
    simp only [List.foldl_cons, List.foldl_nil]
    exact crc16_step_byte_ne _ (crc16_state_lt _).1 (hb j (by omega)) (hcb j (by omega)) hj
  | succ m ih =>
    have ih' := ih (fun i hi => hb i (by omega)) (fun i hi => hcb i (by omega))
      (fun i hi hne => hsame i (by omega) hne)
    rw [show j + 1 + (m + 1) = (j + 1 + m) + 1 by omega, span_succ, span_succ,
      List.foldl_append, List.foldl_append,
      ← hsame (j + 1 + m) (by omega) (by omega)]
    simp only [List.foldl_cons, List.foldl_nil]
    exact crc16_step_state_ne _ (crc16_state_lt _).1 (crc16_state_lt _).1
      (hb (j + 1 + m) (by omega)) ih'

/-- The CRC16 detects the change of a single byte. -/
theorem crc16_ne_of_differ (b c : Nat → Nat) (j n : Nat) (hjn : j < n) (hj : b j ≠ c j)
    (hb : ∀ i, i < n → b i < 256) (hcb : ∀ i, i < n → c i < 256)
    (hsame : ∀ i, i < n → i ≠ j → b i = c i) :
    crc16 (span b n) ≠ crc16 (span c n) := by
  have hne := crc16_state_ne_of_differ b c j hj (n - (j + 1))
    (fun i hi => hb i (by omega)) (fun i hi => hcb i (by omega))
    (fun i hi hne => hsame i (by omega) hne)
  rw [show j + 1 + (n - (j + 1)) = n by omega] at hne
  intro h
  rw [crc16_eq, crc16_eq] at h
  have h1 := crc16_state_lt (span b n)
  have h2 := crc16_state_lt (span c n)
  apply hne
  apply Prod.ext <;> omega

theorem flip_bit_ne (b : Nat → Nat) (j k : Nat) : flip_bit b j k j ≠ b j := by
  simp only [flip_bit, if_true]
  intro h
  have e : b j ^^^ 2 ^ k = b j ^^^ 0 := by rw [h, Nat.xor_zero]
  have := Nat.xor_right_inj.1 e
  exact absurd this (Nat.pos_iff_ne_zero.1 (Nat.two_pow_pos k))

theorem flip_bit_other (b : Nat → Nat) (j k i : Nat) (h : i ≠ j) : flip_bit b j k i = b i := by
  simp only [flip_bit, if_neg h]

theorem flip_bit_lt (b : Nat → Nat) (j k i : Nat) (hk : k < 8) (hb : b i < 256) :
    flip_bit b j k i < 256 := by
  unfold flip_bit
  split
  · have h1 : b i < 2 ^ 8 := by simpa using hb
    have h2 : 2 ^ k < 2 ^ 8 := Nat.pow_lt_pow_right (by norm_num) hk
    simpa using Nat.xor_lt_two_pow h1 h2
  · exact hb

/-- C13, CRC corruption: take a complete peer reply whose two CRC bytes are the
CRC16 of the bytes before them (as in every accepted empty or data reply) and
flip one bit of one of its bytes other than the length byte, so in particular
one bit of its payload (bytes 8 and up). The parser rejects the flipped frame: the result is one call of the scheduler on the state
`exchange_failed`, in which the sequence advances when the saved request is an
empty poll, and nothing is handed to the host. -/
theorem crc_corruption (depth fuel : Nat) (s : Engine) (slave : RS485Slave) (j k : Nat)
    (hs : s.current_slave = some slave)
    (hv : s.send_verify_flag = false)
    (h8 : 8 ≤ s.current_receive_buffer_index)
    (hc : s.receive_buffer 7 + 4 < s.current_receive_buffer_index)
    (hbytes : ∀ i, i ≤ s.receive_buffer 7 + 4 → s.receive_buffer i < 256)
    (hhi : s.receive_buffer (s.receive_buffer 7 + 3)
      = crc16 (span s.receive_buffer (s.receive_buffer 7 + 3)) / 256)
    (hlo : s.receive_buffer (s.receive_buffer 7 + 4)
      = crc16 (span s.receive_buffer (s.receive_buffer 7 + 3)) % 256)
    (hk : k < 8) (hj : j ≤ s.receive_buffer 7 + 4) (hj7 : j ≠ 7) :
    verify_buffer (depth + 1) fuel { s with receive_buffer := flip_bit s.receive_buffer j k }
        = master_poll_slave fuel
            (exchange_failed { s with receive_buffer := flip_bit s.receive_buffer j k } slave) ∧
      (exchange_failed { s with receive_buffer := flip_bit s.receive_buffer j k } slave).slaves =
        s.slaves.set s.master_current_slave_to_process.toNat
          { slave with
            sequence :=
              if is_current_request_empty s then (slave.sequence + 1) % 256
              else slave.sequence
            packet_queue := after_tries slave.packet_queue } ∧
      (∀ t, verify_buffer (depth + 1) fuel
          { s with receive_buffer := flip_bit s.receive_buffer j k } = some t →
        t.dispatched = s.dispatched ∧ t.recipients = s.recipients) ∧
      (0 < s.write_result s.written.length → queues_fit s →
        ∃ t, verify_buffer (depth + 1) (fuel + 2)
            { s with receive_buffer := flip_bit s.receive_buffer j k } = some t ∧
          t.master_current_slave_to_process
            = (s.master_current_slave_to_process + 1) % (s.slave_num : Int) ∧
          t.dispatched = s.dispatched ∧ t.recipients = s.recipients) := by
  have h7 : flip_bit s.receive_buffer j k 7 = s.receive_buffer 7 :=
    flip_bit_other _ _ _ _ (Ne.symm hj7)
  have hbad : (flip_bit s.receive_buffer j k) 0 ≠ s.current_request_as_byte_array 0 ∨
      (flip_bit s.receive_buffer j k) 1 ≠ s.current_request_as_byte_array 1 ∨
      (flip_bit s.receive_buffer j k) 2 ≠ s.current_request_as_byte_array 2 ∨
      ¬ ((flip_bit s.receive_buffer j k) (s.receive_buffer 7 + 3)
            = crc16 (span (flip_bit s.receive_buffer j k) (s.receive_buffer 7 + 3)) / 256 ∧
          (flip_bit s.receive_buffer j k) (s.receive_buffer 7 + 4)
            = crc16 (span (flip_bit s.receive_buffer j k) (s.receive_buffer 7 + 3)) % 256) := by
    refine Or.inr (Or.inr (Or.inr ?_))
    intro hcrc
    by_cases hspan : j < s.receive_buffer 7 + 3
    · have hne := crc16_ne_of_differ (flip_bit s.receive_buffer j k) s.receive_buffer j
        (s.receive_buffer 7 + 3) hspan (flip_bit_ne _ _ _)
        (fun i hi => flip_bit_lt _ _ _ _ hk (hbytes i (by omega)))
        (fun i hi => hbytes i (by omega))
        (fun i _ hne => flip_bit_other _ _ _ _ hne)
      have e3 := flip_bit_other s.receive_buffer j k (s.receive_buffer 7 + 3) (by omega)
      have e4 := flip_bit_other s.receive_buffer j k (s.receive_buffer 7 + 4) (by omega)
      rw [e3, e4, hhi, hlo] at hcrc
      have l1 := crc16_lt (span s.receive_buffer (s.receive_buffer 7 + 3))
      have l2 := crc16_lt (span (flip_bit s.receive_buffer j k) (s.receive_buffer 7 + 3))
      apply hne
      omega
    · have hsame : span (flip_bit s.receive_buffer j k) (s.receive_buffer 7 + 3)
          = span s.receive_buffer (s.receive_buffer 7 + 3) :=
        span_congr _ _ _ (fun i hi => flip_bit_other _ _ _ _ (by omega))
      rw [hsame, ← hhi, ← hlo] at hcrc
      by_cases hj3 : j = s.receive_buffer 7 + 3
      · rw [← hj3] at hcrc
        exact flip_bit_ne _ _ _ hcrc.1
      · have hj4 : j = s.receive_buffer 7 + 4 := by omega
        rw [← hj4] at hcrc
        exact flip_bit_ne _ _ _ hcrc.2
  have hfail : reply_checks_pass { s with receive_buffer := flip_bit s.receive_buffer j k }
      ((flip_bit s.receive_buffer j k) 7 + 4) = false := by
    apply reply_checks_fail_of { s with receive_buffer := flip_bit s.receive_buffer j k }
    · simp only [h7]
      exact flip_bit_lt _ _ _ _ hk (hbytes _ (by omega))
    · simp only [h7]
      exact flip_bit_lt _ _ _ _ hk (hbytes _ (by omega))
    · simp only [h7]
      exact hbad
  have hmain : ∀ f, verify_buffer (depth + 1) f
      { s with receive_buffer := flip_bit s.receive_buffer j k }
      = master_poll_slave f
          (exchange_failed { s with receive_buffer := flip_bit s.receive_buffer j k } slave) :=
    fun f => verify_buffer_reply_rejected depth f
      { s with receive_buffer := flip_bit s.receive_buffer j k } slave hs h8
      (by simp only [h7]; exact hc) hv (Or.inl hfail)
  refine ⟨hmain fuel, rfl, ?_, ?_⟩
  · intro t ht
    rw [hmain fuel] at ht
    exact master_poll_slave_dispatched fuel
      (exchange_failed { s with receive_buffer := flip_bit s.receive_buffer j k } slave) t ht
  · intro hw hfit
    obtain ⟨t, ht, hidx⟩ := master_poll_slave_exchange_failed fuel
      { s with receive_buffer := flip_bit s.receive_buffer j k } slave hs hw hfit
    rw [hmain (fuel + 2)]
    exact ⟨t, ht, hidx, master_poll_slave_dispatched (fuel + 2)
      (exchange_failed { s with receive_buffer := flip_bit s.receive_buffer j k } slave) t ht⟩

/-- Witness of C13: bit 0 of byte 12 of the data reply of slave 17 is flipped. -/
theorem crc_corruption_witness :
    (example_engine [empty_packet] example_poll_frame example_data_reply false false).current_slave
        = some ⟨17, 0, [empty_packet]⟩ ∧
      (∀ i, i ≤ (example_engine [empty_packet] example_poll_frame example_data_reply
            false false).receive_buffer 7 + 4 →
        (example_engine [empty_packet] example_poll_frame example_data_reply
            false false).receive_buffer i < 256) ∧
      verify_buffer 1 2
          { example_engine [empty_packet] example_poll_frame example_data_reply false false with
            receive_buffer := flip_bit (example_engine [empty_packet] example_poll_frame
              example_data_reply false false).receive_buffer 12 0 }
        = master_poll_slave 2
          (exchange_failed
            { example_engine [empty_packet] example_poll_frame example_data_reply false false with
              receive_buffer := flip_bit (example_engine [empty_packet] example_poll_frame
                example_data_reply false false).receive_buffer 12 0 }
            ⟨17, 0, [empty_packet]⟩) :=
  ⟨by decide, by decide,
    (crc_corruption 0 2
      (example_engine [empty_packet] example_poll_frame example_data_reply false false)
      ⟨17, 0, [empty_packet]⟩ 12 0 (by decide) rfl (by decide) (by decide) (by decide)
      (by decide) (by decide) (by decide) (by decide) (by decide)).1⟩

/-- A flipped bit in the length byte is outside the statement of C13: when the
flip raises the length beyond the bytes received, the parser waits for the rest
of the longer frame and rejects nothing. -/
theorem length_flip_waits (depth fuel : Nat) (s : Engine) (k : Nat)
    (h : s.current_receive_buffer_index ≤ (s.receive_buffer 7 ^^^ 2 ^ k) + 4) :
    verify_buffer (depth + 1) fuel { s with receive_buffer := flip_bit s.receive_buffer 7 k }
      = some { s with receive_buffer := flip_bit s.receive_buffer 7 k } :=
  verify_buffer_incomplete depth fuel { s with receive_buffer := flip_bit s.receive_buffer 7 k }
    (by simpa [flip_bit] using h)

/-! ## Claims on dispatch from the host, the deadline and the write -/

/-- C20, dispatch-in broadcast: for a request whose UID is 0 or whose recipient
is absent, `red_rs485_extension_dispatch_to_rs485` appends one entry to the tail
of the queue of every slave and changes nothing else; the entry has
`tries_left = 10` and its first `header.length` bytes are those of the request.
This is so for every request of at most 80 bytes, the size of a `Packet`; with a
longer one the copy writes past the queued item as soon as there is a slave. -/
theorem dispatch_broadcast (request : List Nat) (recipient : Option Int) (s : Engine)
    (h : header_uid request = 0 ∨ recipient = none) :
    red_rs485_extension_dispatch_to_rs485 request recipient s =
        (if header_length request ≤ TF_PACKET_MAX_LENGTH ∨ s.slaves = [] then
          some { s with slaves := s.slaves.map fun slave =>
            { slave with packet_queue := slave.packet_queue ++ [queued_request request] } }
        else none) ∧
      (queued_request request).tries_left = 10 ∧
      (header_length request ≤ TF_PACKET_MAX_LENGTH →
        (∀ k, k < header_length request →
          (queued_request request).packet.getD k 0 = request.getD k 0) ∧
        ∃ t, red_rs485_extension_dispatch_to_rs485 request recipient s = some t ∧
          t = { s with slaves := t.slaves } ∧
          t.slaves.length = s.slaves.length ∧
          (∀ (i : Nat) (slave : RS485Slave), s.slaves[i]? = some slave →
            t.slaves[i]? =
              some { slave with
                packet_queue := slave.packet_queue ++ [queued_request request] }) ∧
          t.master_current_slave_to_process = s.master_current_slave_to_process) := by
  refine ⟨dispatch_to_all request recipient s h, rfl, ?_⟩
  intro hlen
  refine ⟨?_, { s with slaves := s.slaves.map fun slave =>
    { slave with packet_queue := slave.packet_queue ++ [queued_request request] } },
    ?_, rfl, ?_, ?_, rfl⟩
  · intro k hk
    simp only [queued_request]
    rw [copied_packet_getD _ _ _ hlen, if_pos hk]
  · rw [dispatch_to_all request recipient s h, if_pos (Or.inl hlen)]
  · simp
  · intro i slave hi
    simp only [List.getElem?_map, hi, Option.map_some']

/-- Witness of C20: a request of 12 bytes without recipient, two slaves. -/
theorem dispatch_broadcast_witness :
    header_length example_request.packet ≤ TF_PACKET_MAX_LENGTH ∧
      ∃ t, red_rs485_extension_dispatch_to_rs485 example_request.packet none
          (example_engine [empty_packet] [] [] false false) = some t ∧
        t.slaves.length = 2 ∧
        t.slaves[1]? =
          some { address := 5, sequence := 7,
                 packet_queue := [] ++ [queued_request example_request.packet] } :=
  ⟨by decide,
    match (dispatch_broadcast example_request.packet none
      (example_engine [empty_packet] [] [] false false) (Or.inr rfl)).2.2 (by decide) with
    | ⟨_, t, ht, _, hlength, hslaves, _⟩ => ⟨t, ht, hlength, hslaves 1 ⟨5, 7, []⟩ rfl⟩⟩

/-- Without wrap-around of the 64-bit counters, the elapsed time is
`(now - enabled_at) * 1000`. -/
theorem time_passed_eq (s : Engine) (h0 : s.microseconds < 2 ^ 64)
    (h1 : s.last_timer_enable_at_uS ≤ s.microseconds)
    (h2 : (s.microseconds - s.last_timer_enable_at_uS) * 1000 < 2 ^ 64) :
    time_passed_from_last_timer_enable s
      = (s.microseconds - s.last_timer_enable_at_uS) * 1000 := by
  unfold time_passed_from_last_timer_enable
  have h3 : s.microseconds - s.last_timer_enable_at_uS < 2 ^ 64 := by omega
  have h4 : s.last_timer_enable_at_uS < 2 ^ 64 := by omega
  rw [Nat.mod_eq_of_lt h4]
  have e : s.microseconds + 2 ^ 64 - s.last_timer_enable_at_uS
      = (s.microseconds - s.last_timer_enable_at_uS) + 2 ^ 64 := by omega
  rw [e, Nat.add_mod_right, Nat.mod_eq_of_lt h3, Nat.mod_eq_of_lt h2]
/-- C16, early deadline: when `master_timeout_handler` runs with an elapsed time
below `TIMEOUT`, it re-arms the timer for `TIMEOUT` minus the elapsed time,
notes the time of the re-arm and returns, so that slaves (sequences, queues,
`tries_left`), index of the current slave, receive buffer, cursor, snapshot and
both flags are unchanged; otherwise it runs the steps of `seq_pop_poll`. Without
wrap-around the elapsed time is `(now - enabled_at) * 1000`. -/
theorem early_deadline (fuel : Nat) (s : Engine) :
    (time_passed_from_last_timer_enable s < s.TIMEOUT →
      master_timeout_handler fuel s = some { s with
        master_timer_value_nsec := s.TIMEOUT - time_passed_from_last_timer_enable s
        last_timer_enable_at_uS := s.microseconds } ∧
      ∃ t, master_timeout_handler fuel s = some t ∧
        t.master_timer_value_nsec = s.TIMEOUT - time_passed_from_last_timer_enable s ∧
        t.slaves = s.slaves ∧
        t.master_current_slave_to_process = s.master_current_slave_to_process ∧
        t.receive_buffer = s.receive_buffer ∧
        t.current_receive_buffer_index = s.current_receive_buffer_index ∧
        t.current_request_as_byte_array = s.current_request_as_byte_array ∧
        t.send_verify_flag = s.send_verify_flag ∧
        t.sent_ack_of_data_packet = s.sent_ack_of_data_packet ∧
        t.written = s.written ∧ t.dispatched = s.dispatched) ∧
      (s.TIMEOUT ≤ time_passed_from_last_timer_enable s →
        master_timeout_handler fuel s = seq_pop_poll fuel (disable_master_timer s)) ∧
      (s.microseconds < 2 ^ 64 → s.last_timer_enable_at_uS ≤ s.microseconds →
        (s.microseconds - s.last_timer_enable_at_uS) * 1000 < 2 ^ 64 →
        time_passed_from_last_timer_enable s
          = (s.microseconds - s.last_timer_enable_at_uS) * 1000) := by
  have e : time_passed_from_last_timer_enable (disable_master_timer s)
      = time_passed_from_last_timer_enable s := rfl
  have early : time_passed_from_last_timer_enable s < s.TIMEOUT →
      master_timeout_handler fuel s = some { s with
        master_timer_value_nsec := s.TIMEOUT - time_passed_from_last_timer_enable s
        last_timer_enable_at_uS := s.microseconds } := by
    intro h
    unfold master_timeout_handler
    simp only [e]
    rw [if_pos (by simp only [disable_master_timer]; exact h)]
    rfl
  refine ⟨fun h => ⟨early h, _, early h, rfl, rfl, rfl, rfl, rfl, rfl, rfl, rfl, rfl, rfl⟩,
    ?_, time_passed_eq s⟩
  intro h
  unfold master_timeout_handler
  simp only [e]
  rw [if_neg (by simp only [disable_master_timer]; omega)]
  rfl

/-- Witness of C16: the handler runs 5000 µs after a frame was sent with a
timeout of 19,944,444 ns. -/
theorem early_deadline_witness :
    time_passed_from_last_timer_enable (example_silent_engine 5000) = 5000000 ∧
      (example_silent_engine 5000).TIMEOUT = 19944444 ∧
      ∃ t, master_timeout_handler 2 (example_silent_engine 5000) = some t ∧
        t.master_timer_value_nsec = 19944444 - 5000000 ∧
        t.slaves = (example_silent_engine 5000).slaves :=
  ⟨by decide, rfl,
    match ((early_deadline 2 (example_silent_engine 5000)).1 (by decide)).2 with
    | ⟨t, h, htimer, hslaves, _⟩ => ⟨t, h, htimer, hslaves⟩⟩

/-- C19 as amended, write failure: if the single `write` of the frame reports an
error or zero bytes, `send_packet` calls the scheduler at once on a state in
which only the log of writes has grown: snapshot, `send_verify_flag`, timer and
slaves (so the head packet, its `tries_left` and the sequence) are as before.
Every positive result, also one below the frame length, counts as a complete
write: the snapshot is saved, the flag set and the timer armed. -/
theorem write_failure (fuel : Nat) (s : Engine) (slave : RS485Slave)
    (p : RS485ExtensionPacket) (rest : List RS485ExtensionPacket)
    (hs : s.current_slave = some slave) (hq : slave.packet_queue = p :: rest)
    (hlen : header_length p.packet ≤ TF_PACKET_MAX_LENGTH) :
    (s.write_result s.written.length ≤ 0 →
      send_packet (fuel + 1) s
        = master_poll_slave fuel { s with written := s.written ++ [rs485_packet slave p] } ∧
      (∀ t, send_packet (fuel + 1) s = some t →
        t.slaves.map (fun x => (x.address, x.sequence))
          = s.slaves.map (fun x => (x.address, x.sequence))) ∧
      (0 < s.write_result (s.written.length + 1) → queues_fit s →
        ∃ t, send_packet (fuel + 3) s = some t ∧
          t.master_current_slave_to_process
            = (s.master_current_slave_to_process + 1) % (s.slave_num : Int))) ∧
      (0 < s.write_result s.written.length →
        send_packet (fuel + 1) s = some (sent_state s slave p)) := by
  have fail : ∀ f, s.write_result s.written.length ≤ 0 →
      send_packet (f + 1) s
        = master_poll_slave f { s with written := s.written ++ [rs485_packet slave p] } := by
    intro f hw
    rw [send_packet_succ, hs]
    simp only [hq, queue_peek, List.head?_cons]
    rw [if_neg (by omega), if_pos hw]
  refine ⟨fun hw => ⟨fail fuel hw, ?_, ?_⟩, fun hw => send_packet_ok fuel s slave p rest hs hq hlen hw⟩
  · intro t ht
    rw [fail fuel hw] at ht
    exact master_poll_slave_sequences fuel
      { s with written := s.written ++ [rs485_packet slave p] } t ht
  · intro hnext hfit
    obtain ⟨hS, hlo, hhi⟩ := current_slave_range s slave hs
    rw [fail (fuel + 2) hw]
    exact master_poll_slave_returns fuel
      { s with written := s.written ++ [rs485_packet slave p] } hS hlo hhi
      (by simpa using hnext) hfit

/-- Witness of C19 as amended: the `write` of the poll of slave 17 fails with -1. -/
theorem write_failure_witness :
    example_failed_write_engine.current_slave = some ⟨17, 0, [empty_packet]⟩ ∧
      example_failed_write_engine.write_result example_failed_write_engine.written.length = -1 ∧
      send_packet 3 example_failed_write_engine
        = master_poll_slave 2 { example_failed_write_engine with
            written := example_failed_write_engine.written
              ++ [rs485_packet ⟨17, 0, [empty_packet]⟩ empty_packet] } :=
  ⟨by decide, by decide,
    ((write_failure 2 example_failed_write_engine ⟨17, 0, [empty_packet]⟩ empty_packet []
      (by decide) rfl (by decide)).1 (by decide)).1⟩

/-- Counterexample to C19: the `write` of the 13-byte poll of slave 17 reports 5
bytes, fewer than the frame length, and `send_packet` does not call the
scheduler: it saves the snapshot, sets `send_verify_flag`, arms the timer and
stays at slave 17. -/
theorem short_write_counterexample :
    example_short_write_engine.current_slave = some ⟨17, 0, [empty_packet]⟩ ∧
      0 < example_short_write_engine.write_result example_short_write_engine.written.length ∧
      example_short_write_engine.write_result example_short_write_engine.written.length
        < ((rs485_packet ⟨17, 0, [empty_packet]⟩ empty_packet).length : Int) ∧
      send_packet 3 example_short_write_engine
        ≠ master_poll_slave 2 { example_short_write_engine with
            written := example_short_write_engine.written
              ++ [rs485_packet ⟨17, 0, [empty_packet]⟩ empty_packet] } ∧
      ∃ t, send_packet 3 example_short_write_engine = some t ∧
        example_short_write_engine.send_verify_flag = false ∧ t.send_verify_flag = true ∧
        example_short_write_engine.master_timer_value_nsec = 19944444 ∧
        t.master_timer_value_nsec = 19944444 ∧
        example_short_write_engine.current_request_as_byte_array 0 = 0 ∧
        t.current_request_as_byte_array 0 = 17 ∧
        t.master_current_slave_to_process = 0 := by
  have hsend : send_packet 3 example_short_write_engine
      = some (sent_state example_short_write_engine ⟨17, 0, [empty_packet]⟩ empty_packet) :=
    send_packet_ok 2 example_short_write_engine ⟨17, 0, [empty_packet]⟩ empty_packet []
      (by decide) rfl (by decide) (by decide)
  refine ⟨by decide, by decide, by decide, ?_, _, hsend, rfl, rfl, rfl, rfl, by decide,
    by decide, rfl⟩
  intro h
  rw [hsend] at h
  obtain ⟨t, ht, hidx⟩ := master_poll_slave_returns 0
    { example_short_write_engine with
      written := example_short_write_engine.written
        ++ [rs485_packet ⟨17, 0, [empty_packet]⟩ empty_packet] }
    (by decide) (by decide) (by decide) (by decide) (by unfold queues_fit; decide)
  rw [ht] at h
  have h2 := congrArg (fun (r : Option Engine) => r.map fun e => e.master_current_slave_to_process) h
  simp only [Option.map_some'] at h2
  rw [hidx] at h2
  revert h2
  decide

/-! ## The overflow guard, the re-armed deadline and the timeout value -/

/-- C17 on the code: a poll is sent at 0 µs with a timeout of 19,944,444 ns and
the slave stays silent. The handler runs early at 5,000 µs and re-arms the
timer for the remaining 14,944,444 ns, noting 5,000 µs as the time of the
re-arm. Its next run, at 19,945 µs and so more than the timeout after the
transmission, measures the time since the re-arm, 14,945,000 ns, and re-arms
for another 4,999,444 ns: no timeout, sequences and queues stay. -/
theorem deadline_rearm_divergence :
    ∃ t1 t2, master_timeout_handler 2 (example_silent_engine 5000) = some t1 ∧
      t1.master_timer_value_nsec = 14944444 ∧ t1.last_timer_enable_at_uS = 5000 ∧
      (example_silent_engine 5000).TIMEOUT ≤
        (19945 - (example_silent_engine 5000).last_timer_enable_at_uS) * 1000 ∧
      master_timeout_handler 2 { t1 with microseconds := 19945 } = some t2 ∧
      t2.master_timer_value_nsec = 4999444 ∧ t2.last_timer_enable_at_uS = 19945 ∧
      t2.slaves = (example_silent_engine 5000).slaves ∧
      t2.master_current_slave_to_process = 0 ∧ t2.send_verify_flag = true ∧
      t2.written = [] := by
  refine ⟨{ example_silent_engine 5000 with
      master_timer_value_nsec := 14944444
      last_timer_enable_at_uS := 5000 },
    { example_silent_engine 5000 with
      master_timer_value_nsec := 4999444
      last_timer_enable_at_uS := 19945
      microseconds := 19945 }, ?_, rfl, rfl, by decide, ?_, rfl, rfl, rfl, rfl, rfl, rfl⟩
  · unfold master_timeout_handler
    rw [if_pos (by decide)]
    rfl
  · unfold master_timeout_handler
    rw [if_pos (by decide)]
    rfl

/-- With a true timeout the run at 19,945 µs ends the exchange: had the time of
the transmission been kept, the same run would take the steps of `seq_pop_poll`. -/
theorem deadline_kept_base :
    master_timeout_handler 2 (example_silent_engine 19945)
      = seq_pop_poll 2 (disable_master_timer (example_silent_engine 19945)) := by
  unfold master_timeout_handler
  rw [if_neg (by decide)]
  rfl

theorem floor_timeout (q : Nat) :
    Nat.floor ((((TIMEOUT_BYTES : ℚ) / (q : ℚ)) * 1000000000) * 2 + 8000000)
      = 172000000000 / q + 8000000 := by
  have e : (((TIMEOUT_BYTES : ℚ) / (q : ℚ)) * 1000000000) * 2 + 8000000
      = ((172000000000 : Nat) : ℚ) / (q : ℚ) + ((8000000 : Nat) : ℚ) := by
    simp only [TIMEOUT_BYTES]
    push_cast
    ring
  rw [e, Nat.floor_add_nat (by positivity), Nat.floor_div_eq_div]

theorem claimed_timeout_eq (B : Nat) : claimed_timeout B = 1376000000000 / B + 8000000 := by
  have e : (86 * 8 / (B : ℚ)) * 2 * 10 ^ 9 + 8 * 10 ^ 6
      = ((1376000000000 : Nat) : ℚ) / (B : ℚ) + ((8000000 : Nat) : ℚ) := by
    push_cast
    ring
  unfold claimed_timeout
  rw [e, Nat.floor_add_nat (by positivity), Nat.floor_div_eq_div]

theorem TIMEOUT_of_baudrate_eq (width baudrate : Nat) :
    TIMEOUT_of_baudrate width baudrate =
      if 172000000000 / (baudrate / 8) + 8000000 < 2 ^ width then
        some (172000000000 / (baudrate / 8) + 8000000)
      else none := by
  unfold TIMEOUT_of_baudrate
  rw [floor_timeout]

/-- C18 as amended, timeout derivation: for a baud rate `B ≥ 8` whose timeout
fits the `unsigned long`, the value computed by `red_rs485_extension_init` is
`(86 / ⌊B / 8⌋) * 2 * 10^9 + 8 * 10^6` in exact arithmetic, truncated, which is
`⌊172 * 10^9 / ⌊B / 8⌋⌋ + 8 * 10^6`. It is the value `(86 * 8 / B) * 2 * 10^9 +
8 * 10^6`, truncated, when `B` is a multiple of 8, and never below it. The
value fits 32 bits from `B = 328` on and always fits 64 bits. -/
theorem timeout_derivation (width B : Nat) (hB : 8 ≤ B)
    (hfit : 172000000000 / (B / 8) + 8000000 < 2 ^ width) :
    TIMEOUT_of_baudrate width B
        = some (Nat.floor ((86 : ℚ) / ((B / 8 : Nat) : ℚ) * 2 * 10 ^ 9 + 8 * 10 ^ 6)) ∧
      TIMEOUT_of_baudrate width B = some (172000000000 / (B / 8) + 8000000) ∧
      (8 ∣ B → TIMEOUT_of_baudrate width B = some (claimed_timeout B)) ∧
      claimed_timeout B ≤ 172000000000 / (B / 8) + 8000000 ∧
      (328 ≤ B → 172000000000 / (B / 8) + 8000000 < 2 ^ 32) ∧
      172000000000 / (B / 8) + 8000000 < 2 ^ 64 := by
  have hval : TIMEOUT_of_baudrate width B = some (172000000000 / (B / 8) + 8000000) := by
    rw [TIMEOUT_of_baudrate_eq, if_pos hfit]
  have hq : 1 ≤ B / 8 := by omega
  have e : (86 : ℚ) / ((B / 8 : Nat) : ℚ) * 2 * 10 ^ 9 + 8 * 10 ^ 6
      = ((172000000000 : Nat) : ℚ) / ((B / 8 : Nat) : ℚ) + ((8000000 : Nat) : ℚ) := by
    push_cast
    ring
  refine ⟨?_, hval, ?_, ?_, ?_, ?_⟩
  · rw [hval, e, Nat.floor_add_nat (by positivity), Nat.floor_div_eq_div]
  · rintro ⟨q, rfl⟩
    rw [hval, claimed_timeout_eq, Nat.mul_div_cancel_left q (by decide : 0 < 8)]
    have e2 : 1376000000000 / (8 * q) = 172000000000 / q := by
      rw [← Nat.div_div_eq_div_mul]
    rw [e2]
  · rw [claimed_timeout_eq]
    have h1 : 1376000000000 / B ≤ 1376000000000 / (8 * (B / 8)) :=
      Nat.div_le_div_left (by omega) (by omega)
    rw [← Nat.div_div_eq_div_mul] at h1
    have e3 : 1376000000000 / 8 = 172000000000 := by decide
    rw [e3] at h1
    omega
  · intro h328
    have h41 : 41 ≤ B / 8 := by omega
    have h5 : 172000000000 / (B / 8) ≤ 172000000000 / 41 :=
      Nat.div_le_div_left h41 (by decide)
    have e4 : 172000000000 / 41 = 4195121951 := by decide
    rw [e4] at h5
    norm_num
    omega
  · have := Nat.div_le_self 172000000000 (B / 8)
    norm_num
    omega

/-- Witness of C18 as amended: 115200 baud gives 19,944,444 ns. -/
theorem timeout_derivation_witness :
    TIMEOUT_of_baudrate 32 115200 = some 19944444 :=
  (timeout_derivation 32 115200 (by decide) (by decide)).2.1

/-- Counterexample to C18: 31250 baud is accepted and gives 52,034,818 ns, the
formula of the claim gives 52,032,000 ns. -/
theorem timeout_counterexample :
    8 ≤ 31250 ∧ TIMEOUT_of_baudrate 32 31250 = some 52034818 ∧
      claimed_timeout 31250 = 52032000 ∧
      TIMEOUT_of_baudrate 32 31250 ≠ some (claimed_timeout 31250) := by
  have h1 : TIMEOUT_of_baudrate 32 31250 = some 52034818 := by
    rw [TIMEOUT_of_baudrate_eq]
    decide
  have h2 : claimed_timeout 31250 = 52032000 := by
    rw [claimed_timeout_eq]
  refine ⟨by decide, h1, h2, ?_⟩
  rw [h1, h2]
  decide

/-! ## The receive cursor stays small -/

/-- No slave has the address of the recipient: the loop changes nothing. -/
theorem push_to_recipient_none (request : List Nat) (tag : Int) (l : List RS485Slave)
    (h : ∀ slave ∈ l, (slave.address : Int) ≠ tag) :
    push_to_recipient request tag l = some l := by
  induction l with
  | nil => rfl
  | cons a rest ih =>
    rw [push_to_recipient, if_neg (h a (List.mem_cons_self a rest)),
      ih (fun slave hm => h slave (List.mem_cons_of_mem a hm))]
    rfl

/-- The first slave that has the address of the recipient gets the request,
when the request has at most 80 bytes; else the copy writes past the item. -/
theorem push_to_recipient_first (request : List Nat) (tag : Int) :
    ∀ (l : List RS485Slave) (i : Nat) (slave : RS485Slave), l[i]? = some slave →
      (slave.address : Int) = tag →
      (∀ (j : Nat) (other : RS485Slave), j < i → l[j]? = some other →
        (other.address : Int) ≠ tag) →
      push_to_recipient request tag l =
        if header_length request ≤ TF_PACKET_MAX_LENGTH then
          some (l.set i
            { slave with packet_queue := slave.packet_queue ++ [queued_request request] })
        else none := by
  intro l
  induction l with
  | nil =>
    intro i slave hi
    simp at hi
  | cons a rest ih =>
    intro i slave hi haddr hfirst
    cases i with
    | zero =>
      simp only [List.getElem?_cons_zero, Option.some.injEq] at hi
      subst hi
      rw [push_to_recipient, if_pos haddr]
      by_cases hlen : header_length request ≤ TF_PACKET_MAX_LENGTH
      · rw [if_pos hlen, push_request_fits request a hlen]
        rfl
      · rw [if_neg hlen, push_request_overrun request a (Nat.lt_of_not_le hlen)]
        rfl
    | succ k =>
      simp only [List.getElem?_cons_succ] at hi
      rw [push_to_recipient, if_neg (hfirst 0 a (Nat.succ_pos k) (by simp)),
        ih k slave hi haddr (fun j other hj hjo => hfirst (j + 1) other (Nat.succ_lt_succ hj)
          (by simpa using hjo))]
      by_cases hlen : header_length request ≤ TF_PACKET_MAX_LENGTH
      · rw [if_pos hlen, if_pos hlen, List.set_cons_succ]
        rfl
      · rw [if_neg hlen, if_neg hlen]
        rfl

/-- C21, dispatch-in routing: for a request with non-zero UID and a recipient,
`red_rs485_extension_dispatch_to_rs485` appends one entry, with `tries_left = 10`
and the first `header.length` bytes of the request, to the queue of the first
slave whose address equals `recipient->opaque` (the slave with that address,
when addresses are distinct) and leaves every other slave and every other
field of the state as they are; when no slave has that address the state is
unchanged. This is so for every request of at most 80 bytes, the size of a
`Packet`; with a longer one the copy for the slave found writes past the queued
item. -/
theorem dispatch_routing (request : List Nat) (tag : Int) (s : Engine)
    (huid : header_uid request ≠ 0) :
    (∀ (i : Nat) (slave : RS485Slave), s.slaves[i]? = some slave →
        (slave.address : Int) = tag →
        (∀ (j : Nat) (other : RS485Slave), j < i → s.slaves[j]? = some other →
          (other.address : Int) ≠ tag) →
        red_rs485_extension_dispatch_to_rs485 request (some tag) s =
            (if header_length request ≤ TF_PACKET_MAX_LENGTH then
              some { s with slaves := s.slaves.set i ⟨slave.address, slave.sequence,
                slave.packet_queue ++ [queued_request request]⟩ }
            else none) ∧
          (header_length request ≤ TF_PACKET_MAX_LENGTH →
            ∃ t, red_rs485_extension_dispatch_to_rs485 request (some tag) s = some t ∧
              t = { s with slaves := t.slaves } ∧
              t.slaves[i]? =
                some { slave with
                  packet_queue := slave.packet_queue ++ [queued_request request] } ∧
              (∀ (j : Nat), j ≠ i → t.slaves[j]? = s.slaves[j]?))) ∧
      ((∀ slave ∈ s.slaves, (slave.address : Int) ≠ tag) →
        red_rs485_extension_dispatch_to_rs485 request (some tag) s = some s) ∧
      (queued_request request).tries_left = 10 ∧
      (header_length request ≤ TF_PACKET_MAX_LENGTH →
        ∀ k, k < header_length request →
          (queued_request request).packet.getD k 0 = request.getD k 0) := by
  have key : red_rs485_extension_dispatch_to_rs485 request (some tag) s
      = (push_to_recipient request tag s.slaves).map fun slaves =>
          { s with slaves := slaves } := by
    unfold red_rs485_extension_dispatch_to_rs485
    simp only [huid, if_false]
  refine ⟨?_, ?_, rfl, ?_⟩
  · intro i slave hi haddr hfirst
    have hlt : i < s.slaves.length := by
      rcases Nat.lt_or_ge i s.slaves.length with h | h
      · exact h
      · rw [List.getElem?_eq_none h] at hi
        cases hi
    have hmain : red_rs485_extension_dispatch_to_rs485 request (some tag) s =
        (if header_length request ≤ TF_PACKET_MAX_LENGTH then
          some { s with slaves := s.slaves.set i ⟨slave.address, slave.sequence,
            slave.packet_queue ++ [queued_request request]⟩ }
        else none) := by
      rw [key, push_to_recipient_first request tag s.slaves i slave hi haddr hfirst]
      by_cases hlen : header_length request ≤ TF_PACKET_MAX_LENGTH
      · rw [if_pos hlen, if_pos hlen]
        rfl
      · rw [if_neg hlen, if_neg hlen]
        rfl
    refine ⟨hmain, ?_⟩
    intro hlen
    refine ⟨{ s with slaves := s.slaves.set i ⟨slave.address, slave.sequence,
      slave.packet_queue ++ [queued_request request]⟩ }, ?_, rfl, ?_, ?_⟩
    · rw [hmain, if_pos hlen]
    · show (s.slaves.set i _)[i]? = _
      rw [List.getElem?_set_self hlt]
    · intro j hj
      show (s.slaves.set i _)[j]? = _
      rw [List.getElem?_set_ne (Ne.symm hj)]
  · intro hnone
    rw [key, push_to_recipient_none request tag s.slaves hnone]
    rfl
  · intro hlen k hk
    simp only [queued_request]
    rw [copied_packet_getD _ _ _ hlen, if_pos hk]

/-- Witness of C21: a request with UID `0x01020304` for the slave with address 5. -/
theorem dispatch_routing_witness :
    header_uid example_request.packet ≠ 0 ∧
      header_length example_request.packet ≤ TF_PACKET_MAX_LENGTH ∧
      ∃ t, red_rs485_extension_dispatch_to_rs485 example_request.packet (some 5)
          (example_engine [empty_packet] [] [] false false) = some t ∧
        t.slaves[1]? =
          some { address := 5, sequence := 7,
                 packet_queue := [] ++ [queued_request example_request.packet] } ∧
        t.slaves[0]? = some ⟨17, 0, [empty_packet]⟩ :=
  ⟨by decide, by decide,
    match ((dispatch_routing example_request.packet 5
      (example_engine [empty_packet] [] [] false false) (by decide)).1 1 ⟨5, 7, []⟩ rfl rfl
      (by intro j other hj hjo
          have h0 : j = 0 := by omega
          subst h0
          cases hjo
          decide)).2 (by decide) with
    | ⟨t, ht, _, h1, hother⟩ => ⟨t, ht, h1, (hother 0 (by decide)).trans rfl⟩⟩

theorem rs485_packet_getD_body (slave : RS485Slave) (p : RS485ExtensionPacket) (k : Nat)
    (hk : k < header_length p.packet) :
    (rs485_packet slave p).getD (3 + k) 0 = p.packet.getD k 0 := by
  rw [rs485_packet_eq, List.append_assoc, List.cons_append, List.cons_append, List.cons_append,
    List.nil_append]
  have e : 3 + k = k + 1 + 1 + 1 := by omega
  rw [e, List.getD_cons_succ, List.getD_cons_succ, List.getD_cons_succ,
    List.getD_append _ _ _ _ (by simpa using hk)]
  simp [List.getD_eq_getElem?_getD, List.getElem?_map, List.getElem?_range hk]

/-- C26, send-path postcondition: after a successful `write` of the head packet
of length `L ≤ 80` for the current slave, the first `L + 5` bytes of
`current_request_as_byte_array` are the frame written, whose bytes 0, 1, 2 are
the address of the slave, the function code 100 and the sequence of the slave
and whose bytes `3 .. L + 2` are the `L` bytes of the packet; `send_verify_flag`
is set, the timer is armed with `TIMEOUT`, the time is noted, and slaves (queues
and sequences) and the index of the current slave are unchanged. -/
theorem send_path_postcondition (fuel : Nat) (s : Engine) (slave : RS485Slave)
    (p : RS485ExtensionPacket) (rest : List RS485ExtensionPacket)
    (hs : s.current_slave = some slave) (hq : slave.packet_queue = p :: rest)
    (hlen : header_length p.packet ≤ TF_PACKET_MAX_LENGTH)
    (hw : 0 < s.write_result s.written.length) :
    ∃ t, send_packet (fuel + 1) s = some t ∧
      t.written = s.written ++ [rs485_packet slave p] ∧
      (rs485_packet slave p).length = header_length p.packet + 5 ∧
      (∀ i, i < header_length p.packet + 5 →
        t.current_request_as_byte_array i = (rs485_packet slave p).getD i 0) ∧
      (rs485_packet slave p).getD 0 0 = slave.address ∧
      (rs485_packet slave p).getD 1 0 = 100 ∧
      (rs485_packet slave p).getD 2 0 = slave.sequence ∧
      (∀ k, k < header_length p.packet →
        (rs485_packet slave p).getD (3 + k) 0 = p.packet.getD k 0) ∧
      t.send_verify_flag = true ∧
      t.master_timer_value_nsec = s.TIMEOUT ∧
      t.last_timer_enable_at_uS = s.microseconds ∧
      t.slaves = s.slaves ∧
      t.master_current_slave_to_process = s.master_current_slave_to_process := by
  refine ⟨sent_state s slave p, send_packet_ok fuel s slave p rest hs hq hlen hw, rfl,
    rs485_packet_length slave p, ?_, ?_, ?_, ?_, rs485_packet_getD_body slave p,
    rfl, rfl, rfl, rfl, rfl⟩
  · intro i hi
    simp only [sent_state]
    rw [if_pos (by rw [rs485_packet_length]; exact hi)]
  · rw [rs485_packet_eq]; rfl
  · rw [rs485_packet_eq]; rfl
  · rw [rs485_packet_eq]; rfl

/-- Witness of C26: the request of 12 bytes is sent to slave 17. -/
theorem send_path_postcondition_witness :
    (example_engine [example_request] [] [] false false).current_slave
        = some ⟨17, 0, [example_request]⟩ ∧
      ∃ t, send_packet 1 (example_engine [example_request] [] [] false false) = some t ∧
        t.written = [rs485_packet ⟨17, 0, [example_request]⟩ example_request] ∧
        t.send_verify_flag = true ∧ t.master_timer_value_nsec = 19944444 :=
  ⟨by decide,
    match send_path_postcondition 0 (example_engine [example_request] [] [] false false)
      ⟨17, 0, [example_request]⟩ example_request [] (by decide) rfl (by decide) (by decide) with
    | ⟨t, h, hw, _, _, _, _, _, _, hf, ht, _⟩ => ⟨t, h, hw, hf, ht⟩⟩

/-- C28, partial frames wait: with `current_receive_buffer_index < 8`, or with
`current_receive_buffer_index ≤ packet_end_index` where `packet_end_index` is
`7 + ((receive_buffer[7] - 5) + 2) = receive_buffer[7] + 4`, `verify_buffer`
returns the state it was given: buffer, cursor, flags, saved request, timer,
slaves and index of the current slave are unchanged. -/
theorem incomplete_frames_wait (depth fuel : Nat) (s : Engine)
    (h : s.current_receive_buffer_index < 8 ∨
      s.current_receive_buffer_index ≤ packet_end_index (s.receive_buffer 7)) :
    verify_buffer (depth + 1) fuel s = some s ∧
      packet_end_index (s.receive_buffer 7) = s.receive_buffer 7 + 4 := by
  refine ⟨?_, packet_end_index_eq _⟩
  rcases h with h | h
  · exact verify_buffer_short depth fuel s h
  · rw [packet_end_index_eq] at h
    exact verify_buffer_incomplete depth fuel s h

/-- Witness of C28: the first 9 of the 13 bytes of a frame of length 8 are there. -/
theorem incomplete_frames_wait_witness :
    (example_engine [empty_packet] example_poll_frame (example_poll_frame.take 9)
        true false).current_receive_buffer_index = 9 ∧
      packet_end_index ((example_engine [empty_packet] example_poll_frame
        (example_poll_frame.take 9) true false).receive_buffer 7) = 12 ∧
      verify_buffer 1 0
          (example_engine [empty_packet] example_poll_frame (example_poll_frame.take 9)
            true false)
        = some (example_engine [empty_packet] example_poll_frame (example_poll_frame.take 9)
            true false) :=
  ⟨by decide, by decide,
    (incomplete_frames_wait 0 0
      (example_engine [empty_packet] example_poll_frame (example_poll_frame.take 9) true false)
      (Or.inr (by decide))).1⟩

/-- The loop reads only indices of its range. -/
theorem send_verify_reads_range (b a : Nat → Nat) :
    ∀ (n i idx : Nat), idx ∈ send_verify_reads b a n i → i ≤ idx ∧ idx < i + n := by
  intro n
  induction n with
  | zero =>
    intro i idx h
    simp [send_verify_reads] at h
  | succ n ih =>
    intro i idx h
    rw [send_verify_reads] at h
    split at h
    · simp only [List.mem_singleton] at h
      omega
    · rcases List.mem_cons.1 h with h | h
      · omega
      · have := ih (i + 1) idx h
        omega

/-- The loop reads nothing behind a difference. -/
theorem send_verify_reads_stop (b a : Nat → Nat) (m : Nat) (hm : b m ≠ a m) :
    ∀ (n i idx : Nat), i ≤ m → idx ∈ send_verify_reads b a n i → idx ≤ m := by
  intro n
  induction n with
  | zero =>
    intro i idx _ h
    simp [send_verify_reads] at h
  | succ n ih =>
    intro i idx him h
    rw [send_verify_reads] at h
    split at h
    · simp only [List.mem_singleton] at h
      omega
    · rename_i heq
      have hne : i ≠ m := by
        intro e
        subst e
        exact heq hm
      rcases List.mem_cons.1 h with h | h
      · omega
      · exact ih (i + 1) idx (by omega) h

/-- The loop of the model is undefined only when it reads at an index outside
`current_request_as_byte_array`. -/
theorem send_verify_loop_defined (b a : Nat → Nat) :
    ∀ (n i : Nat), (∀ idx ∈ send_verify_reads b a n i, idx < CURRENT_REQUEST_SIZE) →
      send_verify_loop b a n i ≠ none := by
  intro n
  induction n with
  | zero =>
    intro i _
    simp [send_verify_loop]
  | succ n ih =>
    intro i h
    rw [send_verify_loop]
    rw [send_verify_reads] at h
    by_cases hne : b i ≠ a i
    · rw [if_pos hne] at h
      rw [if_neg (Nat.not_le.2 (h i (List.mem_singleton_self i))), if_pos hne]
      simp
    · rw [if_neg hne] at h
      rw [if_neg (Nat.not_le.2 (h i (List.mem_cons_self i _))), if_neg hne]
      exact ih (i + 1) (fun idx hidx => h idx (List.mem_cons_of_mem i hidx))

/-- A difference inside the array ends the loop with a mismatch. -/
theorem send_verify_loop_false (b a : Nat → Nat) :
    ∀ (n i j : Nat), j < n → b (i + j) ≠ a (i + j) → i + j < CURRENT_REQUEST_SIZE →
      send_verify_loop b a n i = some false := by
  intro n
  induction n with
  | zero =>
    intro i j hj
    omega
  | succ n ih =>
    intro i j hj hne hlt
    rw [send_verify_loop, if_neg (by omega)]
    by_cases hi : b i ≠ a i
    · rw [if_pos hi]
    · rw [if_neg hi]
      have hj0 : j ≠ 0 := by
        intro e
        subst e
        exact hi hne
      have e : i + j = i + 1 + (j - 1) := by omega
      exact ih (i + 1) (j - 1) (by omega) (by rw [← e]; exact hne) (by rw [← e]; exact hlt)

/-- A loop that ends without mismatch has compared equal bytes. -/
theorem send_verify_loop_true_eq (b a : Nat → Nat) :
    ∀ (n i : Nat), send_verify_loop b a n i = some true →
      ∀ j, j < n → b (i + j) = a (i + j) := by
  intro n
  induction n with
  | zero =>
    intro i _ j hj
    omega
  | succ n ih =>
    intro i h j hj
    rw [send_verify_loop] at h
    split at h
    · cases h
    · split at h
      · cases h
      · rename_i heq
        cases j with
        | zero => exact not_not.1 heq
        | succ k =>
          have := ih (i + 1) h k (by omega)
          have e : i + (k + 1) = i + 1 + k := by omega
          rw [e]
          exact this

/-- C30, the echo comparison stays inside the saved request: when the length
byte held in `current_request_as_byte_array` is at most 80, the comparison loop
of `verify_buffer` reads the array only below index 85, whatever was received;
when that length byte is `L ≥ 3`, so that the frame of `P = L + 5` bytes holds
its length byte, the loop reads only below index `P`; a received length byte
that differs from the saved one ends the loop at or before index 7. -/
theorem echo_comparison_bounded (receive_buffer current_request : Nat → Nat)
    (hlen : current_request 7 ≤ 80) :
    (∀ idx ∈ send_verify_reads receive_buffer current_request (receive_buffer 7 + 4 + 1) 0,
        idx < CURRENT_REQUEST_SIZE) ∧
      (3 ≤ current_request 7 →
        ∀ idx ∈ send_verify_reads receive_buffer current_request (receive_buffer 7 + 4 + 1) 0,
          idx < current_request 7 + 5) ∧
      (receive_buffer 7 ≠ current_request 7 →
        ∀ idx ∈ send_verify_reads receive_buffer current_request (receive_buffer 7 + 4 + 1) 0,
          idx ≤ 7) ∧
      send_verify_loop receive_buffer current_request (receive_buffer 7 + 4 + 1) 0 ≠ none := by
  have hstop : receive_buffer 7 ≠ current_request 7 →
      ∀ idx ∈ send_verify_reads receive_buffer current_request (receive_buffer 7 + 4 + 1) 0,
        idx ≤ 7 := fun hne idx hidx =>
    send_verify_reads_stop receive_buffer current_request 7 hne _ 0 idx (Nat.zero_le 7) hidx
  have hrange : ∀ idx ∈ send_verify_reads receive_buffer current_request
      (receive_buffer 7 + 4 + 1) 0, idx < receive_buffer 7 + 5 := fun idx hidx => by
    have := send_verify_reads_range receive_buffer current_request _ 0 idx hidx
    omega
  have hsize : ∀ idx ∈ send_verify_reads receive_buffer current_request
      (receive_buffer 7 + 4 + 1) 0, idx < CURRENT_REQUEST_SIZE := by
    intro idx hidx
    have e : CURRENT_REQUEST_SIZE = 85 := rfl
    rw [e]
    by_cases h7 : receive_buffer 7 = current_request 7
    · have := hrange idx hidx
      omega
    · have := hstop h7 idx hidx
      omega
  refine ⟨hsize, ?_, hstop, send_verify_loop_defined _ _ _ 0 hsize⟩
  intro h3 idx hidx
  by_cases h7 : receive_buffer 7 = current_request 7
  · have := hrange idx hidx
    omega
  · have := hstop h7 idx hidx
    omega

/-- Witness of C30: the saved poll of slave 17 and an echo whose length byte
arrived as 0. -/
theorem echo_comparison_bounded_witness :
    example_short_echo_engine.current_request_as_byte_array 7 = 8 ∧
      (∀ idx ∈ send_verify_reads example_short_echo_engine.receive_buffer
          example_short_echo_engine.current_request_as_byte_array
          (example_short_echo_engine.receive_buffer 7 + 4 + 1) 0, idx < 8 + 5) :=
  ⟨by decide,
    (echo_comparison_bounded example_short_echo_engine.receive_buffer
      example_short_echo_engine.current_request_as_byte_array (by decide)).2.1 (by decide)⟩

/-- C27 as amended, send verification is byte for byte over the frame that the
received length byte delimits: in verify mode, with a complete frame and a
saved length byte of at most 80, a difference from the saved request in one of
the first `receive_buffer[7] + 5` bytes leads to the failure path; without such
a difference the echo is accepted (the loop ends without mismatch) and, when
`receive_buffer[7] ≥ 3`, the length bytes agree and the first `P` bytes of the
buffer are the `P` bytes of the saved frame. -/
theorem send_verification_bytewise (depth fuel : Nat) (s : Engine) (slave : RS485Slave)
    (hs : s.current_slave = some slave)
    (hv : s.send_verify_flag = true)
    (h8 : 8 ≤ s.current_receive_buffer_index)
    (hc : s.receive_buffer 7 + 4 < s.current_receive_buffer_index)
    (hlen : s.current_request_as_byte_array 7 ≤ 80) :
    ((∃ i, i ≤ s.receive_buffer 7 + 4 ∧
          s.receive_buffer i ≠ s.current_request_as_byte_array i) →
        send_verify_loop s.receive_buffer s.current_request_as_byte_array
            (s.receive_buffer 7 + 4 + 1) 0 = some false ∧
          verify_buffer (depth + 1) fuel s = seq_pop_poll fuel (disable_master_timer s) ∧
          verify_buffer (depth + 1) fuel s = master_poll_slave fuel (exchange_failed s slave)) ∧
      ((∀ i, i ≤ s.receive_buffer 7 + 4 →
          s.receive_buffer i = s.current_request_as_byte_array i) →
        send_verify_loop s.receive_buffer s.current_request_as_byte_array
            (s.receive_buffer 7 + 4 + 1) 0 = some true ∧
          (3 ≤ s.receive_buffer 7 →
            s.receive_buffer 7 = s.current_request_as_byte_array 7 ∧
            ∀ i, i < s.current_request_as_byte_array 7 + 5 →
              s.receive_buffer i = s.current_request_as_byte_array i)) ∧
      (send_verify_loop s.receive_buffer s.current_request_as_byte_array
          (s.receive_buffer 7 + 4 + 1) 0 = some true →
        ∀ i, i ≤ s.receive_buffer 7 + 4 →
          s.receive_buffer i = s.current_request_as_byte_array i) := by
  have e85 : CURRENT_REQUEST_SIZE = 85 := rfl
  refine ⟨?_, ?_, ?_⟩
  · rintro ⟨i, hi, hne⟩
    have hl : send_verify_loop s.receive_buffer s.current_request_as_byte_array
        (s.receive_buffer 7 + 4 + 1) 0 = some false := by
      by_cases hi85 : i < 85
      · exact send_verify_loop_false _ _ _ 0 i (by omega) (by simpa using hne)
          (by rw [e85]; omega)
      · have h7 : s.receive_buffer 7 ≠ s.current_request_as_byte_array 7 := by omega
        exact send_verify_loop_false _ _ _ 0 7 (by omega) (by simpa using h7)
          (by rw [e85]; omega)
    have hm := verify_buffer_echo_mismatch depth fuel s slave hs h8 hc hv hl
    refine ⟨hl, ?_, hm⟩
    rw [hm, seq_pop_poll_eq fuel s slave hs]
  · intro hecho
    have hb : s.receive_buffer 7 ≤ 80 := by
      by_cases h3 : 3 ≤ s.receive_buffer 7
      · rw [hecho 7 (by omega)]
        exact hlen
      · omega
    refine ⟨send_verify_loop_of_echo s hb hecho, ?_⟩
    intro h3
    have h7 := hecho 7 (by omega)
    refine ⟨h7, fun i hi => hecho i (by omega)⟩
  · intro hl i hi
    have := send_verify_loop_true_eq _ _ _ 0 hl i (by omega)
    simpa using this

/-- Witness of C27 as amended: the echo of the poll of slave 17 with byte 11
received as 23 instead of 22. -/
theorem send_verification_bytewise_witness :
    (example_engine [empty_packet] example_poll_frame
        [17, 100, 0, 0, 0, 0, 0, 8, 0, 0, 0, 23, 211] true false).current_slave
        = some ⟨17, 0, [empty_packet]⟩ ∧
      verify_buffer 1 2
          (example_engine [empty_packet] example_poll_frame
            [17, 100, 0, 0, 0, 0, 0, 8, 0, 0, 0, 23, 211] true false)
        = seq_pop_poll 2 (disable_master_timer
            (example_engine [empty_packet] example_poll_frame
              [17, 100, 0, 0, 0, 0, 0, 8, 0, 0, 0, 23, 211] true false)) :=
  ⟨by decide,
    ((send_verification_bytewise 0 2
      (example_engine [empty_packet] example_poll_frame
        [17, 100, 0, 0, 0, 0, 0, 8, 0, 0, 0, 23, 211] true false)
      ⟨17, 0, [empty_packet]⟩ (by decide) rfl (by decide) (by decide) (by decide)).1
      ⟨11, by decide, by decide⟩).2.1⟩

/-- Counterexample to C27: the poll of slave 17, a frame of `P = 13` bytes with
length byte 8, is saved; the first 8 bytes arrive with byte 7 as 0. The loop
compares bytes 0 to 4 only, the echo is accepted and `send_verify_flag` is
cleared: the failure path is not taken although byte 7 differs. -/
theorem short_echo_counterexample :
    example_short_echo_engine.send_verify_flag = true ∧
      example_short_echo_engine.current_request_as_byte_array 7 = 8 ∧
      example_short_echo_engine.receive_buffer 7 ≠
        example_short_echo_engine.current_request_as_byte_array 7 ∧
      send_verify_loop example_short_echo_engine.receive_buffer
        example_short_echo_engine.current_request_as_byte_array
        (example_short_echo_engine.receive_buffer 7 + 4 + 1) 0 = some true ∧
      verify_buffer 1 2 example_short_echo_engine = some (compacted example_short_echo_engine) ∧
      (compacted example_short_echo_engine).send_verify_flag = false ∧
      verify_buffer 1 2 example_short_echo_engine
        ≠ seq_pop_poll 2 (disable_master_timer example_short_echo_engine) := by
  have hl : send_verify_loop example_short_echo_engine.receive_buffer
      example_short_echo_engine.current_request_as_byte_array
      (example_short_echo_engine.receive_buffer 7 + 4 + 1) 0 = some true := by decide
  have hrun : verify_buffer 1 2 example_short_echo_engine
      = some (compacted example_short_echo_engine) := by
    rw [verify_buffer_echo_more 0 2 example_short_echo_engine (by decide) (by decide) rfl hl rfl,
      if_neg (by decide)]
    rfl
  refine ⟨rfl, by decide, by decide, hl, hrun, rfl, ?_⟩
  intro h
  rw [hrun, seq_pop_poll_eq 2 example_short_echo_engine ⟨17, 0, [empty_packet]⟩ (by decide)] at h
  obtain ⟨t, ht, hidx⟩ := master_poll_slave_exchange_failed 0 example_short_echo_engine
    ⟨17, 0, [empty_packet]⟩ (by decide) (by decide) (by unfold queues_fit; decide)
  rw [ht] at h
  have h2 := congrArg
    (fun (r : Option Engine) => r.map fun e => e.master_current_slave_to_process) h
  simp only [Option.map_some'] at h2
  rw [hidx] at h2
  revert h2
  decide

/-! ## Initialisation and shutdown -/

/-- The loop that reads the slave addresses, one pass. -/
theorem read_slave_addresses_succ (env : Environment) (n location : Nat)
    (slaves : List RS485Slave) (buf : List Nat)
    (h : env.i2c_eeprom_read location 4 = some buf) :
    read_slave_addresses env (n + 1) location slaves =
      if u32_of_buffer buf ≠ 0 then
        read_slave_addresses env n (location + 4) (slaves ++ [⟨u32_of_buffer buf % 256, 0, []⟩])
      else (true, slaves) := by
  rw [read_slave_addresses, h]

/-- The loop reads at most `n` addresses and reports a failure only when a read
failed. -/
theorem read_slave_addresses_ok (env : Environment) :
    ∀ (n location : Nat) (slaves : List RS485Slave),
      (∀ k, k < n → env.i2c_eeprom_read (location + 4 * k) 4 ≠ none) →
      (read_slave_addresses env n location slaves).1 = true := by
  intro n
  induction n with
  | zero =>
    intro location slaves _
    rfl
  | succ n ih =>
    intro location slaves h
    cases hr : env.i2c_eeprom_read location 4 with
    | none => exact absurd hr (by simpa using h 0 (Nat.succ_pos n))
    | some buf =>
      rw [read_slave_addresses_succ env n location slaves buf hr]
      split
      · apply ih
        intro k hk
        have := h (k + 1) (by omega)
        have e : location + 4 * (k + 1) = location + 4 + 4 * k := by omega
        rw [e] at this
        exact this
      · rfl

theorem read_slave_addresses_length (env : Environment) :
    ∀ (n location : Nat) (slaves : List RS485Slave),
      (read_slave_addresses env n location slaves).2.length ≤ slaves.length + n := by
  intro n
  induction n with
  | zero =>
    intro location slaves
    exact Nat.le_refl _
  | succ n ih =>
    intro location slaves
    rw [read_slave_addresses]
    split
    · exact Nat.le_add_right _ _
    · split
      · refine Nat.le_trans (ih _ _) ?_
        rw [List.length_append, List.length_singleton]
        omega
      · exact Nat.le_add_right _ _

/-- `serial_interface_init` touches the serial descriptor and the record of
teardown calls only. -/
theorem serial_interface_init_snd (env : Environment) (x : Extension) :
    (serial_interface_init env x).2 =
      { x with
        red_rs485_serial_fd := env.open_serial
        teardown := (serial_interface_init env x).2.teardown } := by
  unfold serial_interface_init
  split_ifs <;> rfl

/-- When `serial_interface_init` succeeds it has made no teardown call. -/
theorem serial_interface_init_done (env : Environment) (x : Extension)
    (h : ¬ (serial_interface_init env x).1 < 0) :
    (serial_interface_init env x).2 = { x with red_rs485_serial_fd := env.open_serial } := by
  unfold serial_interface_init at h ⊢
  split_ifs at h ⊢ <;> first | rfl | exact absurd (by show (-1 : Int) < 0; decide) h

/-- With a line that opens, valid stop bits and a parity that `red_rs485_extension_init`
stored, `serial_interface_init` succeeds. -/
theorem serial_interface_init_ok (env : Environment) (x : Extension)
    (ho : 0 ≤ env.open_serial)
    (hstop : x.red_rs485_eeprom_config_stopbits = 1 ∨ x.red_rs485_eeprom_config_stopbits = 2)
    (hpar : x.red_rs485_eeprom_config_parity = 110 ∨ x.red_rs485_eeprom_config_parity = 101 ∨
      x.red_rs485_eeprom_config_parity = 111)
    (h1 : 0 ≤ env.ioctl_TIOCGSERIAL) (h2 : 0 ≤ env.ioctl_TIOCSSERIAL) :
    ¬ (serial_interface_init env x).1 < 0 := by
  unfold serial_interface_init
  rw [if_neg (by omega), if_neg (by omega), if_neg, if_neg (by omega), if_neg (by omega)]
  · show ¬ ((0 : Int) < 0)
    decide
  · simp only [RS485_EXTENSION_SERIAL_PARITY_NONE, RS485_EXTENSION_SERIAL_PARITY_EVEN,
      RS485_EXTENSION_SERIAL_PARITY_ODD]
    omega

theorem serial_interface_init_initialized (env : Environment) (x : Extension) :
    (serial_interface_init env x).2.initialized = x.initialized := by
  rw [serial_interface_init_snd]

theorem serial_interface_init_engine (env : Environment) (x : Extension) :
    (serial_interface_init env x).2.engine = x.engine := by
  rw [serial_interface_init_snd]

/-- The parity that `red_rs485_extension_init` stores is one of the three known values. -/
theorem parity_stored (v : Nat) :
    (if v = RS485_EXTENSION_SERIAL_PARITY_NONE then RS485_EXTENSION_SERIAL_PARITY_NONE
      else if v = RS485_EXTENSION_SERIAL_PARITY_EVEN then RS485_EXTENSION_SERIAL_PARITY_EVEN
      else RS485_EXTENSION_SERIAL_PARITY_ODD) = 110 ∨
    (if v = RS485_EXTENSION_SERIAL_PARITY_NONE then RS485_EXTENSION_SERIAL_PARITY_NONE
      else if v = RS485_EXTENSION_SERIAL_PARITY_EVEN then RS485_EXTENSION_SERIAL_PARITY_EVEN
      else RS485_EXTENSION_SERIAL_PARITY_ODD) = 101 ∨
    (if v = RS485_EXTENSION_SERIAL_PARITY_NONE then RS485_EXTENSION_SERIAL_PARITY_NONE
      else if v = RS485_EXTENSION_SERIAL_PARITY_EVEN then RS485_EXTENSION_SERIAL_PARITY_EVEN
      else RS485_EXTENSION_SERIAL_PARITY_ODD) = 111 := by
  split_ifs
  · exact Or.inl rfl
  · exact Or.inr (Or.inl rfl)
  · exact Or.inr (Or.inr rfl)

theorem not_started_cleanup (x y : Extension) (phase : Nat) (cleanup_return_zero : Bool)
    (hi : y.initialized = x.initialized)
    (he : y.engine = { x.engine with TIMEOUT := y.engine.TIMEOUT, slaves := y.engine.slaves }) :
    not_started x (cleanup phase cleanup_return_zero y) :=
  ⟨hi, he⟩

/-- The four ways in which `red_rs485_extension_init` ends: the conversion of
the timeout is undefined; the engine is configured and `master_poll_slave` is
called; the configuration stops it (result 0); a step fails (result -1). -/
theorem red_rs485_extension_init_cases (width fuel : Nat) (env : Environment) (x : Extension) :
    (red_rs485_extension_init width fuel env x = none ∧
      ∃ bbuf, env.i2c_eeprom_read RS485_EXTENSION_EEPROM_CONFIG_LOCATION_BAUDRATE 4 = some bbuf ∧
        8 ≤ u32_of_buffer bbuf ∧ TIMEOUT_of_baudrate width (u32_of_buffer bbuf) = none) ∨
    (∃ abuf bbuf pbuf sbuf timeout,
      env.i2c_eeprom_read RS485_EXTENSION_EEPROM_CONFIG_LOCATION_ADDRESS 4 = some abuf ∧
      u32_of_buffer abuf = 0 ∧
      env.i2c_eeprom_read RS485_EXTENSION_EEPROM_CONFIG_LOCATION_BAUDRATE 4 = some bbuf ∧
      8 ≤ u32_of_buffer bbuf ∧
      TIMEOUT_of_baudrate width (u32_of_buffer bbuf) = some timeout ∧
      env.i2c_eeprom_read RS485_EXTENSION_EEPROM_CONFIG_LOCATION_PARTIY 1 = some pbuf ∧
      env.i2c_eeprom_read RS485_EXTENSION_EEPROM_CONFIG_LOCATION_STOPBITS 1 = some sbuf ∧
      (read_slave_addresses env RS485_EXTENSION_MAX_SLAVES
        RS485_EXTENSION_EEPROM_CONFIG_LOCATION_SLAVE_ADDRESSES_START []).2 ≠ [] ∧
      red_rs485_extension_init width fuel env x =
        (master_poll_slave fuel
          (configured env x abuf bbuf pbuf sbuf timeout
            (read_slave_addresses env RS485_EXTENSION_MAX_SLAVES
              RS485_EXTENSION_EEPROM_CONFIG_LOCATION_SLAVE_ADDRESSES_START []).2).engine).map
          fun engine => cleanup 7 false
            { configured env x abuf bbuf pbuf sbuf timeout
                (read_slave_addresses env RS485_EXTENSION_MAX_SLAVES
                  RS485_EXTENSION_EEPROM_CONFIG_LOCATION_SLAVE_ADDRESSES_START []).2 with
              initialized := true, engine := engine }) ∨
    (∃ result, red_rs485_extension_init width fuel env x = some result ∧ result.1 = 0 ∧
      not_started x result ∧
      ((∃ bbuf,
          env.i2c_eeprom_read RS485_EXTENSION_EEPROM_CONFIG_LOCATION_BAUDRATE 4 = some bbuf ∧
          u32_of_buffer bbuf < 8) ∨
        (∃ abuf,
          env.i2c_eeprom_read RS485_EXTENSION_EEPROM_CONFIG_LOCATION_ADDRESS 4 = some abuf ∧
          u32_of_buffer abuf ≠ 0) ∨
        (read_slave_addresses env RS485_EXTENSION_MAX_SLAVES
          RS485_EXTENSION_EEPROM_CONFIG_LOCATION_SLAVE_ADDRESSES_START []).2 = [])) ∨
    (∃ result, red_rs485_extension_init width fuel env x = some result ∧ result.1 = -1 ∧
      not_started x result ∧ ¬ env.Cooperates) := by
  have key : ∀ r, red_rs485_extension_init width fuel env x = r →
      (r = none ∧
        ∃ bbuf, env.i2c_eeprom_read RS485_EXTENSION_EEPROM_CONFIG_LOCATION_BAUDRATE 4
            = some bbuf ∧
          8 ≤ u32_of_buffer bbuf ∧ TIMEOUT_of_baudrate width (u32_of_buffer bbuf) = none) ∨
      (∃ abuf bbuf pbuf sbuf timeout,
        env.i2c_eeprom_read RS485_EXTENSION_EEPROM_CONFIG_LOCATION_ADDRESS 4 = some abuf ∧
        u32_of_buffer abuf = 0 ∧
        env.i2c_eeprom_read RS485_EXTENSION_EEPROM_CONFIG_LOCATION_BAUDRATE 4 = some bbuf ∧
        8 ≤ u32_of_buffer bbuf ∧
        TIMEOUT_of_baudrate width (u32_of_buffer bbuf) = some timeout ∧
        env.i2c_eeprom_read RS485_EXTENSION_EEPROM_CONFIG_LOCATION_PARTIY 1 = some pbuf ∧
        env.i2c_eeprom_read RS485_EXTENSION_EEPROM_CONFIG_LOCATION_STOPBITS 1 = some sbuf ∧
        (read_slave_addresses env RS485_EXTENSION_MAX_SLAVES
          RS485_EXTENSION_EEPROM_CONFIG_LOCATION_SLAVE_ADDRESSES_START []).2 ≠ [] ∧
        r =
          (master_poll_slave fuel
            (configured env x abuf bbuf pbuf sbuf timeout
              (read_slave_addresses env RS485_EXTENSION_MAX_SLAVES
                RS485_EXTENSION_EEPROM_CONFIG_LOCATION_SLAVE_ADDRESSES_START []).2).engine).map
            fun engine => cleanup 7 false
              { configured env x abuf bbuf pbuf sbuf timeout
                  (read_slave_addresses env RS485_EXTENSION_MAX_SLAVES
                    RS485_EXTENSION_EEPROM_CONFIG_LOCATION_SLAVE_ADDRESSES_START []).2 with
                initialized := true, engine := engine }) ∨
      (∃ result, r = some result ∧ result.1 = 0 ∧ not_started x result ∧
        ((∃ bbuf,
            env.i2c_eeprom_read RS485_EXTENSION_EEPROM_CONFIG_LOCATION_BAUDRATE 4 = some bbuf ∧
            u32_of_buffer bbuf < 8) ∨
          (∃ abuf,
            env.i2c_eeprom_read RS485_EXTENSION_EEPROM_CONFIG_LOCATION_ADDRESS 4 = some abuf ∧
            u32_of_buffer abuf ≠ 0) ∨
          (read_slave_addresses env RS485_EXTENSION_MAX_SLAVES
            RS485_EXTENSION_EEPROM_CONFIG_LOCATION_SLAVE_ADDRESSES_START []).2 = [])) ∨
      (∃ result, r = some result ∧ result.1 = -1 ∧ not_started x result ∧
        ¬ env.Cooperates) := by
    intro r hr
    unfold red_rs485_extension_init at hr
    by_cases c1 : env.i2c_eeprom_init < 0
    · rw [if_pos c1] at hr
      subst hr
      exact Or.inr (Or.inr (Or.inr ⟨_, rfl, by rfl, ⟨rfl, rfl⟩,
        fun hco => absurd hco.i2c_eeprom_init (by omega)⟩))
    rw [if_neg c1] at hr
    by_cases c2 : env.stack_create < 0
    · rw [if_pos c2] at hr
      subst hr
      exact Or.inr (Or.inr (Or.inr ⟨_, rfl, by rfl, ⟨rfl, rfl⟩,
        fun hco => absurd hco.stack_create (by omega)⟩))
    rw [if_neg c2] at hr
    by_cases c3 : env.hardware_add_stack < 0
    · rw [if_pos c3] at hr
      subst hr
      exact Or.inr (Or.inr (Or.inr ⟨_, rfl, by rfl, ⟨rfl, rfl⟩,
        fun hco => absurd hco.hardware_add_stack (by omega)⟩))
    rw [if_neg c3] at hr
    cases ha : env.i2c_eeprom_read RS485_EXTENSION_EEPROM_CONFIG_LOCATION_ADDRESS 4 with
    | none =>
      rw [ha] at hr
      dsimp only at hr
      subst hr
      exact Or.inr (Or.inr (Or.inr ⟨_, rfl, by rfl, ⟨rfl, rfl⟩,
        fun hco => absurd ha hco.read_address⟩))
    | some abuf =>
      rw [ha] at hr
      dsimp only at hr
      cases hb : env.i2c_eeprom_read RS485_EXTENSION_EEPROM_CONFIG_LOCATION_BAUDRATE 4 with
      | none =>
        rw [hb] at hr
        dsimp only at hr
        subst hr
        exact Or.inr (Or.inr (Or.inr ⟨_, rfl, by rfl, ⟨rfl, rfl⟩,
          fun hco => absurd hb hco.read_baudrate⟩))
      | some bbuf =>
        rw [hb] at hr
        dsimp only at hr
        by_cases c4 : u32_of_buffer bbuf < 8
        · rw [if_pos c4] at hr
          subst hr
          exact Or.inr (Or.inr (Or.inl ⟨_, rfl, by rfl, ⟨rfl, rfl⟩, Or.inl ⟨bbuf, rfl, c4⟩⟩))
        rw [if_neg c4] at hr
        cases hT : TIMEOUT_of_baudrate width (u32_of_buffer bbuf) with
        | none =>
          rw [hT] at hr
          dsimp only at hr
          subst hr
          exact Or.inl ⟨rfl, bbuf, rfl, by omega, hT⟩
        | some timeout =>
          rw [hT] at hr
          dsimp only at hr
          cases hp : env.i2c_eeprom_read RS485_EXTENSION_EEPROM_CONFIG_LOCATION_PARTIY 1 with
          | none =>
            rw [hp] at hr
            dsimp only at hr
            subst hr
            exact Or.inr (Or.inr (Or.inr ⟨_, rfl, by rfl, ⟨rfl, rfl⟩,
              fun hco => absurd hp hco.read_parity⟩))
          | some pbuf =>
            rw [hp] at hr
            dsimp only at hr
            cases hsb : env.i2c_eeprom_read RS485_EXTENSION_EEPROM_CONFIG_LOCATION_STOPBITS 1 with
            | none =>
              rw [hsb] at hr
              dsimp only at hr
              subst hr
              exact Or.inr (Or.inr (Or.inr ⟨_, rfl, by rfl, ⟨rfl, rfl⟩,
                fun hco => absurd hsb hco.read_stopbits⟩))
            | some sbuf =>
              rw [hsb] at hr
              dsimp only at hr
              by_cases c5 : u32_of_buffer abuf = 0
              · rw [if_pos c5] at hr
                simp only [Engine.slave_num] at hr
                by_cases c6 : (read_slave_addresses env RS485_EXTENSION_MAX_SLAVES
                    RS485_EXTENSION_EEPROM_CONFIG_LOCATION_SLAVE_ADDRESSES_START []).1 = false
                · rw [if_pos c6] at hr
                  subst hr
                  refine Or.inr (Or.inr (Or.inr ⟨_, rfl, by rfl, ⟨rfl, rfl⟩, ?_⟩))
                  intro hco
                  have hok := read_slave_addresses_ok env RS485_EXTENSION_MAX_SLAVES
                    RS485_EXTENSION_EEPROM_CONFIG_LOCATION_SLAVE_ADDRESSES_START []
                    hco.read_slaves
                  rw [c6] at hok
                  cases hok
                rw [if_neg c6] at hr
                by_cases c7 : ∃ i ∈ List.range (read_slave_addresses env RS485_EXTENSION_MAX_SLAVES
                    RS485_EXTENSION_EEPROM_CONFIG_LOCATION_SLAVE_ADDRESSES_START []).2.length,
                    env.queue_create i < 0
                · rw [if_pos c7] at hr
                  subst hr
                  refine Or.inr (Or.inr (Or.inr ⟨_, rfl, by rfl, ⟨rfl, rfl⟩, ?_⟩))
                  intro hco
                  obtain ⟨i, hi, hlt⟩ := c7
                  have hlen := read_slave_addresses_length env RS485_EXTENSION_MAX_SLAVES
                    RS485_EXTENSION_EEPROM_CONFIG_LOCATION_SLAVE_ADDRESSES_START []
                  have hi2 : i < (read_slave_addresses env RS485_EXTENSION_MAX_SLAVES
                      RS485_EXTENSION_EEPROM_CONFIG_LOCATION_SLAVE_ADDRESSES_START []).2.length :=
                    List.mem_range.1 hi
                  have := hco.queue_create i (by
                    simp only [List.length_nil] at hlen
                    omega)
                  omega
                rw [if_neg c7] at hr
                generalize hsii : serial_interface_init env _ = sii at hr
                by_cases c8 : sii.1 < 0
                · rw [if_pos c8] at hr
                  subst hr
                  subst hsii
                  refine Or.inr (Or.inr (Or.inr ⟨_, rfl, by rfl,
                    not_started_cleanup x _ 3 false (serial_interface_init_initialized env _)
                      (by rw [serial_interface_init_engine]), ?_⟩))
                  · intro hco
                    exact serial_interface_init_ok env _ hco.open_serial
                      (hco.stopbits sbuf hsb) (parity_stored _) hco.ioctl_TIOCGSERIAL
                      hco.ioctl_TIOCSSERIAL c8
                rw [if_neg c8] at hr
                subst hsii
                rw [serial_interface_init_done env _ c8] at hr
                dsimp only at hr
                by_cases c9 : env.event_add_source_serial < 0
                · rw [if_pos c9] at hr
                  subst hr
                  exact Or.inr (Or.inr (Or.inr ⟨_, rfl, by rfl, ⟨rfl, rfl⟩,
                    fun hco => absurd hco.event_add_source_serial (by omega)⟩))
                rw [if_neg c9] at hr
                by_cases c10 : env.timerfd_create < 0
                · rw [if_pos c10] at hr
                  subst hr
                  exact Or.inr (Or.inr (Or.inr ⟨_, rfl, by rfl, ⟨rfl, rfl⟩,
                    fun hco => absurd hco.timerfd_create (by omega)⟩))
                rw [if_neg c10] at hr
                by_cases c11 : env.event_add_source_timer < 0
                · rw [if_pos c11] at hr
                  subst hr
                  exact Or.inr (Or.inr (Or.inr ⟨_, rfl, by rfl, ⟨rfl, rfl⟩,
                    fun hco => absurd hco.event_add_source_timer (by omega)⟩))
                rw [if_neg c11] at hr
                by_cases c12 : 0 < (read_slave_addresses env RS485_EXTENSION_MAX_SLAVES
                    RS485_EXTENSION_EEPROM_CONFIG_LOCATION_SLAVE_ADDRESSES_START []).2.length
                · rw [if_pos ⟨c5, c12⟩] at hr
                  subst hr
                  refine Or.inr (Or.inl ⟨abuf, bbuf, pbuf, sbuf, timeout, rfl, c5, rfl,
                    by omega, hT, rfl, rfl, ?_, rfl⟩)
                  intro e
                  rw [e] at c12
                  exact absurd c12 (by decide)
                · rw [if_neg (fun h => c12 h.2)] at hr
                  subst hr
                  exact Or.inr (Or.inr (Or.inl ⟨_, rfl, by rfl, ⟨rfl, rfl⟩,
                    Or.inr (Or.inr (List.length_eq_zero.1 (by omega)))⟩))
              · rw [if_neg c5] at hr
                subst hr
                exact Or.inr (Or.inr (Or.inl ⟨_, rfl, by rfl, ⟨rfl, rfl⟩,
                  Or.inr (Or.inl ⟨abuf, rfl, c5⟩)⟩))
  exact key _ rfl

/-- In the surroundings `example_environment` every call succeeds. -/
theorem example_environment_cooperates (baudrate parity : Nat) (addresses : List Nat) :
    (example_environment baudrate parity addresses).Cooperates where
  i2c_eeprom_init := Int.le_refl 0
  stack_create := Int.le_refl 0
  hardware_add_stack := Int.le_refl 0
  read_address := by
    simp [example_environment, example_store, RS485_EXTENSION_EEPROM_CONFIG_LOCATION_ADDRESS]
  read_baudrate := by
    simp [example_environment, example_store, RS485_EXTENSION_EEPROM_CONFIG_LOCATION_BAUDRATE]
  read_parity := by
    simp [example_environment, example_store, RS485_EXTENSION_EEPROM_CONFIG_LOCATION_PARTIY]
  read_stopbits := by
    simp [example_environment, example_store, RS485_EXTENSION_EEPROM_CONFIG_LOCATION_STOPBITS]
  stopbits := by
    intro buf h
    have h2 : some [1] = some buf := h
    cases h2
    exact Or.inl rfl
  read_slaves := by
    intro k _
    simp only [example_environment, example_store]
    split_ifs <;> simp
  queue_create := fun _ _ => Int.le_refl 0
  open_serial := by
    show (0 : Int) ≤ 3
    decide
  ioctl_TIOCGSERIAL := Int.le_refl 0
  ioctl_TIOCSSERIAL := Int.le_refl 0
  event_add_source_serial := Int.le_refl 0
  timerfd_create := by
    show (0 : Int) ≤ 4
    decide
  event_add_source_timer := Int.le_refl 0

/-- A first slave address of zero leaves the slave table empty. -/
theorem read_slave_addresses_none (env : Environment) (buf : List Nat)
    (h : env.i2c_eeprom_read RS485_EXTENSION_EEPROM_CONFIG_LOCATION_SLAVE_ADDRESSES_START 4
      = some buf)
    (h0 : u32_of_buffer buf = 0) :
    read_slave_addresses env RS485_EXTENSION_MAX_SLAVES
      RS485_EXTENSION_EEPROM_CONFIG_LOCATION_SLAVE_ADDRESSES_START [] = (true, []) := by
  show read_slave_addresses env (31 + 1) _ [] = _
  rw [read_slave_addresses_succ env 31 _ [] buf h, if_neg (by simp [h0])]

/-- The slaves that the loop stores have empty queues. -/
theorem read_slave_addresses_queues (env : Environment) :
    ∀ (n location : Nat) (slaves : List RS485Slave),
      (∀ slave ∈ slaves, slave.packet_queue = []) →
      ∀ slave ∈ (read_slave_addresses env n location slaves).2, slave.packet_queue = [] := by
  intro n
  induction n with
  | zero =>
    intro location slaves h
    exact h
  | succ n ih =>
    intro location slaves h
    rw [read_slave_addresses]
    split
    · exact h
    · split
      · apply ih
        intro slave hm
        rcases List.mem_append.1 hm with hm | hm
        · exact h slave hm
        · simp only [List.mem_singleton] at hm
          rw [hm]
      · exact h

/-- With cooperating surroundings, own address 0, a baud rate of at least 8
whose timeout fits and at least one slave, `red_rs485_extension_init` configures
the engine and calls `master_poll_slave`. -/
theorem red_rs485_extension_init_started (width fuel : Nat) (env : Environment) (x : Extension)
    (abuf bbuf pbuf sbuf : List Nat) (timeout : Nat)
    (hco : env.Cooperates)
    (ha : env.i2c_eeprom_read RS485_EXTENSION_EEPROM_CONFIG_LOCATION_ADDRESS 4 = some abuf)
    (ha0 : u32_of_buffer abuf = 0)
    (hb : env.i2c_eeprom_read RS485_EXTENSION_EEPROM_CONFIG_LOCATION_BAUDRATE 4 = some bbuf)
    (hb8 : 8 ≤ u32_of_buffer bbuf)
    (hT : TIMEOUT_of_baudrate width (u32_of_buffer bbuf) = some timeout)
    (hp : env.i2c_eeprom_read RS485_EXTENSION_EEPROM_CONFIG_LOCATION_PARTIY 1 = some pbuf)
    (hsb : env.i2c_eeprom_read RS485_EXTENSION_EEPROM_CONFIG_LOCATION_STOPBITS 1 = some sbuf)
    (hne : (read_slave_addresses env RS485_EXTENSION_MAX_SLAVES
      RS485_EXTENSION_EEPROM_CONFIG_LOCATION_SLAVE_ADDRESSES_START []).2 ≠ []) :
    red_rs485_extension_init width fuel env x =
      (master_poll_slave fuel
        (configured env x abuf bbuf pbuf sbuf timeout
          (read_slave_addresses env RS485_EXTENSION_MAX_SLAVES
            RS485_EXTENSION_EEPROM_CONFIG_LOCATION_SLAVE_ADDRESSES_START []).2).engine).map
        fun engine => cleanup 7 false
          { configured env x abuf bbuf pbuf sbuf timeout
              (read_slave_addresses env RS485_EXTENSION_MAX_SLAVES
                RS485_EXTENSION_EEPROM_CONFIG_LOCATION_SLAVE_ADDRESSES_START []).2 with
            initialized := true, engine := engine } := by
  rcases red_rs485_extension_init_cases width fuel env x with
    ⟨_, bbuf2, hb2, _, hT2⟩ |
    ⟨abuf2, bbuf2, pbuf2, sbuf2, timeout2, ha2, _, hb2, _, hT2, hp2, hsb2, _, heq⟩ |
    ⟨result, _, _, _, herr⟩ | ⟨result, _, _, _, hnco⟩
  · rw [hb] at hb2
    cases hb2
    rw [hT] at hT2
    cases hT2
  · rw [ha] at ha2
    rw [hb] at hb2
    rw [hp] at hp2
    rw [hsb] at hsb2
    cases ha2
    cases hb2
    cases hp2
    cases hsb2
    rw [hT] at hT2
    cases hT2
    exact heq
  · exfalso
    rcases herr with ⟨bbuf2, hb2, hlt⟩ | ⟨abuf2, ha2, hnz⟩ | hnil
    · rw [hb] at hb2
      cases hb2
      omega
    · rw [ha] at ha2
      cases ha2
      exact hnz ha0
    · exact hne hnil
  · exact absurd hco hnco

/-- The parity byte never stops initialisation: `red_rs485_extension_init` stores
110 for the byte 110, 101 for the byte 101 and 111 (odd) for every other byte.
With cooperating surroundings, own address 0, a baud rate of at least 8 and one
slave or more it initialises the engine whatever the parity byte is: the result
is 0, `_initialized` is set and the first frame is written. -/
theorem parity_defaults_to_odd (width fuel : Nat) (env : Environment) (x : Extension)
    (abuf bbuf pbuf sbuf : List Nat) (timeout : Nat)
    (hco : env.Cooperates)
    (ha : env.i2c_eeprom_read RS485_EXTENSION_EEPROM_CONFIG_LOCATION_ADDRESS 4 = some abuf)
    (ha0 : u32_of_buffer abuf = 0)
    (hb : env.i2c_eeprom_read RS485_EXTENSION_EEPROM_CONFIG_LOCATION_BAUDRATE 4 = some bbuf)
    (hb8 : 8 ≤ u32_of_buffer bbuf)
    (hT : TIMEOUT_of_baudrate width (u32_of_buffer bbuf) = some timeout)
    (hp : env.i2c_eeprom_read RS485_EXTENSION_EEPROM_CONFIG_LOCATION_PARTIY 1 = some pbuf)
    (hsb : env.i2c_eeprom_read RS485_EXTENSION_EEPROM_CONFIG_LOCATION_STOPBITS 1 = some sbuf)
    (hne : (read_slave_addresses env RS485_EXTENSION_MAX_SLAVES
      RS485_EXTENSION_EEPROM_CONFIG_LOCATION_SLAVE_ADDRESSES_START []).2 ≠ [])
    (hidx : x.engine.master_current_slave_to_process = -1)
    (hw : 0 < x.engine.write_result x.engine.written.length) :
    ∃ result, red_rs485_extension_init width (fuel + 2) env x = some result ∧
      result.1 = 0 ∧ result.2.initialized = true ∧
      result.2.red_rs485_eeprom_config_parity =
        (if pbuf.getD 0 0 = 110 then 110 else if pbuf.getD 0 0 = 101 then 101 else 111) ∧
      (pbuf.getD 0 0 ≠ 110 → pbuf.getD 0 0 ≠ 101 →
        result.2.red_rs485_eeprom_config_parity = 111) ∧
      (∃ frame, result.2.engine.written = x.engine.written ++ [frame]) ∧
      result.2.engine.master_current_slave_to_process = 0 := by
  have hlen : 1 ≤ (read_slave_addresses env RS485_EXTENSION_MAX_SLAVES
      RS485_EXTENSION_EEPROM_CONFIG_LOCATION_SLAVE_ADDRESSES_START []).2.length := by
    rcases Nat.eq_zero_or_pos (read_slave_addresses env RS485_EXTENSION_MAX_SLAVES
      RS485_EXTENSION_EEPROM_CONFIG_LOCATION_SLAVE_ADDRESSES_START []).2.length with h | h
    · exact absurd (List.length_eq_zero.1 h) hne
    · exact h
  have hS : 1 ≤ (configured env x abuf bbuf pbuf sbuf timeout
      (read_slave_addresses env RS485_EXTENSION_MAX_SLAVES
        RS485_EXTENSION_EEPROM_CONFIG_LOCATION_SLAVE_ADDRESSES_START []).2).engine.slave_num :=
    hlen
  have hlo : -1 ≤ (configured env x abuf bbuf pbuf sbuf timeout
      (read_slave_addresses env RS485_EXTENSION_MAX_SLAVES
        RS485_EXTENSION_EEPROM_CONFIG_LOCATION_SLAVE_ADDRESSES_START []).2).engine.master_current_slave_to_process := by
    show -1 ≤ x.engine.master_current_slave_to_process
    omega
  have hhi : (configured env x abuf bbuf pbuf sbuf timeout
      (read_slave_addresses env RS485_EXTENSION_MAX_SLAVES
        RS485_EXTENSION_EEPROM_CONFIG_LOCATION_SLAVE_ADDRESSES_START []).2).engine.master_current_slave_to_process
      < ((configured env x abuf bbuf pbuf sbuf timeout
        (read_slave_addresses env RS485_EXTENSION_MAX_SLAVES
          RS485_EXTENSION_EEPROM_CONFIG_LOCATION_SLAVE_ADDRESSES_START []).2).engine.slave_num : Int) := by
    show x.engine.master_current_slave_to_process < ((read_slave_addresses env
      RS485_EXTENSION_MAX_SLAVES
      RS485_EXTENSION_EEPROM_CONFIG_LOCATION_SLAVE_ADDRESSES_START []).2.length : Int)
    omega
  obtain ⟨slave, hcs, hmem⟩ := poll_advance_current_slave _ hS hlo hhi
  have hq : slave.packet_queue = [] :=
    read_slave_addresses_queues env _ _ [] (fun _ h => absurd h (List.not_mem_nil _)) slave hmem
  have hpoll := master_poll_slave_ok fuel _ slave hcs
    (by intro p hpm; rw [hq] at hpm; cases hpm) hw
  have hi := (poll_advance_index _ hS hlo hhi).1
  rw [hq] at hpoll
  have hrun := red_rs485_extension_init_started width (fuel + 2) env x abuf bbuf pbuf sbuf
    timeout hco ha ha0 hb hb8 hT hp hsb hne
  rw [hpoll] at hrun
  refine ⟨_, hrun, rfl, rfl, rfl, ?_, ⟨_, rfl⟩, ?_⟩
  · intro h1 h2
    show (if pbuf.getD 0 0 = RS485_EXTENSION_SERIAL_PARITY_NONE then
        RS485_EXTENSION_SERIAL_PARITY_NONE
      else if pbuf.getD 0 0 = RS485_EXTENSION_SERIAL_PARITY_EVEN then
        RS485_EXTENSION_SERIAL_PARITY_EVEN
      else RS485_EXTENSION_SERIAL_PARITY_ODD) = 111
    rw [if_neg (show ¬ pbuf.getD 0 0 = RS485_EXTENSION_SERIAL_PARITY_NONE from h1),
      if_neg (show ¬ pbuf.getD 0 0 = RS485_EXTENSION_SERIAL_PARITY_EVEN from h2)]
    rfl
  · have e : ((-1 : Int) + 1) % ((read_slave_addresses env RS485_EXTENSION_MAX_SLAVES
        RS485_EXTENSION_EEPROM_CONFIG_LOCATION_SLAVE_ADDRESSES_START []).2.length : Int) = 0 := by
      simp
    show (poll_advance _).master_current_slave_to_process = 0
    rw [hi]
    show (x.engine.master_current_slave_to_process + 1) % _ = 0
    rw [hidx]
    exact e

/-- The parity byte 0 with two slaves and 115200 baud. -/
theorem parity_defaults_to_odd_example :
    ∃ result, red_rs485_extension_init 32 2 (example_environment 115200 0 [17, 5])
        initial_extension = some result ∧
      result.1 = 0 ∧ result.2.initialized = true ∧
      result.2.red_rs485_eeprom_config_parity =
        (if [0].getD 0 0 = 110 then 110 else if [0].getD 0 0 = 101 then 101 else 111) :=
  match parity_defaults_to_odd 32 0 (example_environment 115200 0 [17, 5]) initial_extension
      (le_bytes 0) (le_bytes 115200) [0] [1] 19944444
      (example_environment_cooperates 115200 0 [17, 5]) rfl (by decide) rfl (by decide)
      (by rw [TIMEOUT_of_baudrate_eq]; decide) rfl rfl (by decide) rfl (by decide) with
  | ⟨result, hr, h0, hinit, hpar, _⟩ => ⟨result, hr, h0, hinit, hpar⟩

/-- C23 on the code: the parity byte in the store is 0, none of 110, 101 and 111.
`red_rs485_extension_init` replaces it by 111 before `serial_interface_init`
checks the parity, so initialisation completes with odd parity, sets
`_initialized` and writes the poll of the first slave. -/
theorem invalid_parity_divergence :
    (example_environment 115200 0 [17, 5]).i2c_eeprom_read
        RS485_EXTENSION_EEPROM_CONFIG_LOCATION_PARTIY 1 = some [0] ∧
      ∃ result, red_rs485_extension_init 32 2 (example_environment 115200 0 [17, 5])
          initial_extension = some result ∧
        result.1 = 0 ∧ result.2.initialized = true ∧
        result.2.red_rs485_eeprom_config_parity = 111 ∧
        result.2.engine.written = [example_poll_frame] := by
  have hrun := red_rs485_extension_init_started 32 2 (example_environment 115200 0 [17, 5])
    initial_extension (le_bytes 0) (le_bytes 115200) [0] [1] 19944444
    (example_environment_cooperates 115200 0 [17, 5]) rfl (by decide) rfl (by decide)
    (by rw [TIMEOUT_of_baudrate_eq]; decide) rfl rfl (by decide)
  have hpoll := master_poll_slave_ok 0
    (configured (example_environment 115200 0 [17, 5]) initial_extension (le_bytes 0)
      (le_bytes 115200) [0] [1] 19944444
      (read_slave_addresses (example_environment 115200 0 [17, 5]) RS485_EXTENSION_MAX_SLAVES
        RS485_EXTENSION_EEPROM_CONFIG_LOCATION_SLAVE_ADDRESSES_START []).2).engine
    ⟨17, 0, []⟩ (by decide) (by intro p hpm; cases hpm) (by decide)
  rw [hpoll] at hrun
  exact ⟨rfl, _, hrun, rfl, rfl, by decide, by decide⟩

/-- The loop over the slave addresses, for the non-zero values `vals` followed by
a zero or the end of the table. -/
theorem read_slave_addresses_values (env : Environment) :
    ∀ (vals : List Nat) (n location : Nat) (slaves : List RS485Slave),
      (∀ v ∈ vals, v ≠ 0) → vals.length ≤ n →
      (∀ k, k < vals.length → ∃ buf,
        env.i2c_eeprom_read (location + 4 * k) 4 = some buf ∧
        u32_of_buffer buf = vals.getD k 0) →
      (vals.length < n → ∃ buf,
        env.i2c_eeprom_read (location + 4 * vals.length) 4 = some buf ∧
        u32_of_buffer buf = 0) →
      read_slave_addresses env n location slaves =
        (true, slaves ++ vals.map fun v => ⟨v % 256, 0, []⟩) := by
  intro vals
  induction vals with
  | nil =>
    intro n location slaves _ _ _ hend
    cases n with
    | zero => simp [read_slave_addresses]
    | succ m =>
      obtain ⟨buf, hbuf, h0⟩ := hend (Nat.succ_pos m)
      rw [read_slave_addresses_succ env m location slaves buf (by simpa using hbuf),
        if_neg (by simp [h0])]
      simp
  | cons v rest ih =>
    intro n location slaves hnz hlen hread hend
    cases n with
    | zero => simp at hlen
    | succ m =>
      obtain ⟨buf, hbuf, hv⟩ := hread 0 (by simp)
      simp only [List.getD_cons_zero] at hv
      have h3 : ∀ k, k < rest.length → ∃ b2,
          env.i2c_eeprom_read (location + 4 + 4 * k) 4 = some b2 ∧
          u32_of_buffer b2 = rest.getD k 0 := by
        intro k hk
        obtain ⟨b2, hb2, hv2⟩ := hread (k + 1) (by simpa using hk)
        refine ⟨b2, ?_, by simpa using hv2⟩
        have e : location + 4 * (k + 1) = location + 4 + 4 * k := by omega
        rw [← e]
        exact hb2
      have h4 : rest.length < m → ∃ b2,
          env.i2c_eeprom_read (location + 4 + 4 * rest.length) 4 = some b2 ∧
          u32_of_buffer b2 = 0 := by
        intro hlt
        obtain ⟨b2, hb2, h0⟩ := hend (by simpa using hlt)
        refine ⟨b2, ?_, h0⟩
        have e : location + 4 * (v :: rest).length = location + 4 + 4 * rest.length := by
          simp only [List.length_cons]
          omega
        rw [← e]
        exact hb2
      rw [read_slave_addresses_succ env m location slaves buf (by simpa using hbuf),
        if_pos (by rw [hv]; exact hnz v (List.mem_cons_self v rest)), hv,
        ih m (location + 4) (slaves ++ [(⟨v % 256, 0, []⟩ : RS485Slave)])
          (fun w hw => hnz w (List.mem_cons_of_mem v hw)) (by simpa using hlen) h3 h4]
      simp

/-- C24 as amended, slave table: let `vals` be the values read from offsets 100,
104, ... before the first zero, at most 32 of them. The loop of
`red_rs485_extension_init` builds `vals.length` slave records in this order;
record `k` holds the `k`-th value modulo 256 (the address is a `uint8_t`), the
sequence 0 and an empty queue. When the value is below 256 the record holds
the configured address, which is in `1 .. 255`. These are the addresses and
sequences of the engine when initialisation has completed. -/
theorem slave_table (env : Environment) (vals : List Nat)
    (hnz : ∀ v ∈ vals, v ≠ 0) (hlen : vals.length ≤ RS485_EXTENSION_MAX_SLAVES)
    (hread : ∀ k, k < vals.length → ∃ buf,
      env.i2c_eeprom_read
        (RS485_EXTENSION_EEPROM_CONFIG_LOCATION_SLAVE_ADDRESSES_START + 4 * k) 4 = some buf ∧
      u32_of_buffer buf = vals.getD k 0)
    (hend : vals.length < RS485_EXTENSION_MAX_SLAVES → ∃ buf,
      env.i2c_eeprom_read
        (RS485_EXTENSION_EEPROM_CONFIG_LOCATION_SLAVE_ADDRESSES_START + 4 * vals.length) 4
          = some buf ∧
      u32_of_buffer buf = 0) :
    read_slave_addresses env RS485_EXTENSION_MAX_SLAVES
        RS485_EXTENSION_EEPROM_CONFIG_LOCATION_SLAVE_ADDRESSES_START []
        = (true, vals.map fun v => ⟨v % 256, 0, []⟩) ∧
      (vals.map fun v => (⟨v % 256, 0, []⟩ : RS485Slave)).length = vals.length ∧
      (∀ k, k < vals.length →
        (vals.map fun v => (⟨v % 256, 0, []⟩ : RS485Slave))[k]?
          = some ⟨vals.getD k 0 % 256, 0, []⟩) ∧
      (∀ k, k < vals.length → vals.getD k 0 < 256 →
        (vals.map fun v => (⟨v % 256, 0, []⟩ : RS485Slave))[k]? = some ⟨vals.getD k 0, 0, []⟩ ∧
          1 ≤ vals.getD k 0 ∧ vals.getD k 0 ≤ 255) ∧
      (∀ (width fuel : Nat) (x : Extension) (result : Int × Extension),
        x.initialized = false →
        red_rs485_extension_init width fuel env x = some result →
        result.2.initialized = true →
        result.2.engine.slaves.map (fun slave => (slave.address, slave.sequence))
          = vals.map fun v => (v % 256, 0)) := by
  have hloop := read_slave_addresses_values env vals RS485_EXTENSION_MAX_SLAVES
    RS485_EXTENSION_EEPROM_CONFIG_LOCATION_SLAVE_ADDRESSES_START [] hnz hlen hread hend
  rw [List.nil_append] at hloop
  have hget : ∀ k, k < vals.length →
      (vals.map fun v => (⟨v % 256, 0, []⟩ : RS485Slave))[k]?
        = some ⟨vals.getD k 0 % 256, 0, []⟩ := by
    intro k hk
    rw [List.getElem?_map, List.getD_eq_getElem?_getD, List.getElem?_eq_getElem hk]
    rfl
  refine ⟨hloop, List.length_map _ _, hget, ?_, ?_⟩
  · intro k hk hlt
    have hpos : vals.getD k 0 ≠ 0 := by
      apply hnz
      rw [List.getD_eq_getElem?_getD, List.getElem?_eq_getElem hk]
      exact List.getElem_mem hk
    refine ⟨?_, by omega, by omega⟩
    rw [hget k hk, Nat.mod_eq_of_lt hlt]
  · intro width fuel x result hx hr hinit
    rcases red_rs485_extension_init_cases width fuel env x with
      ⟨hnone, _⟩ |
      ⟨abuf, bbuf, pbuf, sbuf, timeout, _, _, _, _, _, _, _, _, heq⟩ |
      ⟨result2, hr2, _, hn, _⟩ | ⟨result2, hr2, _, hn, _⟩
    · rw [hnone] at hr
      cases hr
    · rw [heq] at hr
      cases hpoll : master_poll_slave fuel (configured env x abuf bbuf pbuf sbuf timeout
          (read_slave_addresses env RS485_EXTENSION_MAX_SLAVES
            RS485_EXTENSION_EEPROM_CONFIG_LOCATION_SLAVE_ADDRESSES_START []).2).engine with
      | none =>
        rw [hpoll] at hr
        cases hr
      | some e =>
        rw [hpoll] at hr
        simp only [Option.map_some', Option.some.injEq] at hr
        subst hr
        have hseq := master_poll_slave_sequences fuel _ e hpoll
        show e.slaves.map _ = _
        rw [hseq]
        show (read_slave_addresses env RS485_EXTENSION_MAX_SLAVES
          RS485_EXTENSION_EEPROM_CONFIG_LOCATION_SLAVE_ADDRESSES_START []).2.map _ = _
        rw [hloop, List.map_map]
        rfl
    · rw [hr2] at hr
      cases hr
      rw [hn.1, hx] at hinit
      cases hinit
    · rw [hr2] at hr
      cases hr
      rw [hn.1, hx] at hinit
      cases hinit

/-- Witness of C24 as amended: the store holds the slave addresses 17 and 5. -/
theorem slave_table_witness :
    read_slave_addresses (example_environment 115200 111 [17, 5]) RS485_EXTENSION_MAX_SLAVES
        RS485_EXTENSION_EEPROM_CONFIG_LOCATION_SLAVE_ADDRESSES_START []
      = (true, [17, 5].map fun v => ⟨v % 256, 0, []⟩) :=
  (slave_table (example_environment 115200 111 [17, 5]) [17, 5] (by decide) (by decide)
    (by
      intro k hk
      rcases k with _ | _ | k
      · exact ⟨le_bytes 17, rfl, by decide⟩
      · exact ⟨le_bytes 5, rfl, by decide⟩
      · exact absurd hk (by simp))
    (fun _ => ⟨le_bytes 0, rfl, by decide⟩)).1

/-- Counterexample to C24: the first value in the store is 256, the second 17.
Two records are built, and the first holds the address 0, which is not the
configured value and not in `1 .. 255`. -/
theorem slave_address_counterexample :
    (example_environment 115200 111 [256, 17]).i2c_eeprom_read
        RS485_EXTENSION_EEPROM_CONFIG_LOCATION_SLAVE_ADDRESSES_START 4 = some (le_bytes 256) ∧
      u32_of_buffer (le_bytes 256) = 256 ∧
      read_slave_addresses (example_environment 115200 111 [256, 17]) RS485_EXTENSION_MAX_SLAVES
          RS485_EXTENSION_EEPROM_CONFIG_LOCATION_SLAVE_ADDRESSES_START []
        = (true, [⟨0, 0, []⟩, ⟨17, 0, []⟩]) ∧
      ((read_slave_addresses (example_environment 115200 111 [256, 17])
          RS485_EXTENSION_MAX_SLAVES
          RS485_EXTENSION_EEPROM_CONFIG_LOCATION_SLAVE_ADDRESSES_START []).2.map
        fun slave => slave.address) = [0, 17] := by
  decide

/-- Without `_initialized`, `red_rs485_extension_exit` does nothing. -/
theorem red_rs485_extension_exit_uninitialized (x : Extension) (h : x.initialized = false) :
    red_rs485_extension_exit x = x := by
  unfold red_rs485_extension_exit
  rw [if_pos h]

/-- Shutdown leaves `_initialized` as it was. -/
theorem red_rs485_extension_exit_initialized (x : Extension) :
    (red_rs485_extension_exit x).initialized = x.initialized := by
  unfold red_rs485_extension_exit
  split <;> rfl

/-- C25 on the code: `red_rs485_extension_exit` does not clear `_initialized`, so a
second call on an initialised master with two slaves makes the eight teardown
calls of the first call once more. -/
theorem exit_twice_divergence :
    (red_rs485_extension_exit example_extension).initialized = true ∧
      (red_rs485_extension_exit example_extension).teardown =
        [Teardown.event_remove_source_serial_fd, Teardown.event_remove_source_master_timer_event,
          Teardown.hardware_remove_stack, Teardown.stack_destroy,
          Teardown.close_serial_fd, Teardown.close_master_timer_event,
          Teardown.queue_destroy 0, Teardown.queue_destroy 1] ∧
      (red_rs485_extension_exit (red_rs485_extension_exit example_extension)).teardown =
        (red_rs485_extension_exit example_extension).teardown ++
          [Teardown.event_remove_source_serial_fd, Teardown.event_remove_source_master_timer_event,
            Teardown.hardware_remove_stack, Teardown.stack_destroy,
            Teardown.close_serial_fd, Teardown.close_master_timer_event,
            Teardown.queue_destroy 0, Teardown.queue_destroy 1] ∧
      (red_rs485_extension_exit (red_rs485_extension_exit example_extension)).teardown
        ≠ (red_rs485_extension_exit example_extension).teardown := by
  decide

/-! ## Claims on the length of delivered packets, the timer value and the depth of the parser -/

set_option maxRecDepth 100000 in
/-- The reply with length byte 81 passes the checks of address, function code,
sequence and CRC16. -/
theorem example_long_reply_checks :
    reply_checks_pass
      (example_engine [empty_packet] example_poll_frame example_long_reply false false)
      ((example_engine [empty_packet] example_poll_frame example_long_reply
        false false).receive_buffer 7 + 4) = true := by
  decide

/-- C31 on the code: the data-reply branch of `verify_buffer` has no check of the
length byte. A reply of slave 17 with length byte 81, valid address, function
code, sequence and CRC16 is in the class of data replies and passes the four
checks, so that `verify_buffer` copies 81 bytes into the 80 bytes of
`dispatch_packet`: the copy writes past the object and no depth or fuel gives a
result. A reply with length byte 6 is handed to the host as a packet whose
length field is 6. -/
theorem unchecked_length_divergence :
    (example_engine [empty_packet] example_poll_frame example_long_reply
        false false).receive_buffer 7 = 81 ∧
      example_long_reply.length = 81 + 5 ∧
      reply_checks_pass
        (example_engine [empty_packet] example_poll_frame example_long_reply false false)
        (81 + 4) = true ∧
      memcpy_packet
        (fun k => (example_engine [empty_packet] example_poll_frame example_long_reply
          false false).receive_buffer (3 + k)) 81 = none ∧
      (∀ depth fuel, verify_buffer depth fuel
        (example_engine [empty_packet] example_poll_frame example_long_reply false false)
          = none) ∧
      (example_engine [empty_packet] example_poll_frame example_short_reply
        false false).receive_buffer 7 = 6 ∧
      (∃ t, verify_buffer 1 1
          (example_engine [empty_packet] example_poll_frame example_short_reply false false)
          = some t ∧
        t.dispatched = [[190, 186, 254, 202, 6, 1] ++ List.replicate 74 0] ∧
        header_length ([190, 186, 254, 202, 6, 1] ++ List.replicate 74 0) = 6 ∧
        t.recipients = [(0xCAFEBABE, 17)]) := by
  have hshort := verify_buffer_data_reply 0 1
    (example_engine [empty_packet] example_poll_frame example_short_reply false false)
    ⟨17, 0, [empty_packet]⟩ empty_packet [] (by decide) rfl (by decide) (by decide) rfl
    (by decide) (by decide) (by decide)
  rw [send_packet_ok 0 _ ⟨17, 0, [empty_packet]⟩ empty_packet [] (by decide) rfl (by decide)
    (by decide)] at hshort
  exact ⟨by decide, by decide, example_long_reply_checks, by decide,
    fun depth fuel => verify_buffer_data_reply_overrun depth fuel _ (by decide) (by decide) rfl
      (by decide) example_long_reply_checks (by decide),
    by decide, ⟨_, hshort, by decide, by decide, by decide⟩⟩

/-- The timeout is below one second exactly for the baud rates from 1392 on. -/
theorem TIMEOUT_below_second (B : Nat) (hB : 8 ≤ B) :
    172000000000 / (B / 8) + 8000000 < 1000000000 ↔ 1392 ≤ B := by
  have hq : 0 < B / 8 := by omega
  have h : 172000000000 / (B / 8) < 992000000 ↔ 172000000000 < 992000000 * (B / 8) :=
    Nat.div_lt_iff_lt_mul hq
  constructor
  · intro hlt
    have := h.1 (by omega)
    omega
  · intro h1392
    have := h.2 (by omega)
    omega

/-- C32 on the code: 1200 baud is accepted (it is not below 8) and gives a timeout
of 1,154,666,666 ns, which is not below 1,000,000,000. Initialisation completes
with this value, and `send_packet` passes it on as `tv_nsec` with `tv_sec = 0`
when it arms the timer for the first poll. -/
theorem timeout_above_second_divergence :
    8 ≤ 1200 ∧ TIMEOUT_of_baudrate 32 1200 = some 1154666666 ∧
      ¬ 1154666666 < 1000000000 ∧
      ∃ result, red_rs485_extension_init 32 2 (example_environment 1200 111 [17, 5])
          initial_extension = some result ∧
        result.1 = 0 ∧ result.2.initialized = true ∧
        result.2.engine.TIMEOUT = 1154666666 ∧
        result.2.engine.master_timer_value_nsec = 1154666666 ∧
        result.2.engine.written = [example_poll_frame] := by
  have hT : TIMEOUT_of_baudrate 32 1200 = some 1154666666 := by
    rw [TIMEOUT_of_baudrate_eq]
    decide
  have hrun := red_rs485_extension_init_started 32 2 (example_environment 1200 111 [17, 5])
    initial_extension (le_bytes 0) (le_bytes 1200) [111] [1] 1154666666
    (example_environment_cooperates 1200 111 [17, 5]) rfl (by decide) rfl (by decide)
    hT rfl rfl (by decide)
  have hpoll := master_poll_slave_ok 0
    (configured (example_environment 1200 111 [17, 5]) initial_extension (le_bytes 0)
      (le_bytes 1200) [111] [1] 1154666666
      (read_slave_addresses (example_environment 1200 111 [17, 5]) RS485_EXTENSION_MAX_SLAVES
        RS485_EXTENSION_EEPROM_CONFIG_LOCATION_SLAVE_ADDRESSES_START []).2).engine
    ⟨17, 0, []⟩ (by decide) (by intro p hpm; cases hpm) (by decide)
  rw [hpoll] at hrun
  exact ⟨by decide, hT, by decide, _, hrun, rfl, rfl, rfl, rfl, by decide⟩

/-- The sequences after the scheduler ran on `exchange_done`: that of the
current slave is one more modulo 256, the others are as before. -/
theorem sequences_exchange_done (fuel : Nat) (s t : Engine) (slave : RS485Slave)
    (h : master_poll_slave fuel (exchange_done s slave) = some t) :
    sequences t =
      (sequences s).set s.master_current_slave_to_process.toNat
        ((slave.sequence + 1) % 256) := by
  have hseq := congrArg (List.map Prod.snd) (master_poll_slave_sequences fuel _ t h)
  simp only [List.map_map] at hseq
  show t.slaves.map (fun slave => slave.sequence) = _
  have e : (Prod.snd ∘ fun (slave : RS485Slave) => (slave.address, slave.sequence))
      = fun slave => slave.sequence := rfl
  rw [e] at hseq
  rw [hseq]
  show (s.slaves.set _ _).map _ = _
  rw [List.map_set]
  rfl

/-- The sequences after the scheduler ran on `exchange_failed`, by what the
saved request holds. -/
theorem sequences_exchange_failed (fuel : Nat) (s t : Engine) (slave : RS485Slave)
    (hs : s.current_slave = some slave)
    (h : master_poll_slave fuel (exchange_failed s slave) = some t) :
    ((uid_of_bytes (s.current_request_as_byte_array 3) (s.current_request_as_byte_array 4)
          (s.current_request_as_byte_array 5) (s.current_request_as_byte_array 6) = 0 ∧
        s.current_request_as_byte_array 7 = 8 ∧ s.current_request_as_byte_array 8 = 0) →
      sequences t =
        (sequences s).set s.master_current_slave_to_process.toNat
          ((slave.sequence + 1) % 256)) ∧
    (¬ (uid_of_bytes (s.current_request_as_byte_array 3) (s.current_request_as_byte_array 4)
          (s.current_request_as_byte_array 5) (s.current_request_as_byte_array 6) = 0 ∧
        s.current_request_as_byte_array 7 = 8 ∧ s.current_request_as_byte_array 8 = 0) →
      sequences t = sequences s) := by
  have hseq := congrArg (List.map Prod.snd) (master_poll_slave_sequences fuel _ t h)
  simp only [List.map_map] at hseq
  have e : (Prod.snd ∘ fun (slave : RS485Slave) => (slave.address, slave.sequence))
      = fun slave => slave.sequence := rfl
  rw [e] at hseq
  have hget := ((current_slave_eq_some s slave).1 hs).2
  constructor
  · intro hempty
    have he : is_current_request_empty s = true := by
      simp only [is_current_request_empty]
      exact decide_eq_true hempty
    show t.slaves.map (fun slave => slave.sequence) = _
    rw [hseq]
    show (s.slaves.set _ _).map _ = _
    rw [List.map_set, he, if_pos rfl]
    rfl
  · intro hdata
    have he : is_current_request_empty s = false := by
      simp only [is_current_request_empty]
      exact decide_eq_false hdata
    show t.slaves.map (fun slave => slave.sequence) = s.slaves.map (fun slave => slave.sequence)
    rw [hseq]
    show (s.slaves.set _ _).map _ = _
    rw [List.map_set, he, if_neg (by simp)]
    apply list_set_same
    rw [List.getElem?_map]
    show Option.map _ s.slaves[s.master_current_slave_to_process.toNat]? = _
    rw [hget]
    rfl

/-- What `is_current_request_empty` finds after a packet of at least 8 bytes was
sent: the UID, the length and the function id of the packet. -/
theorem is_current_request_empty_sent (s : Engine) (slave : RS485Slave)
    (p : RS485ExtensionPacket) (h8 : 8 ≤ header_length p.packet) :
    is_current_request_empty (sent_state s slave p) =
      decide (header_uid p.packet = 0 ∧ header_length p.packet = 8 ∧ p.packet.getD 5 0 = 0) := by
  have hlen := rs485_packet_length slave p
  have hb : ∀ k, k < 6 →
      (sent_state s slave p).current_request_as_byte_array (3 + k) = p.packet.getD k 0 := by
    intro k hk
    show (if 3 + k < (rs485_packet slave p).length then (rs485_packet slave p).getD (3 + k) 0
      else s.current_request_as_byte_array (3 + k)) = _
    rw [if_pos (by omega), rs485_packet_getD_body slave p k (by omega)]
  have h3 := hb 0 (by omega)
  have h4 := hb 1 (by omega)
  have h5 := hb 2 (by omega)
  have h6 := hb 3 (by omega)
  have h7 := hb 4 (by omega)
  have h8' := hb 5 (by omega)
  simp only [is_current_request_empty]
  simp only [Nat.reduceAdd] at h3 h4 h5 h6 h7 h8'
  rw [h3, h4, h5, h6, h7, h8']
  rfl

/-- C6, sequence monotonicity: let `slave` be the current slave. When an exchange
succeeds (the echo of the own ACK is verified, or a valid empty reply arrives)
the state that `verify_buffer` returns has the sequence of `slave` increased by
1 modulo 256 and every other sequence as before. When an exchange fails (echo
mismatch, invalid reply, expired deadline) the state returned has the sequence
of `slave` increased by 1 modulo 256 if the saved request is an empty poll
(UID 0, length byte 8, byte 8 zero), and every sequence as before if the saved
request holds a data frame. With a successful `write` and queued packets that
fit, each of these steps returns a state. After a packet of at least 8 bytes
was sent the saved request is an empty poll exactly when the packet has UID 0,
length 8 and function id 0, as the poll and the ACK have. -/
theorem sequence_monotonicity (depth fuel : Nat) (s : Engine) (slave : RS485Slave)
    (hs : s.current_slave = some slave) :
    (8 ≤ s.current_receive_buffer_index →
        s.receive_buffer 7 + 4 < s.current_receive_buffer_index →
        s.send_verify_flag = true →
        send_verify_loop s.receive_buffer s.current_request_as_byte_array
          (s.receive_buffer 7 + 4 + 1) 0 = some true →
        s.sent_ack_of_data_packet = true →
        ∀ t, verify_buffer (depth + 1) fuel s = some t →
          sequences t =
            (sequences s).set s.master_current_slave_to_process.toNat
              ((slave.sequence + 1) % 256)) ∧
      (8 ≤ s.current_receive_buffer_index →
        s.receive_buffer 7 + 4 < s.current_receive_buffer_index →
        s.send_verify_flag = false →
        (uid_of_bytes (s.receive_buffer 3) (s.receive_buffer 4) (s.receive_buffer 5)
          (s.receive_buffer 6) = 0 ∧ s.receive_buffer 7 = 8 ∧ s.receive_buffer 8 = 0) →
        reply_checks_pass s (s.receive_buffer 7 + 4) = true →
        ∀ t, verify_buffer (depth + 1) fuel s = some t →
          sequences t =
            (sequences s).set s.master_current_slave_to_process.toNat
              ((slave.sequence + 1) % 256)) ∧
      (∀ t,
        ((8 ≤ s.current_receive_buffer_index ∧
            s.receive_buffer 7 + 4 < s.current_receive_buffer_index ∧
            s.send_verify_flag = true ∧
            send_verify_loop s.receive_buffer s.current_request_as_byte_array
              (s.receive_buffer 7 + 4 + 1) 0 = some false ∧
            verify_buffer (depth + 1) fuel s = some t) ∨
          (8 ≤ s.current_receive_buffer_index ∧
            s.receive_buffer 7 + 4 < s.current_receive_buffer_index ∧
            s.send_verify_flag = false ∧
            (reply_checks_pass s (s.receive_buffer 7 + 4) = false ∨
              (¬ (uid_of_bytes (s.receive_buffer 3) (s.receive_buffer 4) (s.receive_buffer 5)
                  (s.receive_buffer 6) = 0 ∧ s.receive_buffer 7 = 8 ∧
                  s.receive_buffer 8 = 0) ∧
               ¬ (uid_of_bytes (s.receive_buffer 3) (s.receive_buffer 4) (s.receive_buffer 5)
                  (s.receive_buffer 6) ≠ 0 ∧ s.receive_buffer 8 ≠ 0))) ∧
            verify_buffer (depth + 1) fuel s = some t) ∨
          (s.TIMEOUT ≤ time_passed_from_last_timer_enable s ∧
            master_timeout_handler fuel s = some t)) →
        ((uid_of_bytes (s.current_request_as_byte_array 3) (s.current_request_as_byte_array 4)
              (s.current_request_as_byte_array 5) (s.current_request_as_byte_array 6) = 0 ∧
            s.current_request_as_byte_array 7 = 8 ∧ s.current_request_as_byte_array 8 = 0) →
          sequences t =
            (sequences s).set s.master_current_slave_to_process.toNat
              ((slave.sequence + 1) % 256)) ∧
        (¬ (uid_of_bytes (s.current_request_as_byte_array 3)
              (s.current_request_as_byte_array 4) (s.current_request_as_byte_array 5)
              (s.current_request_as_byte_array 6) = 0 ∧
            s.current_request_as_byte_array 7 = 8 ∧ s.current_request_as_byte_array 8 = 0) →
          sequences t = sequences s)) ∧
      (0 < s.write_result s.written.length → queues_fit s →
        (8 ≤ s.current_receive_buffer_index →
          s.receive_buffer 7 + 4 < s.current_receive_buffer_index →
          s.send_verify_flag = true →
          (send_verify_loop s.receive_buffer s.current_request_as_byte_array
              (s.receive_buffer 7 + 4 + 1) 0 = some false ∨
            (send_verify_loop s.receive_buffer s.current_request_as_byte_array
              (s.receive_buffer 7 + 4 + 1) 0 = some true ∧
              s.sent_ack_of_data_packet = true)) →
          ∃ t, verify_buffer (depth + 1) (fuel + 2) s = some t) ∧
        (8 ≤ s.current_receive_buffer_index →
          s.receive_buffer 7 + 4 < s.current_receive_buffer_index →
          s.send_verify_flag = false →
          ¬ (uid_of_bytes (s.receive_buffer 3) (s.receive_buffer 4) (s.receive_buffer 5)
              (s.receive_buffer 6) ≠ 0 ∧ s.receive_buffer 8 ≠ 0 ∧
              reply_checks_pass s (s.receive_buffer 7 + 4) = true) →
          ∃ t, verify_buffer (depth + 1) (fuel + 2) s = some t) ∧
        (s.TIMEOUT ≤ time_passed_from_last_timer_enable s →
          ∃ t, master_timeout_handler (fuel + 2) s = some t)) ∧
      (∀ (e : Engine) (current : RS485Slave) (p : RS485ExtensionPacket),
        8 ≤ header_length p.packet →
        ((uid_of_bytes ((sent_state e current p).current_request_as_byte_array 3)
              ((sent_state e current p).current_request_as_byte_array 4)
              ((sent_state e current p).current_request_as_byte_array 5)
              ((sent_state e current p).current_request_as_byte_array 6) = 0 ∧
            (sent_state e current p).current_request_as_byte_array 7 = 8 ∧
            (sent_state e current p).current_request_as_byte_array 8 = 0) ↔
          (header_uid p.packet = 0 ∧ header_length p.packet = 8 ∧ p.packet.getD 5 0 = 0))) := by
  have hdone : ∀ f t, master_poll_slave f (exchange_done s slave) = some t →
      sequences t =
        (sequences s).set s.master_current_slave_to_process.toNat
          ((slave.sequence + 1) % 256) :=
    fun f t h => sequences_exchange_done f s t slave h
  refine ⟨?_, ?_, ?_, ?_, ?_⟩
  · intro h8 hc hv hl hack t ht
    rw [verify_buffer_echo_ack depth fuel s slave hs h8 hc hv hl hack] at ht
    exact hdone fuel t ht
  · intro h8 hc hv hclass hchecks t ht
    rw [verify_buffer_empty_reply depth fuel s slave hs h8 hc hv hclass hchecks] at ht
    exact hdone fuel t ht
  · intro t hfail
    apply sequences_exchange_failed fuel s t slave hs
    rcases hfail with ⟨h8, hc, hv, hl, ht⟩ | ⟨h8, hc, hv, hbad, ht⟩ | ⟨hexp, ht⟩
    · rw [verify_buffer_echo_mismatch depth fuel s slave hs h8 hc hv hl] at ht
      exact ht
    · rw [verify_buffer_reply_rejected depth fuel s slave hs h8 hc hv hbad] at ht
      exact ht
    · rw [master_timeout_handler_expired fuel s slave hs hexp] at ht
      exact ht
  · intro hw hfit
    obtain ⟨t1, h1, _⟩ := master_poll_slave_exchange_done fuel s slave hs hw hfit
    obtain ⟨t2, h2, _⟩ := master_poll_slave_exchange_failed fuel s slave hs hw hfit
    refine ⟨?_, ?_, ?_⟩
    · intro h8 hc hv hl
      rcases hl with hl | ⟨hl, hack⟩
      · exact ⟨t2, by
          rw [verify_buffer_echo_mismatch depth (fuel + 2) s slave hs h8 hc hv hl]
          exact h2⟩
      · exact ⟨t1, by
          rw [verify_buffer_echo_ack depth (fuel + 2) s slave hs h8 hc hv hl hack]
          exact h1⟩
    · intro h8 hc hv hnd
      by_cases hchecks : reply_checks_pass s (s.receive_buffer 7 + 4) = true
      · by_cases hclass : uid_of_bytes (s.receive_buffer 3) (s.receive_buffer 4)
            (s.receive_buffer 5) (s.receive_buffer 6) = 0 ∧ s.receive_buffer 7 = 8 ∧
            s.receive_buffer 8 = 0
        · exact ⟨t1, by
            rw [verify_buffer_empty_reply depth (fuel + 2) s slave hs h8 hc hv hclass hchecks]
            exact h1⟩
        · exact ⟨t2, by
            rw [verify_buffer_reply_rejected depth (fuel + 2) s slave hs h8 hc hv
              (Or.inr ⟨hclass, fun hd => hnd ⟨hd.1, hd.2, hchecks⟩⟩)]
            exact h2⟩
      · exact ⟨t2, by
          rw [verify_buffer_reply_rejected depth (fuel + 2) s slave hs h8 hc hv
            (Or.inl (by simpa using hchecks))]
          exact h2⟩
    · intro hexp
      exact ⟨t2, by
        rw [master_timeout_handler_expired (fuel + 2) s slave hs hexp]
        exact h2⟩
  · intro e current p h8
    have h := is_current_request_empty_sent e current p h8
    simp only [is_current_request_empty] at h
    exact decide_eq_decide.1 h

/-- Witness of C6: the deadline expires while the frame of a queued request of
12 bytes with UID `0x01020304` is the saved request, and the sequences stay 0
and 7; the deadline of an empty poll expires, and the sequence of slave 17
becomes 1. -/
theorem sequence_monotonicity_witness :
    (example_engine [example_request] example_request_frame [] true false).current_slave
        = some ⟨17, 0, [example_request]⟩ ∧
      (example_engine [example_request] example_request_frame [] true false).TIMEOUT ≤
        time_passed_from_last_timer_enable
          (example_engine [example_request] example_request_frame [] true false) ∧
      (∃ t, master_timeout_handler 2
          (example_engine [example_request] example_request_frame [] true false) = some t ∧
        sequences t = [0, 7]) ∧
      (∃ t, master_timeout_handler 2
          (example_engine [empty_packet] example_poll_frame [] true false) = some t ∧
        sequences t = [1, 7]) :=
  ⟨by decide, by decide,
    match (sequence_monotonicity 0 0
      (example_engine [example_request] example_request_frame [] true false)
      ⟨17, 0, [example_request]⟩ (by decide)).2.2.2.1 (by decide)
      (by unfold queues_fit; decide) with
    | ⟨_, _, hret⟩ =>
      match hret (by decide) with
      | ⟨t, ht⟩ =>
        ⟨t, ht,
          (((sequence_monotonicity 0 2
            (example_engine [example_request] example_request_frame [] true false)
            ⟨17, 0, [example_request]⟩ (by decide)).2.2.1 t
              (Or.inr (Or.inr ⟨by decide, ht⟩))).2 (by decide)).trans (by decide)⟩,
    match (sequence_monotonicity 0 0
      (example_engine [empty_packet] example_poll_frame [] true false)
      ⟨17, 0, [empty_packet]⟩ (by decide)).2.2.2.1 (by decide)
      (by unfold queues_fit; decide) with
    | ⟨_, _, hret⟩ =>
      match hret (by decide) with
      | ⟨t, ht⟩ =>
        ⟨t, ht,
          (((sequence_monotonicity 0 2
            (example_engine [empty_packet] example_poll_frame [] true false)
            ⟨17, 0, [empty_packet]⟩ (by decide)).2.2.1 t
              (Or.inr (Or.inr ⟨by decide, ht⟩))).1 (by decide)).trans (by decide)⟩⟩

/-! ## Claims on the space check of the receive handler -/

/-- A baud rate below 8 in the store, the steps before its check succeeding:
the three steps are undone and the result is 0. -/
theorem red_rs485_extension_init_low_baudrate (width fuel : Nat) (env : Environment)
    (x : Extension) (abuf bbuf : List Nat)
    (h1 : 0 ≤ env.i2c_eeprom_init) (h2 : 0 ≤ env.stack_create)
    (h3 : 0 ≤ env.hardware_add_stack)
    (ha : env.i2c_eeprom_read RS485_EXTENSION_EEPROM_CONFIG_LOCATION_ADDRESS 4 = some abuf)
    (hb : env.i2c_eeprom_read RS485_EXTENSION_EEPROM_CONFIG_LOCATION_BAUDRATE 4 = some bbuf)
    (hlow : u32_of_buffer bbuf < 8) :
    red_rs485_extension_init width fuel env x = some (0,
      { x with
        red_rs485_eeprom_config_address := u32_of_buffer abuf
        red_rs485_eeprom_config_baudrate := u32_of_buffer bbuf
        teardown := x.teardown ++
          [Teardown.hardware_remove_stack, Teardown.stack_destroy,
            Teardown.i2c_eeprom_release] }) := by
  unfold red_rs485_extension_init
  rw [if_neg (by omega), if_neg (by omega), if_neg (by omega)]
  simp only [ha, hb]
  rw [if_pos hlow]
  rfl

/-- An own address other than 0 in the store, the steps before its check
succeeding: the three steps are undone and the result is 0. -/
theorem red_rs485_extension_init_own_address (width fuel : Nat) (env : Environment)
    (x : Extension) (abuf bbuf pbuf sbuf : List Nat) (timeout : Nat)
    (h1 : 0 ≤ env.i2c_eeprom_init) (h2 : 0 ≤ env.stack_create)
    (h3 : 0 ≤ env.hardware_add_stack)
    (ha : env.i2c_eeprom_read RS485_EXTENSION_EEPROM_CONFIG_LOCATION_ADDRESS 4 = some abuf)
    (hb : env.i2c_eeprom_read RS485_EXTENSION_EEPROM_CONFIG_LOCATION_BAUDRATE 4 = some bbuf)
    (hb8 : 8 ≤ u32_of_buffer bbuf)
    (hT : TIMEOUT_of_baudrate width (u32_of_buffer bbuf) = some timeout)
    (hp : env.i2c_eeprom_read RS485_EXTENSION_EEPROM_CONFIG_LOCATION_PARTIY 1 = some pbuf)
    (hsb : env.i2c_eeprom_read RS485_EXTENSION_EEPROM_CONFIG_LOCATION_STOPBITS 1 = some sbuf)
    (hown : u32_of_buffer abuf ≠ 0) :
    red_rs485_extension_init width fuel env x = some (0,
      { x with
        engine := { x.engine with TIMEOUT := timeout }
        red_rs485_eeprom_config_address := u32_of_buffer abuf
        red_rs485_eeprom_config_baudrate := u32_of_buffer bbuf
        red_rs485_eeprom_config_parity :=
          if pbuf.getD 0 0 = RS485_EXTENSION_SERIAL_PARITY_NONE then
            RS485_EXTENSION_SERIAL_PARITY_NONE
          else if pbuf.getD 0 0 = RS485_EXTENSION_SERIAL_PARITY_EVEN then
            RS485_EXTENSION_SERIAL_PARITY_EVEN
          else RS485_EXTENSION_SERIAL_PARITY_ODD
        red_rs485_eeprom_config_stopbits := sbuf.getD 0 0
        teardown := x.teardown ++
          [Teardown.hardware_remove_stack, Teardown.stack_destroy,
            Teardown.i2c_eeprom_release] }) := by
  unfold red_rs485_extension_init
  rw [if_neg (by omega), if_neg (by omega), if_neg (by omega)]
  simp only [ha, hb]
  rw [if_neg (by omega)]
  simp only [hT, hp, hsb]
  rw [if_neg hown]
  rfl

/-- No slave address in the store, own address 0 and every step before the
check of the number of slaves succeeding: all that was set up is undone and
the result is 0. -/
theorem red_rs485_extension_init_no_slave (width fuel : Nat) (env : Environment)
    (x : Extension) (abuf bbuf pbuf sbuf buf : List Nat) (timeout : Nat)
    (h1 : 0 ≤ env.i2c_eeprom_init) (h2 : 0 ≤ env.stack_create)
    (h3 : 0 ≤ env.hardware_add_stack)
    (ha : env.i2c_eeprom_read RS485_EXTENSION_EEPROM_CONFIG_LOCATION_ADDRESS 4 = some abuf)
    (ha0 : u32_of_buffer abuf = 0)
    (hb : env.i2c_eeprom_read RS485_EXTENSION_EEPROM_CONFIG_LOCATION_BAUDRATE 4 = some bbuf)
    (hb8 : 8 ≤ u32_of_buffer bbuf)
    (hT : TIMEOUT_of_baudrate width (u32_of_buffer bbuf) = some timeout)
    (hp : env.i2c_eeprom_read RS485_EXTENSION_EEPROM_CONFIG_LOCATION_PARTIY 1 = some pbuf)
    (hsb : env.i2c_eeprom_read RS485_EXTENSION_EEPROM_CONFIG_LOCATION_STOPBITS 1 = some sbuf)
    (hstop : sbuf.getD 0 0 = 1 ∨ sbuf.getD 0 0 = 2)
    (hslave : env.i2c_eeprom_read RS485_EXTENSION_EEPROM_CONFIG_LOCATION_SLAVE_ADDRESSES_START 4
      = some buf)
    (hnone : u32_of_buffer buf = 0)
    (h4 : 0 ≤ env.open_serial) (h5 : 0 ≤ env.ioctl_TIOCGSERIAL)
    (h6 : 0 ≤ env.ioctl_TIOCSSERIAL) (h7 : 0 ≤ env.event_add_source_serial)
    (h8 : 0 ≤ env.timerfd_create) (h9 : 0 ≤ env.event_add_source_timer) :
    red_rs485_extension_init width fuel env x = some (0,
      { configured env x abuf bbuf pbuf sbuf timeout [] with
        teardown := x.teardown ++
          [Teardown.i2c_eeprom_release,
            Teardown.close_master_timer_event, Teardown.event_remove_source_master_timer_event,
            Teardown.close_serial_fd, Teardown.event_remove_source_serial_fd,
            Teardown.hardware_remove_stack, Teardown.stack_destroy,
            Teardown.i2c_eeprom_release] }) := by
  have hloop := read_slave_addresses_none env buf hslave hnone
  unfold red_rs485_extension_init
  rw [if_neg (by omega), if_neg (by omega), if_neg (by omega)]
  simp only [ha, hb]
  rw [if_neg (by omega)]
  simp only [hT, hp, hsb]
  rw [if_pos ha0]
  simp only [hloop]
  have hsii : ∀ y : Extension, y.red_rs485_eeprom_config_stopbits = sbuf.getD 0 0 →
      (y.red_rs485_eeprom_config_parity = RS485_EXTENSION_SERIAL_PARITY_NONE ∨
        y.red_rs485_eeprom_config_parity = RS485_EXTENSION_SERIAL_PARITY_EVEN ∨
        y.red_rs485_eeprom_config_parity = RS485_EXTENSION_SERIAL_PARITY_ODD) →
      serial_interface_init env y = (0, { y with red_rs485_serial_fd := env.open_serial }) := by
    intro y hy hpar
    unfold serial_interface_init
    rw [if_neg (by omega), if_neg (by rw [hy]; omega), if_neg (by tauto), if_neg (by omega),
      if_neg (by omega)]
  have hpar : ∀ v : Nat,
      (if v = RS485_EXTENSION_SERIAL_PARITY_NONE then RS485_EXTENSION_SERIAL_PARITY_NONE
        else if v = RS485_EXTENSION_SERIAL_PARITY_EVEN then RS485_EXTENSION_SERIAL_PARITY_EVEN
        else RS485_EXTENSION_SERIAL_PARITY_ODD) = RS485_EXTENSION_SERIAL_PARITY_NONE ∨
      (if v = RS485_EXTENSION_SERIAL_PARITY_NONE then RS485_EXTENSION_SERIAL_PARITY_NONE
        else if v = RS485_EXTENSION_SERIAL_PARITY_EVEN then RS485_EXTENSION_SERIAL_PARITY_EVEN
        else RS485_EXTENSION_SERIAL_PARITY_ODD) = RS485_EXTENSION_SERIAL_PARITY_EVEN ∨
      (if v = RS485_EXTENSION_SERIAL_PARITY_NONE then RS485_EXTENSION_SERIAL_PARITY_NONE
        else if v = RS485_EXTENSION_SERIAL_PARITY_EVEN then RS485_EXTENSION_SERIAL_PARITY_EVEN
        else RS485_EXTENSION_SERIAL_PARITY_ODD) = RS485_EXTENSION_SERIAL_PARITY_ODD := by
    intro v
    by_cases c1 : v = RS485_EXTENSION_SERIAL_PARITY_NONE
    · rw [if_pos c1]
      exact Or.inl rfl
    · rw [if_neg c1]
      by_cases c2 : v = RS485_EXTENSION_SERIAL_PARITY_EVEN
      · rw [if_pos c2]
        exact Or.inr (Or.inl rfl)
      · rw [if_neg c2]
        exact Or.inr (Or.inr rfl)
  rw [if_neg (by simp), if_neg (by simp [Engine.slave_num])]
  rw [hsii _ rfl (hpar _)]
  simp only []
  rw [if_neg (by decide), if_neg (by omega), if_neg (by omega), if_neg (by omega),
    if_neg (by simp [Engine.slave_num])]
  simp only [cleanup, cleanup_switch, configured, ha0, Engine.slave_num]
  simp

/-- C22 as amended, configuration errors: when the baud rate is below 8, or the
own address is not zero, or no slave address is configured, and the steps
before the check in question succeed, `red_rs485_extension_init` undoes what it
had set up (`hardware_remove_stack`, `stack_destroy` and `i2c_eeprom_release`,
and before them, for a master without slaves, the release of the bus and the
closing and removal of timer and serial descriptor), leaves `_initialized` and
the engine but for timeout and slave table as they were, and returns 0, not a
negative value. Whatever the surroundings answer, with such a configuration it
returns 0 or -1 without calling `master_poll_slave`: `_initialized` and the
engine but for timeout and slave table are as before. -/
theorem configuration_errors (width fuel : Nat) (env : Environment) (x : Extension) :
    (∀ abuf bbuf : List Nat,
        0 ≤ env.i2c_eeprom_init → 0 ≤ env.stack_create → 0 ≤ env.hardware_add_stack →
        env.i2c_eeprom_read RS485_EXTENSION_EEPROM_CONFIG_LOCATION_ADDRESS 4 = some abuf →
        env.i2c_eeprom_read RS485_EXTENSION_EEPROM_CONFIG_LOCATION_BAUDRATE 4 = some bbuf →
        u32_of_buffer bbuf < 8 →
        red_rs485_extension_init width fuel env x = some (0,
          { x with
            red_rs485_eeprom_config_address := u32_of_buffer abuf
            red_rs485_eeprom_config_baudrate := u32_of_buffer bbuf
            teardown := x.teardown ++
              [Teardown.hardware_remove_stack, Teardown.stack_destroy,
                Teardown.i2c_eeprom_release] })) ∧
      (∀ (abuf bbuf pbuf sbuf : List Nat) (timeout : Nat),
        0 ≤ env.i2c_eeprom_init → 0 ≤ env.stack_create → 0 ≤ env.hardware_add_stack →
        env.i2c_eeprom_read RS485_EXTENSION_EEPROM_CONFIG_LOCATION_ADDRESS 4 = some abuf →
        env.i2c_eeprom_read RS485_EXTENSION_EEPROM_CONFIG_LOCATION_BAUDRATE 4 = some bbuf →
        8 ≤ u32_of_buffer bbuf →
        TIMEOUT_of_baudrate width (u32_of_buffer bbuf) = some timeout →
        env.i2c_eeprom_read RS485_EXTENSION_EEPROM_CONFIG_LOCATION_PARTIY 1 = some pbuf →
        env.i2c_eeprom_read RS485_EXTENSION_EEPROM_CONFIG_LOCATION_STOPBITS 1 = some sbuf →
        u32_of_buffer abuf ≠ 0 →
        red_rs485_extension_init width fuel env x = some (0,
          { x with
            engine := { x.engine with TIMEOUT := timeout }
            red_rs485_eeprom_config_address := u32_of_buffer abuf
            red_rs485_eeprom_config_baudrate := u32_of_buffer bbuf
            red_rs485_eeprom_config_parity :=
              if pbuf.getD 0 0 = RS485_EXTENSION_SERIAL_PARITY_NONE then
                RS485_EXTENSION_SERIAL_PARITY_NONE
              else if pbuf.getD 0 0 = RS485_EXTENSION_SERIAL_PARITY_EVEN then
                RS485_EXTENSION_SERIAL_PARITY_EVEN
              else RS485_EXTENSION_SERIAL_PARITY_ODD
            red_rs485_eeprom_config_stopbits := sbuf.getD 0 0
            teardown := x.teardown ++
              [Teardown.hardware_remove_stack, Teardown.stack_destroy,
                Teardown.i2c_eeprom_release] })) ∧
      (∀ (abuf bbuf pbuf sbuf buf : List Nat) (timeout : Nat),
        0 ≤ env.i2c_eeprom_init → 0 ≤ env.stack_create → 0 ≤ env.hardware_add_stack →
        env.i2c_eeprom_read RS485_EXTENSION_EEPROM_CONFIG_LOCATION_ADDRESS 4 = some abuf →
        u32_of_buffer abuf = 0 →
        env.i2c_eeprom_read RS485_EXTENSION_EEPROM_CONFIG_LOCATION_BAUDRATE 4 = some bbuf →
        8 ≤ u32_of_buffer bbuf →
        TIMEOUT_of_baudrate width (u32_of_buffer bbuf) = some timeout →
        env.i2c_eeprom_read RS485_EXTENSION_EEPROM_CONFIG_LOCATION_PARTIY 1 = some pbuf →
        env.i2c_eeprom_read RS485_EXTENSION_EEPROM_CONFIG_LOCATION_STOPBITS 1 = some sbuf →
        (sbuf.getD 0 0 = 1 ∨ sbuf.getD 0 0 = 2) →
        env.i2c_eeprom_read RS485_EXTENSION_EEPROM_CONFIG_LOCATION_SLAVE_ADDRESSES_START 4
          = some buf →
        u32_of_buffer buf = 0 →
        0 ≤ env.open_serial → 0 ≤ env.ioctl_TIOCGSERIAL → 0 ≤ env.ioctl_TIOCSSERIAL →
        0 ≤ env.event_add_source_serial → 0 ≤ env.timerfd_create →
        0 ≤ env.event_add_source_timer →
        red_rs485_extension_init width fuel env x = some (0,
          { configured env x abuf bbuf pbuf sbuf timeout [] with
            teardown := x.teardown ++
              [Teardown.i2c_eeprom_release,
                Teardown.close_master_timer_event,
                Teardown.event_remove_source_master_timer_event,
                Teardown.close_serial_fd, Teardown.event_remove_source_serial_fd,
                Teardown.hardware_remove_stack, Teardown.stack_destroy,
                Teardown.i2c_eeprom_release] })) ∧
      (((∃ bbuf,
            env.i2c_eeprom_read RS485_EXTENSION_EEPROM_CONFIG_LOCATION_BAUDRATE 4 = some bbuf ∧
            u32_of_buffer bbuf < 8) ∨
          (∃ abuf,
            env.i2c_eeprom_read RS485_EXTENSION_EEPROM_CONFIG_LOCATION_ADDRESS 4 = some abuf ∧
            u32_of_buffer abuf ≠ 0) ∨
          (∃ buf,
            env.i2c_eeprom_read RS485_EXTENSION_EEPROM_CONFIG_LOCATION_SLAVE_ADDRESSES_START 4
              = some buf ∧
            u32_of_buffer buf = 0)) →
        (∀ bbuf,
          env.i2c_eeprom_read RS485_EXTENSION_EEPROM_CONFIG_LOCATION_BAUDRATE 4 = some bbuf →
          8 ≤ u32_of_buffer bbuf → TIMEOUT_of_baudrate width (u32_of_buffer bbuf) ≠ none) →
        ∃ result, red_rs485_extension_init width fuel env x = some result ∧
          (result.1 = 0 ∨ result.1 = -1) ∧
          (env.Cooperates → result.1 = 0) ∧
          result.2.initialized = x.initialized ∧
          result.2.engine =
            { x.engine with
              TIMEOUT := result.2.engine.TIMEOUT, slaves := result.2.engine.slaves } ∧
          result.2.engine.written = x.engine.written ∧
          result.2.engine.master_current_slave_to_process
            = x.engine.master_current_slave_to_process) := by
  refine ⟨?_, ?_, ?_, ?_⟩
  · intro abuf bbuf h1 h2 h3 ha hb hlow
    exact red_rs485_extension_init_low_baudrate width fuel env x abuf bbuf h1 h2 h3 ha hb hlow
  · intro abuf bbuf pbuf sbuf timeout h1 h2 h3 ha hb hb8 hT hp hsb hown
    exact red_rs485_extension_init_own_address width fuel env x abuf bbuf pbuf sbuf timeout
      h1 h2 h3 ha hb hb8 hT hp hsb hown
  · intro abuf bbuf pbuf sbuf buf timeout h1 h2 h3 ha ha0 hb hb8 hT hp hsb hstop hslave hnone
      h4 h5 h6 h7 h8 h9
    exact red_rs485_extension_init_no_slave width fuel env x abuf bbuf pbuf sbuf buf timeout
      h1 h2 h3 ha ha0 hb hb8 hT hp hsb hstop hslave hnone h4 h5 h6 h7 h8 h9
  · intro herr hfit
    have hns : ∀ result, not_started x result →
        result.2.initialized = x.initialized ∧
        result.2.engine =
          { x.engine with
            TIMEOUT := result.2.engine.TIMEOUT, slaves := result.2.engine.slaves } ∧
        result.2.engine.written = x.engine.written ∧
        result.2.engine.master_current_slave_to_process
          = x.engine.master_current_slave_to_process := by
      intro result h
      refine ⟨h.1, h.2, ?_, ?_⟩
      · rw [h.2]
      · rw [h.2]
    rcases red_rs485_extension_init_cases width fuel env x with
      ⟨_, bbuf, hb, h8, hT⟩ |
      ⟨abuf, bbuf, pbuf, sbuf, timeout, ha, ha0, hb, hb8, _, _, _, hne, _⟩ |
      ⟨result, hr, h0, hn, _⟩ | ⟨result, hr, h1, hn, hnco⟩
    · exact absurd hT (hfit bbuf hb h8)
    · exfalso
      rcases herr with ⟨bbuf2, hb2, hlt⟩ | ⟨abuf2, ha2, hnz⟩ | ⟨buf, hbuf, hz⟩
      · rw [hb] at hb2
        cases hb2
        omega
      · rw [ha] at ha2
        cases ha2
        exact hnz ha0
      · rw [read_slave_addresses_none env buf hbuf hz] at hne
        exact hne rfl
    · exact ⟨result, hr, Or.inl h0, fun _ => h0, hns result hn⟩
    · exact ⟨result, hr, Or.inr h1, fun hco => absurd hco hnco, hns result hn⟩

/-- Witness of C22 as amended: a store with the baud rate 7; a store with the
own address 3; a store without slave addresses; in each case every call
succeeds. -/
theorem configuration_errors_witness :
    red_rs485_extension_init 32 2 (example_environment 7 111 [17, 5]) initial_extension =
        some (0,
          { initial_extension with
            red_rs485_eeprom_config_baudrate := 7
            teardown := [Teardown.hardware_remove_stack, Teardown.stack_destroy,
              Teardown.i2c_eeprom_release] }) ∧
      red_rs485_extension_init 32 2 example_slave_environment initial_extension =
        some (0,
          { initial_extension with
            engine := { initial_extension.engine with TIMEOUT := 19944444 }
            red_rs485_eeprom_config_address := 3
            red_rs485_eeprom_config_baudrate := 115200
            red_rs485_eeprom_config_parity := 111
            red_rs485_eeprom_config_stopbits := 1
            teardown := [Teardown.hardware_remove_stack, Teardown.stack_destroy,
              Teardown.i2c_eeprom_release] }) ∧
      red_rs485_extension_init 32 2 (example_environment 115200 111 []) initial_extension =
        some (0,
          { initial_extension with
            engine := { initial_extension.engine with TIMEOUT := 19944444 }
            red_rs485_eeprom_config_baudrate := 115200
            red_rs485_eeprom_config_parity := 111
            red_rs485_eeprom_config_stopbits := 1
            red_rs485_serial_fd := 3
            master_timer_event := 4
            teardown := [Teardown.i2c_eeprom_release,
              Teardown.close_master_timer_event,
              Teardown.event_remove_source_master_timer_event,
              Teardown.close_serial_fd, Teardown.event_remove_source_serial_fd,
              Teardown.hardware_remove_stack, Teardown.stack_destroy,
              Teardown.i2c_eeprom_release] }) ∧
      ∃ result, red_rs485_extension_init 32 2 (example_environment 7 111 [17, 5])
          initial_extension = some result ∧
        (result.1 = 0 ∨ result.1 = -1) ∧ result.2.initialized = false := by
  have hT : TIMEOUT_of_baudrate 32 115200 = some 19944444 := by
    rw [TIMEOUT_of_baudrate_eq]
    decide
  refine ⟨?_, ?_, ?_, ?_⟩
  · exact (configuration_errors 32 2 (example_environment 7 111 [17, 5]) initial_extension).1
      (le_bytes 0) (le_bytes 7) (by decide) (by decide) (by decide) rfl rfl (by decide)
  · exact (configuration_errors 32 2 example_slave_environment initial_extension).2.1
      (le_bytes 3) (le_bytes 115200) [111] [1] 19944444 (by decide) (by decide) (by decide)
      rfl rfl (by decide) hT rfl rfl (by decide)
  · exact (configuration_errors 32 2 (example_environment 115200 111 [])
      initial_extension).2.2.1
      (le_bytes 0) (le_bytes 115200) [111] [1] (le_bytes 0) 19944444
      (by decide) (by decide) (by decide) rfl (by decide) rfl (by decide) hT rfl rfl
      (by decide) rfl (by decide) (by decide) (by decide) (by decide) (by decide) (by decide)
      (by decide)
  · obtain ⟨result, hr, h01, _, hinit, _⟩ :=
      (configuration_errors 32 2 (example_environment 7 111 [17, 5]) initial_extension).2.2.2
        (Or.inl ⟨le_bytes 7, rfl, by decide⟩)
        (by
          intro bbuf hb h8
          have h2 : some (le_bytes 7) = some bbuf := hb
          cases h2
          exact absurd h8 (by decide))
    exact ⟨result, hr, h01, hinit⟩

/-- Counterexample to C22: with the baud rate 7 in the store and every call
succeeding, `red_rs485_extension_init` returns 0, which is not negative. -/
theorem low_baudrate_counterexample :
    (example_environment 7 111 [17, 5]).i2c_eeprom_read
        RS485_EXTENSION_EEPROM_CONFIG_LOCATION_BAUDRATE 4 = some (le_bytes 7) ∧
      u32_of_buffer (le_bytes 7) < 8 ∧
      ∃ result, red_rs485_extension_init 32 2 (example_environment 7 111 [17, 5])
          initial_extension = some result ∧
        result.1 = 0 ∧ ¬ result.1 < 0 :=
  ⟨rfl, by decide, _, rfl, rfl, by decide⟩

end RS485
